import Mathlib

/-!
# hunter: frame synchronisation and SEQ recording

A shallow embedding of `src/streamer.cpp` (the synchronisation buffers, the
delivery queues, `Streamer::checkFrameBuffer`, the processor and the control
calls), of `src/seq_writer.cpp` (the Norpix SEQ writer), of
`src/camera_controller.cpp` (the property interface and the start of the Point
Grey cameras) and of `src/hunter.cpp` (the settings forms, which call
`Streamer::setROI`), with the properties proved about them.

Conventions of the embedding:
* a `CameraFrame*` is a natural number (the identity of the frame);
* a `std::queue` is a list, front first;
* the operations that run under a queue mutex are atomic steps;
* a C++ `int` is an `Int` wrapped to 32 bits after every arithmetic operation;
* a byte is a natural number below 256, and the target is little-endian;
* a `float` is the rational number it holds.
-/

namespace Hunter

/-! ## streamer.cpp: queues and the synchronisation coordinator -/

/-- Identity of a `CameraFrame` object (the pointer held by the queues). -/
abbrev Frame := Nat

/-- The enum `Streamer::Channels` (values 0, 1, 2, 3, 4 in this order). -/
inductive Channels
  | PointGreyTop
  | PointGreyFront
  | Color
  | Depth
  | IR
deriving DecidableEq, Repr, Fintype

/-- The constant `SynchronizationQueue::max_synchronization_queue_size`. -/
def max_synchronization_queue_size : Nat := 2

/-- The constant `Streamer::MAX_QUEUE_SIZE`. -/
def MAX_QUEUE_SIZE : Nat := 5

/-- The method `SynchronizationQueue::push`: when the queue already holds
`max_synchronization_queue_size` frames the front one is popped (and deleted),
then the new frame is pushed at the back. -/
def SynchronizationQueue.push (current_frame_queue : List Frame) (frame : Frame) : List Frame :=
  let q :=
    if current_frame_queue.length ≥ max_synchronization_queue_size then
      current_frame_queue.tail
    else
      current_frame_queue
  q ++ [frame]

/-- The method `FrameQueue::push`: the frame goes to the back of the queue. -/
def FrameQueue.push (queue : List Frame) (data : Frame) : List Frame :=
  queue ++ [data]

/-- The method `FrameQueue::pop`: `NULL` (here `none`) on an empty queue, which is
left as it is; otherwise the front frame, which is removed. -/
def FrameQueue.pop (queue : List Frame) : Option Frame × List Frame :=
  match queue with
  | [] => (none, [])
  | data :: rest => (some data, rest)

/-- The two arrays of queues of a `Streamer`, indexed by channel. -/
structure Streamer where
  frameQueues : Channels → List Frame
  synchronizationQueues : Channels → List Frame

/-- The vector `channels_to_check` built at the start of `checkFrameBuffer`. -/
def channels_to_check (p_pgTop p_pgFront p_depth p_color : Bool) : List Channels :=
  (if p_pgTop then [Channels.PointGreyTop] else []) ++
  (if p_pgFront then [Channels.PointGreyFront] else []) ++
  (if p_depth then [Channels.Depth] else []) ++
  (if p_color then [Channels.Color] else [])

/-- One iteration of the last loop of `checkFrameBuffer`:
`frameQueues[channel].push(synchronizationQueues[channel].current_frame_queue.front())`
followed by `current_frame_queue.pop()`. The loop runs only when every checked
buffer is non-empty, so the empty case is never reached. -/
def transferFrame (s : Streamer) (channel : Channels) : Streamer :=
  match s.synchronizationQueues channel with
  | [] => s
  | front :: rest =>
    { frameQueues :=
        Function.update s.frameQueues channel (FrameQueue.push (s.frameQueues channel) front)
      synchronizationQueues := Function.update s.synchronizationQueues channel rest }

/-- The method `Streamer::checkFrameBuffer`. -/
def checkFrameBuffer (s : Streamer) (p_pgTop p_pgFront p_depth p_color : Bool) : Streamer :=
  let chans := channels_to_check p_pgTop p_pgFront p_depth p_color
  if chans.length = 0 then
    s
  else
    let return_value :=
      chans.foldl
        (fun rv channel => rv && decide ((s.synchronizationQueues channel).length > 0)) true
    if return_value then
      let queue_full :=
        chans.foldl
          (fun qf channel =>
            if (s.frameQueues channel).length > MAX_QUEUE_SIZE then true else qf) false
      if !queue_full then
        chans.foldl transferFrame s
      else
        s
    else
      s

/-- Whether a channel is in the enabled set described by the four flags of
`checkFrameBuffer` (the IR channel has no flag). -/
def enabled (p_pgTop p_pgFront p_depth p_color : Bool) : Channels → Bool
  | Channels.PointGreyTop => p_pgTop
  | Channels.PointGreyFront => p_pgFront
  | Channels.Depth => p_depth
  | Channels.Color => p_color
  | Channels.IR => false

/-- The buffer of one channel after a sequence of `SynchronizationQueue::push`
calls, starting from `q`. -/
def pushAll (q : List Frame) (frames : List Frame) : List Frame :=
  frames.foldl SynchronizationQueue.push q

/-- One atomic step on the queues of a `Streamer`: a capture callback pushing a
frame into a channel's Synchronization Buffer, one pass of the coordinator, or a
Channel Processor popping its Delivery Queue. -/
inductive Op
  | push (channel : Channels) (frame : Frame)
  | check (p_pgTop p_pgFront p_depth p_color : Bool)
  | pop (channel : Channels)
deriving DecidableEq, Repr

/-- The effect of one step on the queues. -/
def step (s : Streamer) : Op → Streamer
  | Op.push channel frame =>
    { s with
      synchronizationQueues :=
        Function.update s.synchronizationQueues channel
          (SynchronizationQueue.push (s.synchronizationQueues channel) frame) }
  | Op.check p_pgTop p_pgFront p_depth p_color =>
    checkFrameBuffer s p_pgTop p_pgFront p_depth p_color
  | Op.pop channel =>
    { s with
      frameQueues :=
        Function.update s.frameQueues channel (FrameQueue.pop (s.frameQueues channel)).2 }

/-- The queues after a sequence of steps. -/
def run (s : Streamer) (ops : List Op) : Streamer :=
  ops.foldl step s

/-- The state of a fresh `Streamer`: every queue is empty. -/
def Streamer.init : Streamer :=
  { frameQueues := fun _ => []
    synchronizationQueues := fun _ => [] }

/-- The frames pushed into the Synchronization Buffer of `channel`, in order. -/
def pushedFrames (channel : Channels) : List Op → List Frame
  | [] => []
  | Op.push c frame :: ops =>
    if c = channel then frame :: pushedFrames channel ops else pushedFrames channel ops
  | _ :: ops => pushedFrames channel ops

/-- What a step hands to the Channel Processor of `channel`: the frame returned
by `FrameQueue::pop` when the step is a pop of that channel and the result is
not `NULL`. -/
def poppedBy (channel : Channels) (s : Streamer) : Op → List Frame
  | Op.pop c => if c = channel then (FrameQueue.pop (s.frameQueues c)).1.toList else []
  | _ => []

/-- The frames returned by `FrameQueue::pop` on the Delivery Queue of `channel`
along a sequence of steps started in `s`, in order. -/
def poppedFrames (channel : Channels) : Streamer → List Op → List Frame
  | _, [] => []
  | s, op :: ops => poppedBy channel s op ++ poppedFrames channel (step s op) ops

/-- The number of frames a step appends to the Delivery Queue of `channel` when
it is a coordinator pass; the other steps are not passes and have no entry. -/
def releasedBy (channel : Channels) (s : Streamer) : Op → List Nat
  | Op.check p_pgTop p_pgFront p_depth p_color =>
    [((checkFrameBuffer s p_pgTop p_pgFront p_depth p_color).frameQueues channel).length
      - (s.frameQueues channel).length]
  | _ => []

/-- For every coordinator pass of a sequence of steps started in `s`, in order,
the number of frames that pass released into the Delivery Queue of `channel`. -/
def releaseLog (channel : Channels) : Streamer → List Op → List Nat
  | _, [] => []
  | s, op :: ops => releasedBy channel s op ++ releaseLog channel (step s op) ops

/-- The number of frames released so far into the Delivery Queue of `channel`. -/
def releasedCount (channel : Channels) (s : Streamer) (ops : List Op) : Nat :=
  (releaseLog channel s ops).sum

/-- Every coordinator pass of the sequence runs with the same four flags. -/
def fixedFlags (p_pgTop p_pgFront p_depth p_color : Bool) (ops : List Op) : Prop :=
  ∀ a b c d, Op.check a b c d ∈ ops →
    a = p_pgTop ∧ b = p_pgFront ∧ c = p_depth ∧ d = p_color

/-- A state used to instantiate the theorems on the coordinator: Top and Front
have buffered frames, Depth has none, Color has one. -/
def exampleState : Streamer :=
  { frameQueues := fun ch =>
      match ch with
      | Channels.PointGreyTop => [1]
      | Channels.PointGreyFront => [2, 3]
      | _ => []
    synchronizationQueues := fun ch =>
      match ch with
      | Channels.PointGreyTop => [7, 8]
      | Channels.PointGreyFront => [9]
      | Channels.Color => [4]
      | _ => [] }

/-- A state in which the Delivery Queue of Top holds exactly `MAX_QUEUE_SIZE`
frames, the one of Front is empty, and both channels have one buffered frame. -/
def atCapacityState : Streamer :=
  { frameQueues := fun ch =>
      match ch with
      | Channels.PointGreyTop => [1, 2, 3, 4, 5]
      | _ => []
    synchronizationQueues := fun ch =>
      match ch with
      | Channels.PointGreyTop => [6]
      | Channels.PointGreyFront => [7]
      | _ => [] }

/-- A sequence of steps used to instantiate the theorems on traces: three
frames pushed on Top and two on Front, with passes for Top and Front and pops. -/
def exampleOps : List Op :=
  [Op.push Channels.PointGreyTop 1, Op.push Channels.PointGreyTop 2,
   Op.push Channels.PointGreyTop 3, Op.check true true false false,
   Op.push Channels.PointGreyFront 4, Op.check true true false false,
   Op.pop Channels.PointGreyTop, Op.pop Channels.PointGreyTop,
   Op.push Channels.PointGreyFront 5, Op.check true true false false,
   Op.pop Channels.PointGreyTop, Op.pop Channels.PointGreyFront]

/-! ## seq_writer.cpp: the SEQ writer -/

/-- The macro `COMPATIBILITY_MODE`: camera_controller.h defines it, so every
`#ifdef COMPATIBILITY_MODE` of the program takes its first branch. -/
def COMPATIBILITY_MODE : Bool := true

/-- The value of a C++ `int` (32 bits, two's complement) holding `x`. -/
def wrapInt32 (x : Int) : Int :=
  (x + 2147483648) % 4294967296 - 2147483648

/-- The product of two `int`s, as an `int`. -/
def mul32 (x y : Int) : Int :=
  wrapInt32 (x * y)

/-- The `k` bytes of the little-endian representation of `n`. -/
def leBytes (k : Nat) (n : Nat) : List Nat :=
  (List.range k).map (fun i => n / 256 ^ i % 256)

/-- The 4 bytes in memory of a 32-bit integer (`int32_t` or `uint32_t`). -/
def int32Bytes (x : Int) : List Nat :=
  leBytes 4 (x % 4294967296).toNat

/-- The 2 bytes in memory of a 16-bit integer (`short` or `unsigned short`). -/
def int16Bytes (x : Int) : List Nat :=
  leBytes 2 (x % 65536).toNat

/-- The number whose little-endian representation is `bytes`. -/
def readLE (bytes : List Nat) : Nat :=
  bytes.foldr (fun b acc => b + 256 * acc) 0

/-- The `len` bytes of `data` starting at `offset`. -/
def bytesAt (data : List Nat) (offset len : Nat) : List Nat :=
  (data.drop offset).take len

/-- The `int32_t` stored in `data` at `offset`. -/
def readInt32At (data : List Nat) (offset : Nat) : Int :=
  wrapInt32 (readLE (bytesAt data offset 4))

/-- The bytes `writeRawData(ptr, len)` takes from the memory `mem` at `ptr`:
`len` bytes, and none when `len` is negative (the device rejects the write). -/
def rawData (mem : Nat → Nat) (len : Int) : List Nat :=
  (List.range len.toNat).map (fun i => mem i % 256)

/-- The enum constant `SEQ_HEADER_SIZE`. -/
def SEQ_HEADER_SIZE : Nat := 1024

/-- The enum constant `SEQ_VER`. -/
def SEQ_VER : Int := 3

/-- The enum constant `NORPIX_STRING_LENGTH`. -/
def NORPIX_STRING_LENGTH : Nat := 10

/-- The enum constant `NORPIX_DESC_LENGTH`. -/
def NORPIX_DESC_LENGTH : Nat := 1

/-- The enum constant `NORPIX_DESC_SIZE`. -/
def NORPIX_DESC_SIZE : Nat := 512

/-- The enum constant `SEQ_UNCOMPRESSED_COLOR`. -/
def SEQ_UNCOMPRESSED_COLOR : Int := 200

/-- The enum constant `SEQ_JPEG_COLOR`. -/
def SEQ_JPEG_COLOR : Int := 201

/-- The enum constant `SEQ_UNCOMPRESSED_GRAYSCALE`. -/
def SEQ_UNCOMPRESSED_GRAYSCALE : Int := 100

/-- The enum constant `SEQ_JPEG_GRAYSCALE`. -/
def SEQ_JPEG_GRAYSCALE : Int := 102

/-- The table `SEQWriter::bitsPerPixel`, indexed by channel. -/
def bitsPerPixel (channel : Channels) : Int :=
  if COMPATIBILITY_MODE then
    match channel with
    | Channels.PointGreyTop => 8
    | Channels.PointGreyFront => 8
    | Channels.Color => 24
    | Channels.Depth => 8
    | Channels.IR => 8
  else
    match channel with
    | Channels.PointGreyTop => 8
    | Channels.PointGreyFront => 8
    | Channels.Color => 24
    | Channels.Depth => 16
    | Channels.IR => 16

/-- The table `SEQWriter::fileNameChannels`, indexed by channel. -/
def fileNameChannels : Channels → String
  | Channels.PointGreyTop => "Top"
  | Channels.PointGreyFront => "Front"
  | Channels.Color => "Color"
  | Channels.Depth => "DepGr"
  | Channels.IR => "IR"

/-- The constant `SEQWriter::fileNameHead`. -/
def fileNameHead : String := "Mouse_"

/-- The constant `SEQWriter::fileNameFoot`. -/
def fileNameFoot : String := ".seq"

/-- The constant `SEQWriter::fileNameCompressed`. -/
def fileNameCompressed : String := "J85"

/-- The constant `SEQWriter::fileNameRaw`. -/
def fileNameRaw : String := "Raw"

/-- The constant `SEQWriter::fileNameSeparator`. -/
def fileNameSeparator : String := "_"

/-- The array `SEQWriter::norpixString` of `unsigned short`. -/
def norpixString : List Nat :=
  ['N', 'o', 'r', 'p', 'i', 'x', ' ', 's', 'e', 'q'].map Char.toNat

/-- The constant `SEQWriter::norpixVar`. -/
def norpixVar : Int := 0xFEED

/-- The constant `SEQWriter::norpixVer`. -/
def norpixVer : Int := SEQ_VER

/-- The constant `SEQWriter::norpixHeaderSize`. -/
def norpixHeaderSize : Int := SEQ_HEADER_SIZE

/-- The constant `SEQWriter::norpixOrigin`. -/
def norpixOrigin : Int := 0

/-- The constant `SEQWriter::norpixBPS`. -/
def norpixBPS : Int := 8

/-- The array `SEQWriter::norpixDesc`: the empty string, one terminating zero. -/
def norpixDesc : List Nat := [0]

/-- The 8 bytes in memory of `double fps = 30.0` (IEEE 754 binary64
`0x403E000000000000`, little-endian). -/
def fpsBytes : List Nat := [0, 0, 0, 0, 0, 0, 0x3E, 0x40]

/-- A `QFile` seen through its `QDataStream`: the name and content of the
file, the position of the next write, and whether the device is open. -/
structure QFile where
  fileName : String
  data : List Nat
  pos : Nat
  isOpen : Bool

/-- The call `QDataStream::writeRawData` on the file: on an open device the
bytes overwrite the content from the current position on and extend the file
when they pass its end (a gap left by a seek beyond the end reads as zeros);
the position moves past them. A closed device rejects the write. -/
def QFile.writeRawData (f : QFile) (bytes : List Nat) : QFile :=
  if f.isOpen then
    match bytes with
    | [] => f
    | _ :: _ =>
      { f with
        data :=
          f.data.take f.pos ++ List.replicate (f.pos - f.data.length) 0 ++ bytes ++
            f.data.drop (f.pos + bytes.length)
        pos := f.pos + bytes.length }
  else
    f

/-- The call `QFile::seek`. -/
def QFile.seek (f : QFile) (pos : Nat) : QFile :=
  if f.isOpen then { f with pos := pos } else f

/-- The calls `setFileName(path)` and `open(QIODevice::WriteOnly)`, taken to
succeed (the program does not look at the result): the file is created or
truncated and the position is 0. -/
def QFile.openWriteOnly (path : String) : QFile :=
  { fileName := path, data := [], pos := 0, isOpen := true }

/-- The call `QFile::close`. -/
def QFile.close (f : QFile) : QFile :=
  { f with pos := 0, isOpen := false }

/-- A loop `for (i = 0; i < n; i++) writeRawData(&null, 1)`. -/
def writeNulls (f : QFile) : Nat → QFile
  | 0 => f
  | n + 1 => writeNulls (f.writeRawData [0]) n

/-- What the writer reads of a `QImage`: `width()`, `height()` and the memory
at `bits()`. -/
structure QImage where
  width : Int
  height : Int
  bits : Nat → Nat

/-- The member variables of a `SEQWriter`. -/
structure SEQWriter where
  seqFile : QFile
  totalFrames : Int
  width : Int
  height : Int
  streamChannel : Channels
  compressed : Bool

/-- The function `SEQWriter::makeEmptyHeader`. -/
def makeEmptyHeader (seqFile : QFile) : QFile :=
  writeNulls seqFile SEQ_HEADER_SIZE

/-- The method `SEQWriter::startRecording`. -/
def SEQWriter.startRecording (w : SEQWriter) (workingDir : String) (width height : Int)
    (compressed : Bool) (dateTime : String) (isPGswitched : Bool) : SEQWriter :=
  let current_chan :=
    if w.streamChannel = Channels.PointGreyFront ∧ isPGswitched = true then
      Channels.PointGreyTop
    else if w.streamChannel = Channels.PointGreyTop ∧ isPGswitched = true then
      Channels.PointGreyFront
    else
      w.streamChannel
  let path :=
    workingDir ++ "recordings/" ++ fileNameHead ++ dateTime ++ fileNameSeparator ++
      fileNameChannels current_chan ++ fileNameSeparator ++
      (if compressed then fileNameCompressed else fileNameRaw) ++ fileNameFoot
  let seqFile := QFile.openWriteOnly path
  let seqFile := makeEmptyHeader seqFile
  { w with
    seqFile := seqFile
    totalFrames := 0
    compressed := compressed
    width := width
    height := height }

/-- The local `bytesPerFrame` of `SEQWriter::writeHeader`. -/
def bytesPerFrame (width height bpp_num : Int) : Int :=
  if COMPATIBILITY_MODE then
    wrapInt32 (Int.tdiv (mul32 (mul32 width height) bpp_num) 1)
  else
    wrapInt32 (Int.tdiv (mul32 (mul32 width height) bpp_num) 8)

/-- The local `trueImageSize` of `SEQWriter::writeHeader` (both branches of the
`#ifdef` are the same: `bytesPerFrame + 8 * sizeof(uint8_t)`). -/
def trueImageSize (bytesPerFrame : Int) : Int :=
  wrapInt32 (bytesPerFrame + 8 * 1)

/-- The local `imageFormat` of `SEQWriter::writeHeader`. -/
def imageFormat (compressed : Bool) (streamChannel : Channels) : Int :=
  if !compressed then
    if streamChannel = Channels.Color then SEQ_UNCOMPRESSED_COLOR
    else SEQ_UNCOMPRESSED_GRAYSCALE
  else
    if streamChannel = Channels.Color then SEQ_JPEG_COLOR
    else SEQ_JPEG_GRAYSCALE

/-- The body of `SEQWriter::writeHeader`: the file after the writes, and the
final value of the local `remainingHeader`. -/
def writeHeaderCore (w : SEQWriter) (width height bpp_num : Int) : QFile × Int :=
  let bytesPerFrame : Int := bytesPerFrame width height bpp_num
  let trueImageSize : Int := trueImageSize bytesPerFrame
  let remainingHeader : Int := SEQ_HEADER_SIZE
  let f := w.seqFile.seek 0
  let f := f.writeRawData (int32Bytes norpixVar)
  let remainingHeader := remainingHeader - 4
  let f := norpixString.foldl (fun f c => f.writeRawData (int16Bytes c)) f
  let remainingHeader := remainingHeader - NORPIX_STRING_LENGTH * 2
  let f := writeNulls f 4
  let remainingHeader := remainingHeader - 4
  let f := f.writeRawData (int32Bytes norpixVer)
  let remainingHeader := remainingHeader - 4
  let f := f.writeRawData (int32Bytes norpixHeaderSize)
  let remainingHeader := remainingHeader - 4
  let f := f.writeRawData (norpixDesc.take NORPIX_DESC_LENGTH)
  let f := writeNulls f (NORPIX_DESC_SIZE - NORPIX_DESC_LENGTH)
  let remainingHeader := remainingHeader - NORPIX_DESC_SIZE
  let f := f.writeRawData (int32Bytes width)
  let f := f.writeRawData (int32Bytes height)
  let f := f.writeRawData (int32Bytes bpp_num)
  let f := f.writeRawData (int32Bytes norpixBPS)
  let f := f.writeRawData (int32Bytes bytesPerFrame)
  let imageFormat : Int := imageFormat w.compressed w.streamChannel
  let f := f.writeRawData (int32Bytes imageFormat)
  let remainingHeader := remainingHeader - 6 * 4
  let f := f.writeRawData (int32Bytes w.totalFrames)
  let remainingHeader := remainingHeader - 4
  let f := f.writeRawData (int32Bytes norpixOrigin)
  let remainingHeader := remainingHeader - 4
  let f := f.writeRawData (int32Bytes trueImageSize)
  let remainingHeader := remainingHeader - 4
  let f := f.writeRawData fpsBytes
  let remainingHeader := remainingHeader - 8
  let f := writeNulls f remainingHeader.toNat
  (f, remainingHeader)

/-- The method `SEQWriter::writeHeader`. -/
def SEQWriter.writeHeader (w : SEQWriter) (width height bpp_num : Int) : SEQWriter :=
  { w with seqFile := (writeHeaderCore w width height bpp_num).1 }

/-- The method `SEQWriter::stopRecording`. -/
def SEQWriter.stopRecording (w : SEQWriter) : SEQWriter :=
  let bpp := bitsPerPixel w.streamChannel
  let w := w.writeHeader w.width w.height bpp
  { w with seqFile := w.seqFile.close }

/-- The method `SEQWriter::writeFrame`. The JPEG library call `compressJPEG` is
a parameter: it yields the encoded bytes, or `none` when it throws, in which
case `writeFrame` is left before any write. -/
def SEQWriter.writeFrame (compressJPEG : QImage → Int → Int → Option (List Nat))
    (w : SEQWriter) (image : QImage) (secs ms : Int) : Option SEQWriter :=
  let sized : Option (Int × List Nat) :=
    if w.compressed then
      match compressJPEG image w.width w.height with
      | none => none
      | some jpeg => some (wrapInt32 (jpeg.length : Int), jpeg)
    else
      some (Int.tdiv (mul32 (mul32 image.width image.height) (bitsPerPixel w.streamChannel)) 8, [])
  match sized with
  | none => none
  | some (image_size, _compressedImage) =>
    let f := w.seqFile
    let f :=
      if COMPATIBILITY_MODE then
        f.writeRawData (int32Bytes image_size)
      else if w.compressed then
        f.writeRawData (int32Bytes image_size)
      else
        f
    let f :=
      if w.compressed then
        f.writeRawData (rawData (fun i => _compressedImage.getD i 0) image_size)
      else
        f.writeRawData (rawData image.bits image_size)
    let mc : Int := 0
    let f := f.writeRawData (int32Bytes secs)
    let f := f.writeRawData (int16Bytes ms)
    let f := f.writeRawData (int16Bytes mc)
    let f := if COMPATIBILITY_MODE then writeNulls f 8 else f
    some { w with seqFile := f, totalFrames := wrapInt32 (w.totalFrames + 1) }

/-- The arguments of one `writeFrame` call: the image and the two timestamp parts. -/
structure FrameArgs where
  image : QImage
  secs : Int
  ms : Int

/-- A sequence of `writeFrame` calls; `none` when one of them throws. -/
def writeFrames (compressJPEG : QImage → Int → Int → Option (List Nat)) :
    SEQWriter → List FrameArgs → Option SEQWriter
  | w, [] => some w
  | w, a :: rest =>
    match w.writeFrame compressJPEG a.image a.secs a.ms with
    | none => none
    | some w1 => writeFrames compressJPEG w1 rest

/-- A whole recording session on a writer: `startRecording`, one `writeFrame`
per element of `frames`, then `stopRecording`. -/
def recordSession (compressJPEG : QImage → Int → Int → Option (List Nat)) (w : SEQWriter)
    (workingDir : String) (width height : Int) (compressed : Bool) (dateTime : String)
    (isPGswitched : Bool) (frames : List FrameArgs) : Option SEQWriter :=
  (writeFrames compressJPEG
      (w.startRecording workingDir width height compressed dateTime isPGswitched) frames).map
    SEQWriter.stopRecording

/-- The 1024 bytes of a finished header, field after field: what the writes of
`SEQWriter::writeHeader` put in the file from offset 0 on. -/
def headerBytes (compressed : Bool) (streamChannel : Channels) (totalFrames : Int)
    (width height bpp_num : Int) : List Nat :=
  int32Bytes norpixVar ++
  ([78, 0, 111, 0, 114, 0, 112, 0, 105, 0, 120, 0, 32, 0, 115, 0, 101, 0, 113, 0] ++
  (List.replicate 4 0 ++
  (int32Bytes norpixVer ++
  (int32Bytes norpixHeaderSize ++
  (List.replicate 512 0 ++
  (int32Bytes width ++
  (int32Bytes height ++
  (int32Bytes bpp_num ++
  (int32Bytes norpixBPS ++
  (int32Bytes (bytesPerFrame width height bpp_num) ++
  (int32Bytes (imageFormat compressed streamChannel) ++
  (int32Bytes totalFrames ++
  (int32Bytes norpixOrigin ++
  (int32Bytes (trueImageSize (bytesPerFrame width height bpp_num)) ++
  (fpsBytes ++
  List.replicate 432 0)))))))))))))))

/-- The bytes one `writeFrame` call of an uncompressed session puts in the file
as the program is built: the 4-byte image size, the pixel bytes, the timestamp
record and 8 zero bytes. -/
def rawFrameBytes (channel : Channels) (image : QImage) (secs ms : Int) : List Nat :=
  int32Bytes (Int.tdiv (mul32 (mul32 image.width image.height) (bitsPerPixel channel)) 8) ++
  (rawData image.bits
      (Int.tdiv (mul32 (mul32 image.width image.height) (bitsPerPixel channel)) 8) ++
  (int32Bytes secs ++ (int16Bytes ms ++ ([0, 0] ++ List.replicate 8 0))))

/-- The bytes a sequence of `writeFrame` calls of an uncompressed session puts
in the file, frame after frame. -/
def frameStream (channel : Channels) : List FrameArgs → List Nat
  | [] => []
  | a :: rest => rawFrameBytes channel a.image a.secs a.ms ++ frameStream channel rest

/-- The file of the writer is open and its position is at the end of the
content (the state between `startRecording` and `stopRecording`), and the
frame counter holds an `int`. -/
def Recording (w : SEQWriter) : Prop :=
  w.seqFile.isOpen = true ∧ w.seqFile.pos = w.seqFile.data.length ∧
    wrapInt32 w.totalFrames = w.totalFrames

/-- A JPEG library that always throws; it is never called in an uncompressed session. -/
def noJPEG : QImage → Int → Int → Option (List Nat) :=
  fun _ _ _ => none

/-- A JPEG library that returns the same three bytes for every image. -/
def stubJPEG : QImage → Int → Int → Option (List Nat) :=
  fun _ _ _ => some [255, 216, 217]

/-- A writer for the Top channel that has already recorded a session of three
frames and closed it. -/
def usedWriter : SEQWriter :=
  { seqFile := { fileName := "old.seq", data := List.replicate 1030 7, pos := 0, isOpen := false }
    totalFrames := 3
    width := 10
    height := 10
    streamChannel := Channels.PointGreyTop
    compressed := true }

/-- A 64 x 48 image whose byte at offset `i` is `i mod 251`. -/
def testImage : QImage :=
  { width := 64, height := 48, bits := fun i => i % 251 }

/-- One `writeFrame` call with `testImage` at 12 s 345 ms. -/
def testFrame : FrameArgs :=
  { image := testImage, secs := 12, ms := 345 }

/-- The writer `usedWriter` right after the `startRecording` of a new,
uncompressed 64 x 48 session. -/
def recordingWriter : SEQWriter :=
  usedWriter.startRecording "rec/" 64 48 false "20240101_00-00-00" false

/-! ## seq_writer.cpp: a session that is not closed -/

/-- The writer at the point where a sequence of `writeFrame` calls ends: after
the last call, or before the first call that throws (`compressJPEG` throws
before `writeFrame` has written anything). -/
def stateAfterCalls (compressJPEG : QImage → Int → Int → Option (List Nat)) :
    SEQWriter → List FrameArgs → SEQWriter
  | w, [] => w
  | w, a :: rest =>
    match w.writeFrame compressJPEG a.image a.secs a.ms with
    | none => w
    | some w1 => stateAfterCalls compressJPEG w1 rest

/-! ## streamer.cpp: depth scaling -/

/-- The local `slope` of the depth scaling, `float slope = -255 / (480 - 225)`:
the quotient is an `int` division, whose result -1 is then converted. All the
`float` values of the scaling are integers of magnitude below 2^24, which a
`float` holds exactly, so they are integers here. -/
def slope : Int :=
  Int.tdiv (-255) (480 - 225)

/-- The local `y_intercept` of the depth scaling,
`int y_intercept = 255 - slope * 225`. -/
def y_intercept : Int :=
  255 - slope * 225

/-- The value stored in `scaledImage.bits()[i]` for the two bytes `a` (at
`2 * i`) and `b` (at `2 * i + 1`) of the 16-bit image:
`value = (b << 8) + a`, `scaled_value = value * slope + y_intercept`, clamped
to 0 .. 255. -/
def scaled_value (a b : Nat) : Int :=
  let value : Int := ((b % 256) * 256 + a % 256 : Nat)
  let scaled_value : Int := value * slope + y_intercept
  if scaled_value > 255 then 255
  else if scaled_value < 0 then 0
  else scaled_value

/-- The 8-bit image the depth scaling loop computes from a 16-bit image: byte
`i` is `scaled_value` of the bytes `2 * i` and `2 * i + 1`; `geometry` is the
image whose `copy` was converted to 8 bits to receive the result. -/
def depthScaled (geometry source : QImage) : QImage :=
  { width := geometry.width
    height := geometry.height
    bits := fun i => (scaled_value (source.bits (2 * i)) (source.bits (2 * i + 1))).toNat }

/-! ## streamer.cpp: control state and regions of interest -/

/-- The enum `CameraController::Cameras` (values 0, 1, 2, 3 in this order;
`NUM_CAMERAS` is their number). -/
inductive Cameras
  | PointGreyTop
  | PointGreyFront
  | Color
  | Depth
deriving DecidableEq, Repr, Fintype

/-- The enum `Streamer::ROICoordinates` (`ROI_SIZE` is their number). -/
inductive ROICoordinates
  | X
  | Y
  | W
  | H
deriving DecidableEq, Repr, Fintype

/-- The channel that has the enum value of a camera: `Streamer::Channels`
takes its first four values from `CameraController::Cameras`. -/
def Cameras.toChannel : Cameras → Channels
  | Cameras.PointGreyTop => Channels.PointGreyTop
  | Cameras.PointGreyFront => Channels.PointGreyFront
  | Cameras.Color => Channels.Color
  | Cameras.Depth => Channels.Depth

/-- The `switch` at the start of `Streamer::imageProcessor`: the camera of a
channel (`Depth` is the default case, taken by `IR`). -/
def camOf : Channels → Cameras
  | Channels.PointGreyTop => Cameras.PointGreyTop
  | Channels.PointGreyFront => Cameras.PointGreyFront
  | Channels.Color => Cameras.Color
  | Channels.Depth => Cameras.Depth
  | Channels.IR => Cameras.Depth

/-- The struct `Streamer::stream_attributes`. -/
structure stream_attributes where
  recording : Bool
  streaming : Bool
  compressed : Bool
  shouldSnap : Bool
deriving DecidableEq, Repr

/-- A call the `Streamer` issues to a collaborator: `startRecording` or
`stopRecording` on the writer of a channel, or the start of an
`imageProcessor` thread for a channel. -/
inductive Call
  | startRecording (channel : Channels)
  | stopRecording (channel : Channels)
  | imageProcessor (channel : Channels)
deriving DecidableEq, Repr

/-- The member variables of a `Streamer` other than the queues, and `calls`,
the calls issued so far to writers and threads, oldest first. `lastUIUpdate`
is in milliseconds. -/
structure StreamerState where
  maxDepthMM : Int
  record : Bool
  isPGswitched : Bool
  seqWriters : Channels → SEQWriter
  lastUIUpdate : Channels → Int
  ROIs : Cameras → ROICoordinates → Int
  originalROIs : Cameras → ROICoordinates → Int
  streamAttributes : Channels → stream_attributes
  recording : Bool
  running : Bool
  workingDir : String
  calls : List Call

/-- The enum constant `Streamer::MAX_DEPTH_DEFAULT`. -/
def MAX_DEPTH_DEFAULT : Int := 480

/-- The constant `Streamer::UI_UPDATE_RATE`. -/
def UI_UPDATE_RATE : Int := 100

/-- The constructor `SEQWriter::SEQWriter`: it sets `streamChannel`; the file
is a closed `QFile` without a name; the other members keep the indeterminate
values `u` has. -/
def newSEQWriter (u : SEQWriter) (channel : Channels) : SEQWriter :=
  { u with
    seqFile := { fileName := "", data := [], pos := 0, isOpen := false }
    streamChannel := channel }

/-- The values the constructor `Streamer::Streamer` gives to `ROIs`. -/
def initialROIs : Cameras → ROICoordinates → Int
  | Cameras.PointGreyTop, ROICoordinates.X => 0
  | Cameras.PointGreyTop, ROICoordinates.Y => 0
  | Cameras.PointGreyTop, ROICoordinates.W => 1920
  | Cameras.PointGreyTop, ROICoordinates.H => 1200
  | Cameras.PointGreyFront, ROICoordinates.X => 0
  | Cameras.PointGreyFront, ROICoordinates.Y => 0
  | Cameras.PointGreyFront, ROICoordinates.W => 1920
  | Cameras.PointGreyFront, ROICoordinates.H => 1200
  | Cameras.Depth, ROICoordinates.X => 0
  | Cameras.Depth, ROICoordinates.Y => 0
  | Cameras.Depth, ROICoordinates.W => 320
  | Cameras.Depth, ROICoordinates.H => 240
  | Cameras.Color, ROICoordinates.X => 0
  | Cameras.Color, ROICoordinates.Y => 0
  | Cameras.Color, ROICoordinates.W => 640
  | Cameras.Color, ROICoordinates.H => 480

/-- The constructor `Streamer::Streamer`. It does not set `recording`, which
keeps the indeterminate value `u` has; the time points of `lastUIUpdate` are
default-constructed, which makes them the epoch of the clock, and `workingDir`
is an empty string. -/
def newStreamer (u : StreamerState) : StreamerState :=
  { maxDepthMM := MAX_DEPTH_DEFAULT
    streamAttributes := fun _ =>
      { shouldSnap := false, recording := false, compressed := false, streaming := false }
    seqWriters := fun channel => newSEQWriter (u.seqWriters channel) channel
    ROIs := initialROIs
    originalROIs := fun x y => initialROIs x y
    isPGswitched := false
    running := false
    record := false
    recording := u.recording
    lastUIUpdate := fun _ => 0
    workingDir := ""
    calls := [] }

/-- The method `Streamer::setROI`. -/
def StreamerState.setROI (st : StreamerState) (camera : Cameras) (x y w h : Int) :
    StreamerState :=
  { st with
    ROIs := Function.update st.ROIs camera (fun value =>
      match value with
      | ROICoordinates.X => x
      | ROICoordinates.Y => y
      | ROICoordinates.W => w
      | ROICoordinates.H => h) }

/-- The method `Streamer::getROI`. -/
def StreamerState.getROI (st : StreamerState) (camera : Cameras) (value : ROICoordinates) : Int :=
  st.ROIs camera value

/-- The method `Streamer::getOriginalROI`. -/
def StreamerState.getOriginalROI (st : StreamerState) (camera : Cameras)
    (value : ROICoordinates) : Int :=
  st.originalROIs camera value

/-- The method `Streamer::saveSnapshot`. -/
def StreamerState.saveSnapshot (st : StreamerState) (camera : Cameras) : StreamerState :=
  { st with
    streamAttributes := Function.update st.streamAttributes camera.toChannel
      { st.streamAttributes camera.toChannel with shouldSnap := true } }

/-- One `setROI` call: the camera and the four values. -/
structure ROICall where
  camera : Cameras
  x : Int
  y : Int
  w : Int
  h : Int

/-- The state after a sequence of `setROI` calls. -/
def setROIs (st : StreamerState) (calls : List ROICall) : StreamerState :=
  calls.foldl (fun st c => st.setROI c.camera c.x c.y c.w c.h) st

/-- The width of the sensor of a camera. -/
def sensorWidth : Cameras → Int
  | Cameras.PointGreyTop => 1920
  | Cameras.PointGreyFront => 1920
  | Cameras.Color => 640
  | Cameras.Depth => 320

/-- The height of the sensor of a camera. -/
def sensorHeight : Cameras → Int
  | Cameras.PointGreyTop => 1200
  | Cameras.PointGreyFront => 1200
  | Cameras.Color => 480
  | Cameras.Depth => 240

/-- The rectangle `x, y, w, h` lies inside the sensor of `camera`. -/
def roiInSensor (camera : Cameras) (x y w h : Int) : Prop :=
  0 ≤ x ∧ 0 ≤ y ∧ x + w ≤ sensorWidth camera ∧ y + h ≤ sensorHeight camera

/-- The ROI invariant for one camera in a state. -/
def roiInvariant (st : StreamerState) (camera : Cameras) : Prop :=
  roiInSensor camera (st.ROIs camera ROICoordinates.X) (st.ROIs camera ROICoordinates.Y)
    (st.ROIs camera ROICoordinates.W) (st.ROIs camera ROICoordinates.H)

/-! ## streamer.cpp: one iteration of the processor -/

/-- The condition of the main loop of `Streamer::imageProcessor`:
`running && (streaming || recording)` of the channel. -/
def processorContinues (st : StreamerState) (channel : Channels) : Bool :=
  st.running &&
    ((st.streamAttributes channel).streaming || (st.streamAttributes channel).recording)

/-- The condition on which the wait loop of `Streamer::imageProcessor` returns:
`!running || (!streaming && !recording)` of the channel. -/
def processorReturns (st : StreamerState) (channel : Channels) : Bool :=
  !st.running ||
    (!(st.streamAttributes channel).streaming && !(st.streamAttributes channel).recording)

/-- The condition of the recording section of `Streamer::imageProcessor`:
`streamAttributes[channel].recording && recording`. -/
def recordingActive (st : StreamerState) (channel : Channels) : Bool :=
  (st.streamAttributes channel).recording && st.recording

/-- The rectangle `roi` of `Streamer::imageProcessor` applied to an image:
`image.copy(QRect(ROIs[cam][X], ROIs[cam][Y], ROIs[cam][W], ROIs[cam][H]))`,
for a `copy` that takes the image and the four values of the rectangle. -/
def cropToROI {α : Type} (copy : α → Int → Int → Int → Int → α) (st : StreamerState)
    (cam : Cameras) (image : α) : α :=
  copy image (st.ROIs cam ROICoordinates.X) (st.ROIs cam ROICoordinates.Y)
    (st.ROIs cam ROICoordinates.W) (st.ROIs cam ROICoordinates.H)

/-- A bitmap seen pixel by pixel: its size and the value of the pixel at a
column and a row. -/
structure Bitmap where
  width : Int
  height : Int
  pixel : Int → Int → Nat

/-- Modelled from the spec: the crop of a bitmap to a rectangle, which the
source leaves to `QImage::copy(const QRect&)` of the Qt library, not part of
the repository. The result has the size of the rectangle; its pixel at
`(i, j)` is the pixel of the source at `(x + i, y + j)`, and 0 where that
position or `(i, j)` lies outside. -/
def Bitmap.copy (image : Bitmap) (x y w h : Int) : Bitmap :=
  { width := w
    height := h
    pixel := fun i j =>
      if 0 ≤ i ∧ i < w ∧ 0 ≤ j ∧ j < h ∧
          0 ≤ x + i ∧ x + i < image.width ∧ 0 ≤ y + j ∧ y + j < image.height then
        image.pixel (x + i) (y + j)
      else 0 }

/-- What the loop body of `Streamer::imageProcessor` holds once the frame it
dequeued is converted: `rawImage`, the image built from `DSConfidenceMap` when
the frame has one, and what the reads of `currentFrame->timestampSeconds` and
`currentFrame->timestampMilliSeconds` yield after the conversion
(`convertFrame` builds these values from the frame). -/
structure FrameData where
  rawImage : QImage
  confidenceImage : Option QImage
  timestampSeconds : Int
  timestampMilliSeconds : Int

/-- A snapshot file written by the processor: its name and content. -/
structure SnapshotFile where
  fileName : String
  data : List Nat
deriving DecidableEq, Repr

/-- The name of the snapshot file of a channel:
`workingDir + "snapshots/" "Mouse_" + timeStamp + "_" + fileNameChannels[channel] + "_" + ".jpeg"`. -/
def snapshotName (workingDir timeStamp : String) (channel : Channels) : String :=
  workingDir ++ "snapshots/Mouse_" ++ timeStamp ++ "_" ++ fileNameChannels channel ++ "_" ++
    ".jpeg"

/-- The snapshot file the processor writes for the encoded bytes `jpeg`: the
file is opened, `writeRawData(_compressedImage, compressed_size)` is called
and the file is closed. -/
def snapshotFile (workingDir timeStamp : String) (channel : Channels) (jpeg : List Nat) :
    SnapshotFile :=
  { fileName := snapshotName workingDir timeStamp channel
    data := rawData (fun i => jpeg.getD i 0) (wrapInt32 (jpeg.length : Int)) }

/-- The snapshot section of the loop body of `Streamer::imageProcessor`: the
state after it and the files it wrote, or `none` when `compressJPEG` throws.
`timeStamp` is the value `currentDateTime()` returns. -/
def snapshotSection (compressJPEG : QImage → Int → Int → Option (List Nat))
    (st : StreamerState) (channel : Channels) (frame : FrameData) (timeStamp : String) :
    Option (StreamerState × List SnapshotFile) :=
  if (st.streamAttributes channel).shouldSnap then
    match compressJPEG frame.rawImage frame.rawImage.width frame.rawImage.height with
    | none => none
    | some jpeg =>
      let files := [snapshotFile st.workingDir timeStamp channel jpeg]
      let st :=
        { st with
          streamAttributes := Function.update st.streamAttributes channel
            { st.streamAttributes channel with shouldSnap := false } }
      if channel = Channels.Depth then
        match frame.confidenceImage with
        | some confidenceImage =>
          match compressJPEG confidenceImage frame.rawImage.width frame.rawImage.height with
          | none => none
          | some jpegIR =>
            some (st, files ++ [snapshotFile st.workingDir timeStamp Channels.IR jpegIR])
        | none => some (st, files)
      else
        some (st, files)
  else
    some (st, [])

/-- The call `seqWriters[channel]->writeFrame(&image, secs, ms)` in a state;
`none` when it throws. -/
def writerWriteFrame (compressJPEG : QImage → Int → Int → Option (List Nat))
    (st : StreamerState) (channel : Channels) (image : QImage) (secs ms : Int) :
    Option StreamerState :=
  match (st.seqWriters channel).writeFrame compressJPEG image secs ms with
  | none => none
  | some w => some { st with seqWriters := Function.update st.seqWriters channel w }

/-- The recording section of the loop body of `Streamer::imageProcessor`;
`none` when a `writeFrame` throws. `copy` is `QImage::copy(const QRect&)`. The
timestamp passed to the writers is what the reads of `currentFrame` yield
at this point. -/
def recordingSection (compressJPEG : QImage → Int → Int → Option (List Nat))
    (copy : QImage → Int → Int → Int → Int → QImage)
    (st : StreamerState) (channel : Channels) (frame : FrameData) : Option StreamerState :=
  let scaledImage := depthScaled frame.rawImage frame.rawImage
  if recordingActive st channel then
    if channel = Channels.Depth then
      let afterIR : Option StreamerState :=
        match frame.confidenceImage with
        | some confidenceImage =>
          if COMPATIBILITY_MODE then
            let scaled_IR := depthScaled scaledImage confidenceImage
            writerWriteFrame compressJPEG st Channels.IR
              (cropToROI copy st (camOf channel) scaled_IR)
              frame.timestampSeconds frame.timestampMilliSeconds
          else
            writerWriteFrame compressJPEG st Channels.IR
              (cropToROI copy st (camOf channel) confidenceImage)
              frame.timestampSeconds frame.timestampMilliSeconds
        | none => some st
      match afterIR with
      | none => none
      | some st =>
        if COMPATIBILITY_MODE then
          writerWriteFrame compressJPEG st channel
            (cropToROI copy st (camOf channel) scaledImage)
            frame.timestampSeconds frame.timestampMilliSeconds
        else
          writerWriteFrame compressJPEG st channel
            (cropToROI copy st (camOf channel) frame.rawImage)
            frame.timestampSeconds frame.timestampMilliSeconds
    else
      writerWriteFrame compressJPEG st channel
        (cropToROI copy st (camOf channel) frame.rawImage)
        frame.timestampSeconds frame.timestampMilliSeconds
  else
    some st

/-- The display section of the loop body of `Streamer::imageProcessor`: the
state after it and the `updateCamera` signals it emitted. `now` is the clock
in milliseconds. -/
def displaySection (copy : QImage → Int → Int → Int → Int → QImage) (st : StreamerState)
    (channel : Channels) (frame : FrameData) (now : Int) :
    StreamerState × List (Cameras × QImage) :=
  let scaledImage := depthScaled frame.rawImage frame.rawImage
  if channel ≠ Channels.IR ∧ (st.streamAttributes channel).streaming = true then
    let time_diff := wrapInt32 (Int.tmod (now - st.lastUIUpdate channel) 1000000000)
    if time_diff > UI_UPDATE_RATE then
      let st1 := { st with lastUIUpdate := Function.update st.lastUIUpdate channel now }
      let cropped_image :=
        if channel = Channels.Depth then cropToROI copy st1 (camOf channel) scaledImage
        else cropToROI copy st1 (camOf channel) frame.rawImage
      (st1, [(camOf channel, cropped_image)])
    else
      (st, [])
  else
    (st, [])

/-- What one iteration of the processor hands to its surroundings: the
snapshot files written and the `updateCamera` signals emitted. -/
structure ProcessorOutput where
  snapshots : List SnapshotFile
  displayed : List (Cameras × QImage)

/-- The loop body of `Streamer::imageProcessor` for a converted, non-null
frame: the snapshot, recording and display sections in this order; `none`
when an exception leaves the body. -/
def imageProcessorBody (compressJPEG : QImage → Int → Int → Option (List Nat))
    (copy : QImage → Int → Int → Int → Int → QImage)
    (st : StreamerState) (channel : Channels) (frame : FrameData) (timeStamp : String)
    (now : Int) : Option (StreamerState × ProcessorOutput) :=
  match snapshotSection compressJPEG st channel frame timeStamp with
  | none => none
  | some (st1, snapshots) =>
    match recordingSection compressJPEG copy st1 channel frame with
    | none => none
    | some st2 =>
      let shown := displaySection copy st2 channel frame now
      some (shown.1, { snapshots := snapshots, displayed := shown.2 })

/-! ## streamer.cpp: starting and stopping a recording -/

/-- The call `seqWriters[channel]->stopRecording()` in a state. -/
def writerStop (st : StreamerState) (channel : Channels) : StreamerState :=
  { st with
    seqWriters := Function.update st.seqWriters channel (st.seqWriters channel).stopRecording
    calls := st.calls ++ [Call.stopRecording channel] }

/-- One iteration of the loop of `Streamer::stopRecording`, for the channel `c`. -/
def stopRecordingStep (st : StreamerState) (c : Channels) : StreamerState :=
  let st :=
    if c = Channels.IR then
      if (st.streamAttributes Channels.Depth).recording then writerStop st Channels.IR else st
    else
      st
  if (st.streamAttributes c).recording then
    writerStop
      { st with
        streamAttributes := Function.update st.streamAttributes c
          { st.streamAttributes c with recording := false } }
      c
  else
    st

/-- The method `Streamer::stopRecording`: `recording = false`, then the loop
`for (c = IR; c >= 0; c--)`. -/
def StreamerState.stopRecording (st : StreamerState) : StreamerState :=
  [Channels.IR, Channels.Depth, Channels.Color, Channels.PointGreyFront,
    Channels.PointGreyTop].foldl stopRecordingStep { st with recording := false }

/-- The call `seqWriters[channel]->startRecording(workingDir, ROIs[cam][W],
ROIs[cam][H], streamAttributes[attr].compressed, dateTime, isPGswitched)` in a
state. -/
def writerStart (channel : Channels) (cam : Cameras) (attr : Channels) (dateTime : String)
    (st : StreamerState) : StreamerState :=
  { st with
    seqWriters := Function.update st.seqWriters channel
      ((st.seqWriters channel).startRecording st.workingDir
        (st.ROIs cam ROICoordinates.W) (st.ROIs cam ROICoordinates.H)
        (st.streamAttributes attr).compressed dateTime st.isPGswitched)
    calls := st.calls ++ [Call.startRecording channel] }

/-- The statement `streamAttributes[channel].recording = true`. -/
def setRecordingAttribute (channel : Channels) (st : StreamerState) : StreamerState :=
  { st with
    streamAttributes := Function.update st.streamAttributes channel
      { st.streamAttributes channel with recording := true } }

/-- The statement `if (!streamAttributes[channel].streaming)
std::thread(&Streamer::imageProcessor, this, channel).detach()`. -/
def startProcessorUnlessStreaming (channel : Channels) (st : StreamerState) : StreamerState :=
  if !(st.streamAttributes channel).streaming then
    { st with calls := st.calls ++ [Call.imageProcessor channel] }
  else
    st

/-- The statements of `Streamer::startRecording` before the last one, in
program order, each as a state change; `dateTime` is the value
`currentDateTime()` returns at the start. -/
def startRecordingBody (pgt pgf color depth : Bool) (dateTime : String) :
    List (StreamerState → StreamerState) :=
  (if pgt then
    [writerStart Channels.PointGreyTop Cameras.PointGreyTop Channels.PointGreyTop dateTime,
     setRecordingAttribute Channels.PointGreyTop,
     startProcessorUnlessStreaming Channels.PointGreyTop]
   else []) ++
  (if pgf then
    [writerStart Channels.PointGreyFront Cameras.PointGreyFront Channels.PointGreyFront dateTime,
     setRecordingAttribute Channels.PointGreyFront,
     startProcessorUnlessStreaming Channels.PointGreyFront]
   else []) ++
  (if color then
    [writerStart Channels.Color Cameras.Color Channels.Color dateTime,
     setRecordingAttribute Channels.Color,
     startProcessorUnlessStreaming Channels.Color]
   else []) ++
  (if depth then
    [writerStart Channels.Depth Cameras.Depth Channels.Depth dateTime,
     writerStart Channels.IR Cameras.Depth Channels.Depth dateTime,
     setRecordingAttribute Channels.Depth,
     startProcessorUnlessStreaming Channels.Depth]
   else [])

/-- The last statement of `Streamer::startRecording`: `recording = true`. -/
def setRecording (st : StreamerState) : StreamerState :=
  { st with recording := true }

/-- The statements of `Streamer::startRecording` in program order. -/
def startRecordingStatements (pgt pgf color depth : Bool) (dateTime : String) :
    List (StreamerState → StreamerState) :=
  startRecordingBody pgt pgf color depth dateTime ++ [setRecording]

/-- The states a list of statements goes through from `st`: `st` itself, then
the state after each statement. -/
def statesThrough (st : StreamerState) : List (StreamerState → StreamerState) → List StreamerState
  | [] => [st]
  | f :: rest => st :: statesThrough (f st) rest

/-- The state after a list of statements. -/
def runStatements (st : StreamerState) (statements : List (StreamerState → StreamerState)) :
    StreamerState :=
  statements.foldl (fun s f => f s) st

/-- The method `Streamer::startRecording`. -/
def StreamerState.startRecording (st : StreamerState) (pgt pgf color depth : Bool)
    (dateTime : String) : StreamerState :=
  runStatements st (startRecordingStatements pgt pgf color depth dateTime)

/-- The channels whose writer `Streamer::startRecording` is asked to open: each
requested channel, and IR with Depth. -/
def requested (pgt pgf color depth : Bool) : Channels → Bool
  | Channels.PointGreyTop => pgt
  | Channels.PointGreyFront => pgf
  | Channels.Color => color
  | Channels.Depth => depth
  | Channels.IR => depth

/-- The writers the recording section of the processor of `channel` calls
`writeFrame` on in a state, for a frame with or without confidence data. -/
def writersUsed (st : StreamerState) (channel : Channels) (hasConfidence : Bool) :
    List Channels :=
  if recordingActive st channel then
    if channel = Channels.Depth then
      (if hasConfidence then [Channels.IR] else []) ++ [channel]
    else
      [channel]
  else
    []

/-- Indeterminate values for the members the constructors leave unset; the
global recording flag is taken set. -/
def indeterminate : StreamerState :=
  { maxDepthMM := 7
    record := true
    isPGswitched := true
    seqWriters := fun _ => usedWriter
    lastUIUpdate := fun _ => 12345
    ROIs := fun _ _ => 99
    originalROIs := fun _ _ => 77
    streamAttributes := fun _ =>
      { recording := true, streaming := true, compressed := true, shouldSnap := true }
    recording := true
    running := true
    workingDir := "x"
    calls := [] }

/-- The state of a `Streamer` after its constructor, its thread running, Depth
streaming and recording. -/
def streamingState : StreamerState :=
  { newStreamer indeterminate with
    running := true
    recording := true
    streamAttributes := fun channel =>
      if channel = Channels.Depth then
        { recording := true, streaming := true, compressed := false, shouldSnap := false }
      else
        { recording := false, streaming := false, compressed := false, shouldSnap := false } }

/-- A depth frame with confidence data. -/
def testFrameData : FrameData :=
  { rawImage := testImage
    confidenceImage := some testImage
    timestampSeconds := 12
    timestampMilliSeconds := 345 }

/-- A crop that keeps the memory of the image and takes the size of the rectangle. -/
def stubCopy : QImage → Int → Int → Int → Int → QImage :=
  fun image _ _ w h => { image with width := w, height := h }

/-- A 4 x 3 bitmap whose pixel at `(i, j)` is `10 * j + i`. -/
def testBitmap : Bitmap :=
  { width := 4, height := 3, pixel := fun i j => (10 * j + i).toNat }

/-! ## streamer.cpp: the control calls and the processor tasks -/

/-- The `switch` at the start of `Streamer::startStreaming` and of
`Streamer::stopStreaming`: the channel of a camera (`Depth` is the default
case). -/
def streamingChannel : Cameras → Channels
  | Cameras.PointGreyFront => Channels.PointGreyFront
  | Cameras.PointGreyTop => Channels.PointGreyTop
  | Cameras.Color => Channels.Color
  | _ => Channels.Depth

/-- The method `Streamer::startStreaming`. -/
def StreamerState.startStreaming (st : StreamerState) (camera : Cameras) : StreamerState :=
  let channel := streamingChannel camera
  let st :=
    { st with
      streamAttributes := Function.update st.streamAttributes channel
        { st.streamAttributes channel with streaming := true } }
  if !(st.streamAttributes channel).recording then
    { st with calls := st.calls ++ [Call.imageProcessor channel] }
  else
    st

/-- The method `Streamer::stopStreaming`. -/
def StreamerState.stopStreaming (st : StreamerState) (camera : Cameras) : StreamerState :=
  let channel := streamingChannel camera
  { st with
    streamAttributes := Function.update st.streamAttributes channel
      { st.streamAttributes channel with streaming := false } }

/-- The method `Streamer::setCompressed`. -/
def StreamerState.setCompressed (st : StreamerState) (camera : Cameras) (compressed : Bool) :
    StreamerState :=
  { st with
    streamAttributes := Function.update st.streamAttributes camera.toChannel
      { st.streamAttributes camera.toChannel with compressed := compressed } }

/-- A call of the control surface of the `Streamer`. -/
inductive ControlCall
  | startStreaming (camera : Cameras)
  | stopStreaming (camera : Cameras)
  | startRecording (pgt pgf color depth : Bool) (dateTime : String)
  | stopRecording
  | setROI (camera : Cameras) (x y w h : Int)
  | setCompressed (camera : Cameras) (compressed : Bool)
  | saveSnapshot (camera : Cameras)

/-- The state after one call of the control surface. -/
def controlStep (st : StreamerState) : ControlCall → StreamerState
  | ControlCall.startStreaming camera => st.startStreaming camera
  | ControlCall.stopStreaming camera => st.stopStreaming camera
  | ControlCall.startRecording pgt pgf color depth dateTime =>
    st.startRecording pgt pgf color depth dateTime
  | ControlCall.stopRecording => st.stopRecording
  | ControlCall.setROI camera x y w h => st.setROI camera x y w h
  | ControlCall.setCompressed camera compressed => st.setCompressed camera compressed
  | ControlCall.saveSnapshot camera => st.saveSnapshot camera

/-- The state after a sequence of calls of the control surface. -/
def controlCalls (st : StreamerState) (calls : List ControlCall) : StreamerState :=
  calls.foldl controlStep st

/-- The states a `Streamer` gets into through its control surface: the ones a
sequence of calls leads to from the state its constructor leaves. -/
def reachable (st : StreamerState) : Prop :=
  ∃ (u : StreamerState) (calls : List ControlCall), st = controlCalls (newStreamer u) calls

/-- The first statement of `Streamer::stopRecording`: `recording = false`. -/
def clearRecording (st : StreamerState) : StreamerState :=
  { st with recording := false }

/-- The statements of `Streamer::stopRecording` in program order: the first
one, then the iterations of the loop `for (c = IR; c >= 0; c--)`. -/
def stopRecordingStatements : List (StreamerState → StreamerState) :=
  clearRecording ::
    [Channels.IR, Channels.Depth, Channels.Color, Channels.PointGreyFront,
      Channels.PointGreyTop].map (fun c st => stopRecordingStep st c)

/-- The calls a method issued: what the log holds beyond the entries it had
before. -/
def newCalls (before after : StreamerState) : List Call :=
  after.calls.drop before.calls.length

/-- The writer calls `Streamer::stopRecording` issues in a state where the IR
channel has no recording attribute of its own, in the order of the loop. -/
def writersClosed (st : StreamerState) : List Call :=
  (if (st.streamAttributes Channels.Depth).recording then
    [Call.stopRecording Channels.IR, Call.stopRecording Channels.Depth] else []) ++
  (if (st.streamAttributes Channels.Color).recording then
    [Call.stopRecording Channels.Color] else []) ++
  (if (st.streamAttributes Channels.PointGreyFront).recording then
    [Call.stopRecording Channels.PointGreyFront] else []) ++
  (if (st.streamAttributes Channels.PointGreyTop).recording then
    [Call.stopRecording Channels.PointGreyTop] else [])

/-- Whether `Streamer::stopRecording` closes the writer of a channel: the
channel is recording, or it is IR and Depth is recording. -/
def closesWriter (st : StreamerState) (c : Channels) : Bool :=
  if c = Channels.IR then (st.streamAttributes Channels.Depth).recording
  else (st.streamAttributes c).recording

/-- The `Streamer` and the number of `imageProcessor` threads alive for each
channel. -/
structure Tasks where
  st : StreamerState
  alive : Channels → Nat

/-- A step of the `Streamer` with its processor threads: a call of the control
surface, or a processor of a channel evaluating the condition on which it goes
on (`running && (streaming || recording)` of its channel). -/
inductive TaskStep
  | call (c : ControlCall)
  | observe (channel : Channels)

/-- The effect of a step on the threads: a call starts the threads its
`std::thread(&Streamer::imageProcessor, ...)` statements start; a processor
that finds its condition false returns, and goes on otherwise. No thread ends
in any other way. -/
def taskStep (t : Tasks) : TaskStep → Tasks
  | TaskStep.call c =>
    { st := controlStep t.st c
      alive := fun channel =>
        t.alive channel +
          (newCalls t.st (controlStep t.st c)).count (Call.imageProcessor channel) }
  | TaskStep.observe channel =>
    if processorContinues t.st channel then
      t
    else
      { t with alive := Function.update t.alive channel (t.alive channel - 1) }

/-- The `Streamer` and its threads after a sequence of steps. -/
def taskSteps (t : Tasks) (steps : List TaskStep) : Tasks :=
  steps.foldl taskStep t

/-- The `Streamer` after its constructor and `running = true`, the first
statement of `Streamer::run`, with no processor thread yet. -/
def startedTasks (u : StreamerState) : Tasks :=
  { st := { newStreamer u with running := true }
    alive := fun _ => 0 }

/-- A state the control surface leads to: Top and Depth are recording. -/
def recordingDepthState : StreamerState :=
  controlCalls (newStreamer indeterminate)
    [ControlCall.startRecording true false false true "20240101_00-00-00"]

/-! ## streamer.cpp: the poll of the coordinator -/

/-- The four arguments `Streamer::imageTransporter` passes to
`checkFrameBuffer`, in the order of its parameters `p_pgTop`, `p_pgFront`,
`p_depth`, `p_color`: `streaming || (recording && recording)` of the channel,
the second `recording` being the global flag. -/
def transporterFlags (st : StreamerState) : Bool × Bool × Bool × Bool :=
  ((st.streamAttributes Channels.PointGreyTop).streaming ||
      ((st.streamAttributes Channels.PointGreyTop).recording && st.recording),
   (st.streamAttributes Channels.PointGreyFront).streaming ||
      ((st.streamAttributes Channels.PointGreyFront).recording && st.recording),
   (st.streamAttributes Channels.Depth).streaming ||
      ((st.streamAttributes Channels.Depth).recording && st.recording),
   (st.streamAttributes Channels.Color).streaming ||
      ((st.streamAttributes Channels.Color).recording && st.recording))

/-- One iteration of the loop of `Streamer::imageTransporter`: the call of
`checkFrameBuffer` (the sleep that follows changes nothing). -/
def imageTransporterPoll (st : StreamerState) (s : Streamer) : Streamer :=
  checkFrameBuffer s (transporterFlags st).1 (transporterFlags st).2.1
    (transporterFlags st).2.2.1 (transporterFlags st).2.2.2

/-- The vector `channels_to_check` that `checkFrameBuffer` builds in one
iteration of the loop of `Streamer::imageTransporter`. -/
def polledChannels (st : StreamerState) : List Channels :=
  channels_to_check (transporterFlags st).1 (transporterFlags st).2.1
    (transporterFlags st).2.2.1 (transporterFlags st).2.2.2

/-! ## streamer.cpp: the frame a processor dequeues -/

/-- What the processor uses of a `CameraFrame`: whether `PGData` is set, the
image `rawImage` is built from (the data of `PGData`, `DSData8` or `DSData16`
with the size of the frame), the image built from `DSConfidenceMap` when it is
set, and the timestamp. -/
structure CameraFrame where
  PGData : Bool
  image : QImage
  DSConfidenceMap : Option QImage
  timestampSeconds : Int
  timestampMilliSeconds : Int

/-- What the reads of the members of a `CameraFrame` yield once the frame has
been deleted: the object is gone, the values are whatever its memory holds. -/
structure DeletedFrame where
  DSConfidenceMap : Option QImage
  timestampSeconds : Int
  timestampMilliSeconds : Int

/-- The conversion at the start of the loop body of `Streamer::imageProcessor`.
For a frame with `PGData` the image is copied and the frame is deleted
(`delete currentFrame`), so that the later reads of `currentFrame->...` are
reads of a deleted object and yield what `deleted` holds. No statement of the
loop body deletes the other frames: a Depth frame is never deleted, a Color
frame is deleted by `DSImageCleanup` when the Qt library destroys the image
that holds its data; their reads are taken to yield the members of the
frame. -/
def convertFrame (currentFrame : CameraFrame) (deleted : DeletedFrame) : FrameData :=
  if currentFrame.PGData then
    { rawImage := currentFrame.image
      confidenceImage := deleted.DSConfidenceMap
      timestampSeconds := deleted.timestampSeconds
      timestampMilliSeconds := deleted.timestampMilliSeconds }
  else
    { rawImage := currentFrame.image
      confidenceImage := currentFrame.DSConfidenceMap
      timestampSeconds := currentFrame.timestampSeconds
      timestampMilliSeconds := currentFrame.timestampMilliSeconds }

/-- One `writeFrame` call of the processor: the channel of the writer, the
image and the two timestamp arguments. -/
structure WriteFrameCall where
  channel : Channels
  image : QImage
  secs : Int
  ms : Int

/-- The `writeFrame` calls of the recording section of the loop body of
`Streamer::imageProcessor`, in program order. -/
def writeFrameCalls (copy : QImage → Int → Int → Int → Int → QImage) (st : StreamerState)
    (channel : Channels) (frame : FrameData) : List WriteFrameCall :=
  let scaledImage := depthScaled frame.rawImage frame.rawImage
  if recordingActive st channel then
    if channel = Channels.Depth then
      (match frame.confidenceImage with
       | some confidenceImage =>
         [{ channel := Channels.IR
            image :=
              if COMPATIBILITY_MODE then
                cropToROI copy st (camOf channel) (depthScaled scaledImage confidenceImage)
              else cropToROI copy st (camOf channel) confidenceImage
            secs := frame.timestampSeconds
            ms := frame.timestampMilliSeconds }]
       | none => []) ++
      [{ channel := channel
         image :=
           if COMPATIBILITY_MODE then cropToROI copy st (camOf channel) scaledImage
           else cropToROI copy st (camOf channel) frame.rawImage
         secs := frame.timestampSeconds
         ms := frame.timestampMilliSeconds }]
    else
      [{ channel := channel
         image := cropToROI copy st (camOf channel) frame.rawImage
         secs := frame.timestampSeconds
         ms := frame.timestampMilliSeconds }]
  else
    []

/-- A sequence of `writeFrame` calls issued in a state; `none` when one of
them throws. -/
def issueWriteFrames (compressJPEG : QImage → Int → Int → Option (List Nat)) :
    StreamerState → List WriteFrameCall → Option StreamerState
  | st, [] => some st
  | st, call :: rest =>
    match writerWriteFrame compressJPEG st call.channel call.image call.secs call.ms with
    | none => none
    | some st1 => issueWriteFrames compressJPEG st1 rest

/-- The recording sections of the iterations of the processor of a channel on
a sequence of converted frames; `none` when a `writeFrame` throws. -/
def recordFrames (compressJPEG : QImage → Int → Int → Option (List Nat))
    (copy : QImage → Int → Int → Int → Int → QImage) (channel : Channels) :
    StreamerState → List FrameData → Option StreamerState
  | st, [] => some st
  | st, frame :: rest =>
    match recordingSection compressJPEG copy st channel frame with
    | none => none
    | some st1 => recordFrames compressJPEG copy channel st1 rest

/-- A Point Grey frame captured at 12 s 345 ms. -/
def testPGFrame : CameraFrame :=
  { PGData := true
    image := testImage
    DSConfidenceMap := none
    timestampSeconds := 12
    timestampMilliSeconds := 345 }

/-- The memory of a deleted frame after it was filled with the byte `0xDD`. -/
def filledMemory : DeletedFrame :=
  { DSConfidenceMap := none
    timestampSeconds := -572662307
    timestampMilliSeconds := -572662307 }

/-- The state of a `Streamer` after its constructor, its thread running, the
Top channel recording. -/
def recordingTopState : StreamerState :=
  { newStreamer indeterminate with
    running := true
    recording := true
    streamAttributes := fun channel =>
      if channel = Channels.PointGreyTop then
        { recording := true, streaming := false, compressed := false, shouldSnap := false }
      else
        { recording := false, streaming := false, compressed := false, shouldSnap := false } }

/-! ## streamer.cpp: the timestamp of a frame -/

/-- The value of a C++ `short` (16 bits, two's complement) holding `x`. -/
def wrapInt16 (x : Int) : Int :=
  (x + 32768) % 65536 - 32768

/-- The timestamp `Streamer::PGImageTransporter` gives to a frame, as the two
`int` arguments of the `CameraFrame` constructor; `elapsed` is the `long long`
count of `duration_cast<milliseconds>(now - startTime)`. -/
def PGTimestamp (elapsed : Int) : Int × Int :=
  let timestampOrig : Int := wrapInt32 (Int.tmod elapsed 1000000000)
  let sec : Int := wrapInt32 (Int.tdiv timestampOrig 1000)
  let ms : Int := wrapInt16 (Int.tmod timestampOrig 1000)
  (sec, ms)

/-- The locals `sec` and `ms` of `Streamer::depthSenseColorTransporter` and
`Streamer::depthSenseDepthTransporter`, two `uint`; `timeOfCapture` is the
64-bit unsigned member of the sample, in microseconds. The product
`sec * 1000` is an `unsigned int`, the difference is 64 bits wide and is then
converted to `uint`. -/
def DSTimestampLocals (timeOfCapture : Nat) : Nat × Nat :=
  let sec : Nat := (timeOfCapture / 1000000) % 4294967296
  let ms : Nat :=
    ((timeOfCapture / 1000 + 18446744073709551616 - (sec * 1000) % 4294967296)
      % 18446744073709551616) % 4294967296
  (sec, ms)

/-- The timestamp the DepthSense callbacks give to a frame: the locals `sec`
and `ms` converted to the two `int` arguments of the `CameraFrame`
constructor. -/
def DSTimestamp (timeOfCapture : Nat) : Int × Int :=
  (wrapInt32 (DSTimestampLocals timeOfCapture).1, wrapInt32 (DSTimestampLocals timeOfCapture).2)

/-- The 8 bytes of the timestamp record `SEQWriter::writeFrame(image, secs, ms)`
appends after the image: 4 bytes of `secs`, the 2 bytes of the `short` that
`ms` is converted to, and 2 bytes of the constant `mc = 0`. -/
def timestampRecord (secs ms : Int) : List Nat :=
  int32Bytes secs ++ (int16Bytes ms ++ int16Bytes 0)

/-! ## camera_controller.cpp: the Point Grey cameras -/

/-- The enum `exception_t`. -/
inductive exception_t
  | EXCEPTION_PG
  | EXCEPTION_INTEL
  | EXCEPTION_PG_CONFIG
  | EXCEPTION_PG_INVALID_CAM
deriving DecidableEq, Repr

/-- The enum `CameraController::CameraProperties`. -/
inductive CameraProperties
  | FPS
  | Shutter
  | Gain
  | Brightness
deriving DecidableEq, Repr

/-- The constant `CameraController::PG_CAMERAS_MAX`. -/
def PG_CAMERAS_MAX : Nat := 2

/-- The integer value of a camera in the enum `CameraController::Cameras`. -/
def Cameras.index : Cameras → Nat
  | Cameras.PointGreyTop => 0
  | Cameras.PointGreyFront => 1
  | Cameras.Color => 2
  | Cameras.Depth => 3

/-- A `float` property value, seen as the number it holds. -/
abbrev PropertyValue := Rat

/-- A call to the FlyCapture2 library on the camera object of index `i`. -/
inductive DriverCall
  | Connect (i : Nat)
  | SetProperty (i : Nat) (type : CameraProperties) (absValue : PropertyValue)
  | GetProperty (i : Nat) (type : CameraProperties)
  | ValidateFormat7Settings (i : Nat)
  | SetFormat7Configuration (i : Nat)
  | StartCapture (i : Nat)
deriving DecidableEq, Repr

/-- What the FlyCapture2 library answers: `true` stands for `PGRERROR_OK`.
`numCameras` is the value `GetNumOfCameras` leaves in its argument, and
`busError` tells that this call fails. -/
structure Driver where
  busError : Bool
  numCameras : Nat
  GetCameraFromIndex : Nat → Bool
  Connect : Nat → Bool
  SetProperty : Nat → CameraProperties → Bool
  GetProperty : Nat → CameraProperties → Bool
  ValidateFormat7Settings : Nat → Bool
  SetFormat7Configuration : Nat → Bool

/-- The struct `CameraController::Camera`, the type of the elements of
`CameraProps`: whether the pointer `Camera` is set, and the default values. -/
structure CameraProp where
  Camera : Bool
  DefaultFPS : PropertyValue
  DefaultGain : PropertyValue
  DefaultBrightness : PropertyValue
  DefaultShutter : PropertyValue
  DefaultHeight : Nat
  DefaultWidth : Nat

/-- The members `numPGCameras` and `CameraProps` of a `CameraController` (an
array of 4 elements, indexed here by any number), the property values the
cameras hold, and the calls made so far to the library on camera objects,
oldest first. -/
structure CameraControllerState where
  numPGCameras : Nat
  CameraProps : Nat → CameraProp
  properties : Nat → CameraProperties → PropertyValue
  log : List DriverCall

/-- How a call ends: it returns a value, it throws an `exception_t`, or it
dereferences a null `Camera` pointer. -/
inductive Outcome (α : Type)
  | returned (value : α)
  | raised (e : exception_t)
  | nullDereference

/-- The method `CameraController::setValue`, with `cam` as its integer value:
the state after the call and how the call ends. -/
def CameraControllerState.setValue (driver : Driver) (cc : CameraControllerState) (cam : Nat)
    (type : CameraProperties) (val : PropertyValue) : CameraControllerState × Outcome Unit :=
  if cam ≥ cc.numPGCameras then
    (cc, Outcome.raised exception_t.EXCEPTION_PG_INVALID_CAM)
  else if !(cc.CameraProps cam).Camera then
    (cc, Outcome.nullDereference)
  else
    let cc := { cc with log := cc.log ++ [DriverCall.SetProperty cam type val] }
    if driver.SetProperty cam type then
      ({ cc with
         properties := Function.update cc.properties cam
           (Function.update (cc.properties cam) type val) },
       Outcome.returned ())
    else
      (cc, Outcome.raised exception_t.EXCEPTION_PG_CONFIG)

/-- The method `CameraController::getValue`, with `cam` as its integer value:
the state after the call and how the call ends. -/
def CameraControllerState.getValue (driver : Driver) (cc : CameraControllerState) (cam : Nat)
    (type : CameraProperties) : CameraControllerState × Outcome PropertyValue :=
  if cam < cc.numPGCameras then
    if !(cc.CameraProps cam).Camera then
      (cc, Outcome.nullDereference)
    else
      let cc := { cc with log := cc.log ++ [DriverCall.GetProperty cam type] }
      if driver.GetProperty cam type then
        (cc, Outcome.returned (cc.properties cam type))
      else
        (cc, Outcome.raised exception_t.EXCEPTION_PG_CONFIG)
  else
    (cc, Outcome.raised exception_t.EXCEPTION_PG_INVALID_CAM)

/-- The four `setValue` calls of an iteration of the loop of
`CameraController::initPG`, for the camera of index `i`: the frame rate, the
shutter, the gain and the brightness are set to the default values of the
camera. The exceptions of the calls are caught and dropped. -/
def setDefaultValues (driver : Driver) (cc : CameraControllerState) (i : Nat) :
    CameraControllerState :=
  let cc := (cc.setValue driver i CameraProperties.FPS (cc.CameraProps i).DefaultFPS).1
  let cc := (cc.setValue driver i CameraProperties.Shutter (cc.CameraProps i).DefaultShutter).1
  let cc := (cc.setValue driver i CameraProperties.Gain (cc.CameraProps i).DefaultGain).1
  (cc.setValue driver i CameraProperties.Brightness (cc.CameraProps i).DefaultBrightness).1

/-- A call to the library on a camera object, appended to the log. -/
def driverCall (cc : CameraControllerState) (call : DriverCall) : CameraControllerState :=
  { cc with log := cc.log ++ [call] }

/-- The statement `CameraProps[i].Camera = new FlyCapture2::Camera()`. -/
def newCamera (cc : CameraControllerState) (i : Nat) : CameraControllerState :=
  { cc with
    CameraProps := Function.update cc.CameraProps i { cc.CameraProps i with Camera := true } }

/-- One iteration of the loop of `CameraController::initPG`, for the camera of
index `i`: the state after it and whether it reached `camerasInitialized++`
(every failing step leaves the iteration with `continue`). -/
def initCamera (driver : Driver) (cc : CameraControllerState) (i : Nat) :
    CameraControllerState × Bool :=
  let cc := newCamera cc i
  if !driver.GetCameraFromIndex i then
    (cc, false)
  else
    let cc := driverCall cc (DriverCall.Connect i)
    if !driver.Connect i then
      (cc, false)
    else
      let cc := setDefaultValues driver cc i
      let cc := driverCall cc (DriverCall.ValidateFormat7Settings i)
      if !driver.ValidateFormat7Settings i then
        (cc, false)
      else
        let cc := driverCall cc (DriverCall.SetFormat7Configuration i)
        if !driver.SetFormat7Configuration i then
          (cc, false)
        else
          (cc, true)

/-- The loop of `CameraController::initPG` over the cameras of the indices in
`indices`: the state after it and the value of `camerasInitialized`. -/
def initCameras (driver : Driver) (cc : CameraControllerState) (camerasInitialized : Int) :
    List Nat → CameraControllerState × Int
  | [] => (cc, camerasInitialized)
  | i :: rest =>
    let r := initCamera driver cc i
    initCameras driver r.1 (if r.2 then wrapInt32 (camerasInitialized + 1) else camerasInitialized)
      rest

/-- The method `CameraController::initPG`: the state after the call and how
the call ends. -/
def CameraControllerState.initPG (driver : Driver) (cc : CameraControllerState) :
    CameraControllerState × Outcome Int :=
  let cc := { cc with numPGCameras := driver.numCameras % 4294967296 }
  if driver.busError then
    (cc, Outcome.raised exception_t.EXCEPTION_PG)
  else
    let cc :=
      if cc.numPGCameras > PG_CAMERAS_MAX then { cc with numPGCameras := PG_CAMERAS_MAX } else cc
    let r := initCameras driver cc 0 (List.range cc.numPGCameras)
    (r.1, Outcome.returned r.2)

/-- The loop of `Streamer::run` that calls `StartCapture` on the camera objects
of the indices in `indices`; `none` when it dereferences a null pointer. -/
def startCaptures (cc : CameraControllerState) : List Nat → Option CameraControllerState
  | [] => some cc
  | i :: rest =>
    if (cc.CameraProps i).Camera then
      startCaptures (driverCall cc (DriverCall.StartCapture i)) rest
    else
      none

/-- The method `Streamer::run` on the `Streamer` and its `CameraController`:
`running = true`, `initPG` (an exception leaves `num_pg_initialized` at 0),
then `StartCapture` on the cameras of index `0 .. num_pg_initialized - 1`.
The calls on the DepthSense context and the start of the `imageTransporter`
thread touch neither of the two states. `none` stands for a null
dereference. -/
def StreamerState.run (driver : Driver) (st : StreamerState) (cc : CameraControllerState) :
    Option (StreamerState × CameraControllerState) :=
  let st := { st with running := true }
  let r := cc.initPG driver
  let num_pg_initialized : Option Int :=
    match r.2 with
    | Outcome.returned n => some n
    | Outcome.raised _ => some 0
    | Outcome.nullDereference => none
  match num_pg_initialized with
  | none => none
  | some n =>
    match startCaptures r.1 (List.range n.toNat) with
    | none => none
    | some cc1 => some (st, cc1)

/-- The indices of the cameras whose iteration of the loop of `initPG` reaches
`camerasInitialized++`, among the cameras of the indices in `indices`. -/
def initializedCameras (driver : Driver) (cc : CameraControllerState) :
    List Nat → List Nat
  | [] => []
  | i :: rest =>
    (if (initCamera driver cc i).2 then [i] else []) ++
      initializedCameras driver (initCamera driver cc i).1 rest

/-- The indices of the cameras `StartCapture` was called on, in order. -/
def startedCameras (log : List DriverCall) : List Nat :=
  log.filterMap (fun call =>
    match call with
    | DriverCall.StartCapture i => some i
    | _ => none)

/-- The constructor `CameraController::CameraController`: it sets the default
values of `CameraProps` and every `Camera` pointer to `NULL`; `numPGCameras`
keeps the indeterminate value `u` has. -/
def newCameraController (u : CameraControllerState) : CameraControllerState :=
  { u with
    CameraProps := fun i =>
      match i with
      | 0 => { Camera := false, DefaultFPS := 30, DefaultGain := 4, DefaultBrightness := 9204 / 1000,
               DefaultShutter := 19871 / 1000, DefaultHeight := 1200, DefaultWidth := 1920 }
      | 1 => { Camera := false, DefaultFPS := 30, DefaultGain := 10,
               DefaultBrightness := 7886 / 1000, DefaultShutter := 19948 / 1000,
               DefaultHeight := 1200, DefaultWidth := 1920 }
      | 2 => { Camera := false, DefaultFPS := 30, DefaultGain := 0, DefaultBrightness := 0,
               DefaultShutter := 0, DefaultHeight := 720, DefaultWidth := 1280 }
      | _ => { Camera := false, DefaultFPS := 30, DefaultGain := 0, DefaultBrightness := 0,
               DefaultShutter := 0, DefaultHeight := 240, DefaultWidth := 320 }
    log := [] }

/-- Indeterminate values for the members the constructor of the
`CameraController` leaves unset. -/
def indeterminateController : CameraControllerState :=
  { numPGCameras := 3435973836
    CameraProps := fun _ =>
      { Camera := true, DefaultFPS := 1, DefaultGain := 1, DefaultBrightness := 1,
        DefaultShutter := 1, DefaultHeight := 1, DefaultWidth := 1 }
    properties := fun _ _ => 5
    log := [] }

/-- A library that detects two cameras; the one of index 0 does not connect,
the one of index 1 passes every step. -/
def firstCameraFails : Driver :=
  { busError := false
    numCameras := 2
    GetCameraFromIndex := fun _ => true
    Connect := fun i => decide (i ≠ 0)
    SetProperty := fun _ _ => true
    GetProperty := fun _ _ => true
    ValidateFormat7Settings := fun _ => true
    SetFormat7Configuration := fun _ => true }

/-- A library that detects three cameras, all of which pass every step. -/
def threeCameras : Driver :=
  { busError := false
    numCameras := 3
    GetCameraFromIndex := fun _ => true
    Connect := fun _ => true
    SetProperty := fun _ _ => true
    GetProperty := fun _ _ => true
    ValidateFormat7Settings := fun _ => true
    SetFormat7Configuration := fun _ => true }

/-! ## hunter.cpp: the settings forms -/

/-- The constant `DEPTH_X_MAX` of `hunter.h`. -/
def DEPTH_X_MAX : Int := 320

/-- The constant `DEPTH_Y_MAX` of `hunter.h`. -/
def DEPTH_Y_MAX : Int := 240

/-- The constant `DEPTH_DIST_MIN` of `hunter.h`. -/
def DEPTH_DIST_MIN : Int := 255

/-- The conversion of a `float` argument to the `int` parameter of
`Streamer::setROI`: the fractional part is dropped. The language defines it
for the values an `int` holds, which the values of an accepted form are. -/
def floatToInt (f : Rat) : Int :=
  Int.tdiv f.num f.den

/-- What the forms use of the rounding of a `float` sum, `round` applied to
the exact sum: a greater exact sum does not round to a smaller `float`, and an
integer of magnitude up to 2^24 is a `float`, which rounding leaves as it
is. -/
def floatRounding (round : Rat → Rat) : Prop :=
  (∀ a b : Rat, a ≤ b → round a ≤ round b) ∧
  ∀ n : Int, -16777216 ≤ n → n ≤ 16777216 → round n = n

/-- The locals `fX` to `fH` and `iMaxDist` of `Hunter::applyDepth`: the values
`toFloat()` and `toInt()` return for the text boxes of the Depth form. -/
structure DepthValues where
  fX : Rat
  fY : Rat
  fW : Rat
  fH : Rat
  iMaxDist : Int

/-- The members `cc` and `streamer` of a `Hunter` window. -/
structure HunterState where
  cc : CameraControllerState
  streamer : StreamerState

/-- The method `Hunter::applyDepth`. The style of the text boxes is left
out. -/
def applyDepth (round : Rat → Rat) (v : DepthValues) (h : HunterState) : HunterState :=
  let valid := true
  let valid := if v.fX < 0 ∨ v.fX ≥ DEPTH_X_MAX then false else valid
  let valid := if v.fY < 0 ∨ v.fY ≥ DEPTH_Y_MAX then false else valid
  let valid := if v.fH ≤ 0 ∨ round (v.fY + v.fH) > DEPTH_Y_MAX then false else valid
  let valid := if v.fW ≤ 0 ∨ round (v.fX + v.fW) > DEPTH_X_MAX then false else valid
  let valid := if v.iMaxDist < DEPTH_DIST_MIN then false else valid
  if valid then
    { h with
      streamer :=
        StreamerState.setROI { h.streamer with maxDepthMM := v.iMaxDist } Cameras.Depth
          (floatToInt v.fX) (floatToInt v.fY) (floatToInt v.fW) (floatToInt v.fH) }
  else
    h

/-- A Depth form with a rectangle inside the sensor. -/
def depthForm : DepthValues :=
  { fX := 21 / 2, fY := 20, fW := 1201 / 4, fH := 200, iMaxDist := 480 }

/-- A Depth form with a rectangle wider and higher than the sensor. -/
def wideDepthForm : DepthValues :=
  { fX := 0, fY := 0, fW := 5000, fH := 5000, iMaxDist := 480 }

/-- A depth image of 2 x 2 samples, two bytes each, low byte first: 225, 352,
480 and 300. -/
def depthTestImage : QImage :=
  { width := 2, height := 2, bits := fun i => [225, 0, 96, 1, 224, 1, 44, 1].getD i 0 }

/-- A depth frame that holds `depthTestImage`. -/
def depthTestFrame : FrameData :=
  { rawImage := depthTestImage
    confidenceImage := none
    timestampSeconds := 12
    timestampMilliSeconds := 345 }

/-! ## Lemmas on the synchronisation buffer -/

theorem SynchronizationQueue.push_length_le (q : List Frame) (f : Frame)
    (h : q.length ≤ 2) : (SynchronizationQueue.push q f).length ≤ 2 := by
  unfold SynchronizationQueue.push max_synchronization_queue_size
  by_cases h2 : q.length ≥ 2
  · simp [h2]; omega
  · simp [h2]; omega

theorem pushAll_append (q : List Frame) (fs gs : List Frame) :
    pushAll q (fs ++ gs) = pushAll (pushAll q fs) gs := by
  simp [pushAll, List.foldl_append]

theorem pushAll_length_le (fs : List Frame) :
    ∀ q : List Frame, q.length ≤ 2 → (pushAll q fs).length ≤ 2 := by
  induction fs with
  | nil => intro q h; simpa [pushAll] using h
  | cons f fs ih =>
    intro q h
    have := ih (SynchronizationQueue.push q f) (SynchronizationQueue.push_length_le q f h)
    simpa [pushAll] using this

/-- From any buffer of at most two frames, pushing a list that ends in `a, b`
leaves exactly `[a, b]`. -/
theorem pushAll_last_two (q : List Frame) (hq : q.length ≤ 2) (fs : List Frame) (a b : Frame) :
    pushAll q (fs ++ [a, b]) = [a, b] := by
  rw [pushAll_append]
  have h := pushAll_length_le fs q hq
  generalize pushAll q fs = r at h
  match r, h with
  | [], _ => simp [pushAll, SynchronizationQueue.push, max_synchronization_queue_size]
  | [x], _ => simp [pushAll, SynchronizationQueue.push, max_synchronization_queue_size]
  | [x, y], _ => simp [pushAll, SynchronizationQueue.push, max_synchronization_queue_size]
  | _ :: _ :: _ :: _, h => simp at h

theorem drop_length_sub_two (fs : List Frame) (a b : Frame) :
    (fs ++ [a, b]).drop ((fs ++ [a, b]).length - 2) = [a, b] := by
  simp

theorem exists_last_two (fs : List Frame) (h : 2 ≤ fs.length) :
    ∃ gs a b, fs = gs ++ [a, b] := by
  refine ⟨fs.take (fs.length - 2), ?_⟩
  have h2 : (fs.drop (fs.length - 2)).length = 2 := by simp; omega
  match hd : fs.drop (fs.length - 2), h2 with
  | [a, b], _ =>
    refine ⟨a, b, ?_⟩
    rw [← hd, List.take_append_drop]

/-! ## Lemmas on the coordinator -/

theorem mem_channels_to_check (a b c d : Bool) (ch : Channels) :
    ch ∈ channels_to_check a b c d ↔ enabled a b c d ch = true := by
  cases ch <;> cases a <;> cases b <;> cases c <;> cases d <;>
    simp [channels_to_check, enabled]

theorem nodup_channels_to_check (a b c d : Bool) : (channels_to_check a b c d).Nodup := by
  cases a <;> cases b <;> cases c <;> cases d <;> simp [channels_to_check]

theorem channels_to_check_length_eq_zero (a b c d : Bool) :
    (channels_to_check a b c d).length = 0 ↔ ∀ ch, enabled a b c d ch = false := by
  constructor
  · intro h ch
    have hnil : channels_to_check a b c d = [] := List.length_eq_zero.mp h
    have := mem_channels_to_check a b c d ch
    rw [hnil] at this
    cases he : enabled a b c d ch
    · rfl
    · exact absurd (this.mpr he) (by simp)
  · intro h
    cases a <;> cases b <;> cases c <;> cases d <;> simp [channels_to_check]
    all_goals
      have h1 := h Channels.PointGreyTop
      have h2 := h Channels.PointGreyFront
      have h3 := h Channels.Depth
      have h4 := h Channels.Color
      simp [enabled] at h1 h2 h3 h4

theorem foldl_ready (s : Streamer) (chans : List Channels) :
    ∀ b : Bool,
      chans.foldl
          (fun rv channel => rv && decide ((s.synchronizationQueues channel).length > 0)) b
        = true ↔
      (b = true ∧ ∀ ch ∈ chans, s.synchronizationQueues ch ≠ []) := by
  induction chans with
  | nil => intro b; simp
  | cons c cs ih =>
    intro b
    rw [List.foldl_cons, ih]
    simp only [Bool.and_eq_true, decide_eq_true_eq, List.mem_cons, forall_eq_or_imp,
      List.length_pos, ne_eq]
    tauto

theorem foldl_full (s : Streamer) (chans : List Channels) :
    ∀ b : Bool,
      chans.foldl
          (fun qf channel => if (s.frameQueues channel).length > MAX_QUEUE_SIZE then true else qf) b
        = true ↔
      (b = true ∨ ∃ ch ∈ chans, (s.frameQueues ch).length > MAX_QUEUE_SIZE) := by
  induction chans with
  | nil => intro b; simp
  | cons c cs ih =>
    intro b
    rw [List.foldl_cons, ih]
    by_cases hc : (s.frameQueues c).length > MAX_QUEUE_SIZE
    · simp [hc]
    · simp [hc]

theorem transferFrame_frameQueues (s : Streamer) (c ch : Channels) :
    (transferFrame s c).frameQueues ch =
      if ch = c then s.frameQueues c ++ (s.synchronizationQueues c).head?.toList
      else s.frameQueues ch := by
  unfold transferFrame
  cases h : s.synchronizationQueues c with
  | nil => by_cases hc : ch = c <;> simp [hc]
  | cons f rest => by_cases hc : ch = c <;> simp [hc, FrameQueue.push, Function.update]

theorem transferFrame_synchronizationQueues (s : Streamer) (c ch : Channels) :
    (transferFrame s c).synchronizationQueues ch =
      if ch = c then (s.synchronizationQueues c).tail else s.synchronizationQueues ch := by
  unfold transferFrame
  cases h : s.synchronizationQueues c with
  | nil => by_cases hc : ch = c <;> simp [hc, h]
  | cons f rest => by_cases hc : ch = c <;> simp [hc, Function.update]

/-- The transfer loop over a duplicate-free list of channels moves the front of
each listed Synchronization Buffer to the back of its Delivery Queue. -/
theorem foldl_transferFrame (chans : List Channels) (hnd : chans.Nodup) :
    ∀ (s : Streamer) (ch : Channels),
      (chans.foldl transferFrame s).frameQueues ch =
          (if ch ∈ chans then s.frameQueues ch ++ (s.synchronizationQueues ch).head?.toList
           else s.frameQueues ch) ∧
      (chans.foldl transferFrame s).synchronizationQueues ch =
          (if ch ∈ chans then (s.synchronizationQueues ch).tail
           else s.synchronizationQueues ch) := by
  induction chans with
  | nil => intro s ch; simp
  | cons c cs ih =>
    intro s ch
    have hc : c ∉ cs := (List.nodup_cons.mp hnd).1
    have ih2 := ih (List.nodup_cons.mp hnd).2 (transferFrame s c) ch
    rw [List.foldl_cons, ih2.1, ih2.2, transferFrame_frameQueues,
      transferFrame_synchronizationQueues]
    by_cases h1 : ch = c
    · subst h1
      simp [hc]
    · simp [h1]

/-- When the pass transfers, every enabled channel loses the front of its
Synchronization Buffer to the back of its Delivery Queue, and nothing else moves. -/
theorem checkFrameBuffer_transfer (s : Streamer) (a b c d : Bool)
    (hne : ∃ ch, enabled a b c d ch = true)
    (hready : ∀ ch, enabled a b c d ch = true → s.synchronizationQueues ch ≠ [])
    (hroom : ∀ ch, enabled a b c d ch = true → (s.frameQueues ch).length ≤ MAX_QUEUE_SIZE)
    (ch : Channels) :
    (checkFrameBuffer s a b c d).frameQueues ch =
        (if enabled a b c d ch = true then
          s.frameQueues ch ++ (s.synchronizationQueues ch).head?.toList
         else s.frameQueues ch) ∧
    (checkFrameBuffer s a b c d).synchronizationQueues ch =
        (if enabled a b c d ch = true then (s.synchronizationQueues ch).tail
         else s.synchronizationQueues ch) := by
  have hlen : ¬ (channels_to_check a b c d).length = 0 := by
    rw [channels_to_check_length_eq_zero]
    obtain ⟨c0, hc0⟩ := hne
    intro h
    rw [h c0] at hc0
    exact Bool.noConfusion hc0
  have hrv := (foldl_ready s (channels_to_check a b c d) true).mpr
    ⟨rfl, fun c0 hc0 => hready c0 ((mem_channels_to_check a b c d c0).mp hc0)⟩
  have hqf : ¬ ((channels_to_check a b c d).foldl
      (fun qf channel => if (s.frameQueues channel).length > MAX_QUEUE_SIZE then true else qf)
      false = true) := by
    rw [foldl_full]
    rintro (h | ⟨c0, hc0, hgt⟩)
    · exact Bool.noConfusion h
    · have := hroom c0 ((mem_channels_to_check a b c d c0).mp hc0)
      omega
  have hfold := foldl_transferFrame (channels_to_check a b c d)
    (nodup_channels_to_check a b c d) s ch
  simp only [mem_channels_to_check] at hfold
  unfold checkFrameBuffer
  simp only [hlen, hrv, if_true, if_false]
  rw [Bool.not_eq_true] at hqf
  simp only [hqf, Bool.not_false, if_true]
  exact hfold

/-- When no channel is enabled, or an enabled buffer is empty, or an enabled
Delivery Queue holds more than `MAX_QUEUE_SIZE` frames, the pass does nothing. -/
theorem checkFrameBuffer_skip (s : Streamer) (a b c d : Bool)
    (h : (∀ ch, enabled a b c d ch = false) ∨
         (∃ ch, enabled a b c d ch = true ∧ s.synchronizationQueues ch = []) ∨
         (∃ ch, enabled a b c d ch = true ∧ (s.frameQueues ch).length > MAX_QUEUE_SIZE)) :
    checkFrameBuffer s a b c d = s := by
  unfold checkFrameBuffer
  by_cases hlen : (channels_to_check a b c d).length = 0
  · simp [hlen]
  · simp only [hlen, if_false]
    rcases h with h | ⟨c0, hc0, hempty⟩ | ⟨c0, hc0, hfull⟩
    · exact absurd ((channels_to_check_length_eq_zero a b c d).mpr h) hlen
    · have hrv : ¬ ((channels_to_check a b c d).foldl
          (fun rv channel => rv && decide ((s.synchronizationQueues channel).length > 0))
          true = true) := by
        rw [foldl_ready]
        rintro ⟨_, hall⟩
        exact hall c0 ((mem_channels_to_check a b c d c0).mpr hc0) hempty
      rw [Bool.not_eq_true] at hrv
      simp [hrv]
    · have hqf := (foldl_full s (channels_to_check a b c d) false).mpr
        (Or.inr ⟨c0, (mem_channels_to_check a b c d c0).mpr hc0, hfull⟩)
      simp only [hqf, Bool.not_true]
      split <;> simp

/-- In every case a pass keeps, channel by channel, the concatenation of the
Delivery Queue and the Synchronization Buffer. -/
theorem checkFrameBuffer_concat (s : Streamer) (a b c d : Bool) (ch : Channels) :
    (checkFrameBuffer s a b c d).frameQueues ch ++
        (checkFrameBuffer s a b c d).synchronizationQueues ch =
      s.frameQueues ch ++ s.synchronizationQueues ch := by
  have hfold := foldl_transferFrame (channels_to_check a b c d)
    (nodup_channels_to_check a b c d) s ch
  have key : ((channels_to_check a b c d).foldl transferFrame s).frameQueues ch ++
      ((channels_to_check a b c d).foldl transferFrame s).synchronizationQueues ch =
      s.frameQueues ch ++ s.synchronizationQueues ch := by
    rw [hfold.1, hfold.2]
    by_cases hm : ch ∈ channels_to_check a b c d
    · simp only [hm, if_true]
      cases s.synchronizationQueues ch <;> simp
    · simp only [hm, if_false]
  unfold checkFrameBuffer
  simp only []
  split
  · rfl
  · split
    · split
      · exact key
      · rfl
    · rfl

/-- In every case a pass releases the same number of frames (none or one) to
any two enabled channels. -/
theorem checkFrameBuffer_release_eq (s : Streamer) (a b c d : Bool) (c1 c2 : Channels)
    (h1 : enabled a b c d c1 = true) (h2 : enabled a b c d c2 = true) :
    ((checkFrameBuffer s a b c d).frameQueues c1).length - (s.frameQueues c1).length =
      ((checkFrameBuffer s a b c d).frameQueues c2).length - (s.frameQueues c2).length := by
  by_cases hskip : (∀ ch, enabled a b c d ch = false) ∨
         (∃ ch, enabled a b c d ch = true ∧ s.synchronizationQueues ch = []) ∨
         (∃ ch, enabled a b c d ch = true ∧ (s.frameQueues ch).length > MAX_QUEUE_SIZE)
  · rw [checkFrameBuffer_skip s a b c d hskip]
    simp
  · have hready : ∀ ch, enabled a b c d ch = true → s.synchronizationQueues ch ≠ [] :=
      fun ch hch hnil => hskip (Or.inr (Or.inl ⟨ch, hch, hnil⟩))
    have hroom : ∀ ch, enabled a b c d ch = true →
        (s.frameQueues ch).length ≤ MAX_QUEUE_SIZE := by
      intro ch hch
      by_contra hgt
      exact hskip (Or.inr (Or.inr ⟨ch, hch, by omega⟩))
    have t1 := (checkFrameBuffer_transfer s a b c d ⟨c1, h1⟩ hready hroom c1).1
    have t2 := (checkFrameBuffer_transfer s a b c d ⟨c1, h1⟩ hready hroom c2).1
    rw [t1, t2]
    simp only [h1, h2, if_true]
    have r1 := hready c1 h1
    have r2 := hready c2 h2
    cases hq1 : s.synchronizationQueues c1 with
    | nil => exact absurd hq1 r1
    | cons f1 t1 =>
      cases hq2 : s.synchronizationQueues c2 with
      | nil => exact absurd hq2 r2
      | cons f2 t2 => simp

/-! ## Lemmas on traces -/

theorem releaseLog_eq (a b c d : Bool) (c1 c2 : Channels)
    (h1 : enabled a b c d c1 = true) (h2 : enabled a b c d c2 = true) :
    ∀ (ops : List Op) (s : Streamer), fixedFlags a b c d ops →
      releaseLog c1 s ops = releaseLog c2 s ops := by
  intro ops
  induction ops with
  | nil => intro s _; rfl
  | cons op ops ih =>
    intro s hfix
    have hrest : fixedFlags a b c d ops :=
      fun a' b' c' d' hmem => hfix a' b' c' d' (List.mem_cons_of_mem _ hmem)
    have hhead : releasedBy c1 s op = releasedBy c2 s op := by
      cases op with
      | push ch f => rfl
      | pop ch => rfl
      | check a' b' c' d' =>
        obtain ⟨ha, hb, hc, hd⟩ := hfix a' b' c' d' (List.mem_cons_self _ _)
        subst ha hb hc hd
        simp only [releasedBy]
        rw [checkFrameBuffer_release_eq s a' b' c' d' c1 c2 h1 h2]
    simp only [releaseLog]
    rw [hhead, ih (step s op) hrest]

theorem push_sublist (q : List Frame) (f : Frame) (rest : List Frame) :
    (SynchronizationQueue.push q f ++ rest).Sublist (q ++ f :: rest) := by
  unfold SynchronizationQueue.push
  by_cases h : q.length ≥ max_synchronization_queue_size
  · simp only [h, if_true, List.append_assoc, List.singleton_append]
    exact List.Sublist.append (List.tail_sublist q) (List.Sublist.refl _)
  · simp only [h, if_false, List.append_assoc, List.singleton_append]
    exact List.Sublist.refl _

/-- The frames popped from a channel's Delivery Queue form a sublist of what is
in the channel's two queues followed by what is pushed later. -/
theorem poppedFrames_sublist (ch : Channels) :
    ∀ (ops : List Op) (s : Streamer),
      (poppedFrames ch s ops).Sublist
        (s.frameQueues ch ++ (s.synchronizationQueues ch ++ pushedFrames ch ops)) := by
  intro ops
  induction ops with
  | nil => intro s; exact List.nil_sublist _
  | cons op ops ih =>
    intro s
    have ih2 := ih (step s op)
    cases op with
    | push c f =>
      simp only [poppedFrames, poppedBy, List.nil_append]
      simp only [step] at ih2
      by_cases hc : c = ch
      · subst hc
        simp only [pushedFrames, if_true, Function.update_same] at ih2 ⊢
        exact ih2.trans (List.Sublist.append (List.Sublist.refl _) (push_sublist _ _ _))
      · have hne : ch ≠ c := fun h => hc h.symm
        simp only [pushedFrames, hc, if_false, Function.update_noteq hne] at ih2 ⊢
        exact ih2
    | check a b c d =>
      simp only [poppedFrames, poppedBy, List.nil_append, pushedFrames]
      simp only [step] at ih2
      rw [← List.append_assoc, checkFrameBuffer_concat s a b c d ch, List.append_assoc] at ih2
      exact ih2
    | pop c =>
      simp only [poppedFrames, poppedBy, pushedFrames, step]
      simp only [step] at ih2
      by_cases hc : c = ch
      · subst hc
        simp only [if_true, Function.update_same] at ih2 ⊢
        cases hq : s.frameQueues c with
        | nil =>
          rw [hq] at ih2
          simpa [FrameQueue.pop] using ih2
        | cons f rest =>
          rw [hq] at ih2
          simp only [FrameQueue.pop, Option.toList, List.singleton_append, List.cons_append]
          exact List.Sublist.cons₂ f (by simpa [FrameQueue.pop] using ih2)
      · have hne : ch ≠ c := fun h => hc h.symm
        simp only [hc, if_false, List.nil_append, Function.update_noteq hne] at ih2 ⊢
        exact ih2

/-! ## Lemmas on bytes and files -/

theorem wrapInt32_of_range (x : Int) (h1 : -2147483648 ≤ x) (h2 : x < 2147483648) :
    wrapInt32 x = x := by
  unfold wrapInt32; omega

theorem wrapInt32_idem (x : Int) : wrapInt32 (wrapInt32 x) = wrapInt32 x := by
  unfold wrapInt32; omega

theorem int32Bytes_length (x : Int) : (int32Bytes x).length = 4 := by
  simp [int32Bytes, leBytes]

theorem int16Bytes_length (x : Int) : (int16Bytes x).length = 2 := by
  simp [int16Bytes, leBytes]

theorem rawData_length (mem : Nat → Nat) (len : Int) : (rawData mem len).length = len.toNat := by
  simp [rawData]

theorem readLE_int32Bytes (x : Int) : (readLE (int32Bytes x) : Int) = x % 4294967296 := by
  have h : readLE (int32Bytes x) = (x % 4294967296).toNat := by
    simp only [int32Bytes, leBytes, readLE, List.range, List.range.loop, List.map, List.foldr]
    omega
  rw [h]
  omega

theorem wrapInt32_readLE_int32Bytes (x : Int) :
    wrapInt32 (readLE (int32Bytes x)) = wrapInt32 x := by
  rw [readLE_int32Bytes]
  unfold wrapInt32; omega

theorem overwrite_aux (X D b : List Nat) (n : Nat) (hn : n = X.length) :
    (X ++ D).take n ++ List.replicate (n - (X ++ D).length) 0 ++ b ++
        (X ++ D).drop (n + b.length) =
      X ++ b ++ D.drop b.length := by
  subst hn
  have h1 : (X ++ D).take X.length = X := List.take_left' rfl
  have h2 : X.length - (X ++ D).length = 0 := by simp
  have h3 : (X ++ D).drop (X.length + b.length) = D.drop b.length := by
    rw [← List.drop_drop]
    simp
  rw [h1, h2, h3]
  simp

theorem QFile.writeRawData_nil (f : QFile) : f.writeRawData [] = f := by
  unfold QFile.writeRawData
  split <;> rfl

/-- Two consecutive writes are one write of the concatenated bytes. -/
theorem QFile.writeRawData_append (f : QFile) (a b : List Nat) :
    (f.writeRawData a).writeRawData b = f.writeRawData (a ++ b) := by
  cases a with
  | nil => rw [QFile.writeRawData_nil, List.nil_append]
  | cons x xs =>
    cases b with
    | nil => rw [QFile.writeRawData_nil, List.append_nil]
    | cons y ys =>
      cases f with
      | mk name data pos isOpen =>
        cases isOpen with
        | false => simp [QFile.writeRawData]
        | true =>
          simp only [QFile.writeRawData, if_true, List.cons_append, QFile.mk.injEq, true_and,
            and_true]
          constructor
          · have h := overwrite_aux
              (data.take pos ++ List.replicate (pos - data.length) 0 ++ x :: xs)
              (data.drop (pos + (x :: xs).length)) (y :: ys) (pos + (x :: xs).length)
              (by simp; omega)
            simp only [List.length_cons, List.drop_drop] at h
            simp only [List.length_cons, List.append_assoc, List.cons_append,
              List.length_append] at h ⊢
            rw [h]
            have e : pos + (xs.length + 1) + (ys.length + 1) =
                pos + (xs.length + (ys.length + 1) + 1) := by omega
            rw [e]
          · simp only [List.length_cons, List.length_append]
            omega

theorem writeNulls_eq (n : Nat) : ∀ f : QFile, writeNulls f n = f.writeRawData (List.replicate n 0) := by
  induction n with
  | zero => intro f; simp [writeNulls, QFile.writeRawData_nil]
  | succ n ih =>
    intro f
    rw [writeNulls, ih, QFile.writeRawData_append]
    rfl

/-- A write at the end of an open file appends the bytes. -/
theorem QFile.writeRawData_at_end (f : QFile) (bytes : List Nat) (ho : f.isOpen = true)
    (hp : f.pos = f.data.length) :
    f.writeRawData bytes =
      { f with data := f.data ++ bytes, pos := f.data.length + bytes.length } := by
  cases f with
  | mk name data pos isOpen =>
    simp only at ho hp
    subst ho hp
    cases bytes with
    | nil => simp [QFile.writeRawData]
    | cons x xs => simp [QFile.writeRawData]

/-- A write at offset 0 of an open file replaces the first bytes. -/
theorem QFile.writeRawData_at_zero (f : QFile) (bytes : List Nat) (ho : f.isOpen = true) :
    (f.seek 0).writeRawData bytes =
      { f with data := bytes ++ f.data.drop bytes.length, pos := bytes.length } := by
  cases f with
  | mk name data pos isOpen =>
    simp only at ho
    subst ho
    cases bytes with
    | nil => simp [QFile.writeRawData, QFile.seek]
    | cons x xs => simp [QFile.writeRawData, QFile.seek]

/-! ## Lemmas on the SEQ writer -/

theorem remainingHeader_eq (w : SEQWriter) (width height bpp_num : Int) :
    (writeHeaderCore w width height bpp_num).2 = 432 := by
  rfl

theorem norpixString_bytes :
    norpixString.map (fun c => int16Bytes (c : Int)) =
      [[78, 0], [111, 0], [114, 0], [112, 0], [105, 0], [120, 0], [32, 0], [115, 0], [101, 0],
        [113, 0]] := by
  decide

set_option maxRecDepth 100000 in
theorem norpixDesc_bytes :
    List.take NORPIX_DESC_LENGTH norpixDesc ++
        List.replicate (NORPIX_DESC_SIZE - NORPIX_DESC_LENGTH) 0 =
      List.replicate 512 0 := by
  rfl

/-- The writes of `writeHeader` amount to one write of `headerBytes` at offset 0. -/
theorem writeHeaderCore_fst (w : SEQWriter) (width height bpp_num : Int) :
    (writeHeaderCore w width height bpp_num).1 =
      (w.seqFile.seek 0).writeRawData (headerBytes w.compressed w.streamChannel w.totalFrames width height bpp_num) := by
  have hrem : ((((((((((((SEQ_HEADER_SIZE : Int) - 4) - NORPIX_STRING_LENGTH * 2) - 4) - 4) - 4)
      - NORPIX_DESC_SIZE) - 6 * 4) - 4) - 4) - 4) - 8).toNat = 432 := by decide
  have hs := norpixString_bytes
  simp only [norpixString, List.map, List.cons.injEq, and_true] at hs
  obtain ⟨h0, h1, h2, h3, h4, h5, h6, h7, h8, h9⟩ := hs
  simp only [writeHeaderCore, hrem, writeNulls_eq, norpixString, List.map, List.foldl,
    QFile.writeRawData_append, headerBytes]
  simp only [h0, h1, h2, h3, h4, h5, h6, h7, h8, h9, List.append_assoc, norpixDesc_bytes,
    List.cons_append, List.nil_append]

theorem headerBytes_length (cmp : Bool) (ch : Channels) (tf : Int) (width height bpp_num : Int) :
    (headerBytes cmp ch tf width height bpp_num).length = 1024 := by
  simp only [headerBytes, List.length_append, List.length_replicate, int32Bytes_length, fpsBytes,
    List.length_cons, List.length_nil]

/-- On an open file `writeHeader` replaces the first 1024 bytes by `headerBytes`
and leaves the position at 1024. -/
theorem writeHeader_seqFile (w : SEQWriter) (width height bpp_num : Int)
    (ho : w.seqFile.isOpen = true) :
    (w.writeHeader width height bpp_num).seqFile =
      { w.seqFile with
        data := headerBytes w.compressed w.streamChannel w.totalFrames width height bpp_num ++ w.seqFile.data.drop 1024
        pos := 1024 } := by
  simp only [SEQWriter.writeHeader, writeHeaderCore_fst]
  rw [QFile.writeRawData_at_zero _ _ ho, headerBytes_length]

set_option maxRecDepth 100000 in
/-- The fields of a finished header, at their offsets. -/
theorem headerBytes_layout (cmp : Bool) (ch : Channels) (tf : Int) (width height bpp_num : Int)
    (rest : List Nat) :
    bytesAt (headerBytes cmp ch tf width height bpp_num ++ rest) 0 4 = [0xED, 0xFE, 0, 0] ∧
    bytesAt (headerBytes cmp ch tf width height bpp_num ++ rest) 4 20 =
      [78, 0, 111, 0, 114, 0, 112, 0, 105, 0, 120, 0, 32, 0, 115, 0, 101, 0, 113, 0] ∧
    bytesAt (headerBytes cmp ch tf width height bpp_num ++ rest) 24 4 = [0, 0, 0, 0] ∧
    bytesAt (headerBytes cmp ch tf width height bpp_num ++ rest) 28 4 = [3, 0, 0, 0] ∧
    bytesAt (headerBytes cmp ch tf width height bpp_num ++ rest) 32 4 = [0, 4, 0, 0] ∧
    bytesAt (headerBytes cmp ch tf width height bpp_num ++ rest) 36 512 = List.replicate 512 0 ∧
    bytesAt (headerBytes cmp ch tf width height bpp_num ++ rest) 548 4 = int32Bytes width ∧
    bytesAt (headerBytes cmp ch tf width height bpp_num ++ rest) 552 4 = int32Bytes height ∧
    bytesAt (headerBytes cmp ch tf width height bpp_num ++ rest) 556 4 = int32Bytes bpp_num ∧
    bytesAt (headerBytes cmp ch tf width height bpp_num ++ rest) 560 4 = [8, 0, 0, 0] ∧
    bytesAt (headerBytes cmp ch tf width height bpp_num ++ rest) 564 4 =
      int32Bytes (bytesPerFrame width height bpp_num) ∧
    bytesAt (headerBytes cmp ch tf width height bpp_num ++ rest) 568 4 =
      int32Bytes (imageFormat cmp ch) ∧
    bytesAt (headerBytes cmp ch tf width height bpp_num ++ rest) 572 4 = int32Bytes tf ∧
    bytesAt (headerBytes cmp ch tf width height bpp_num ++ rest) 576 4 = [0, 0, 0, 0] ∧
    bytesAt (headerBytes cmp ch tf width height bpp_num ++ rest) 580 4 =
      int32Bytes (trueImageSize (bytesPerFrame width height bpp_num)) ∧
    bytesAt (headerBytes cmp ch tf width height bpp_num ++ rest) 584 8 = [0, 0, 0, 0, 0, 0, 0x3E, 0x40] ∧
    bytesAt (headerBytes cmp ch tf width height bpp_num ++ rest) 592 432 = List.replicate 432 0 ∧
    (headerBytes cmp ch tf width height bpp_num ++ rest).drop 1024 = rest := by
  refine ⟨rfl, rfl, rfl, rfl, rfl, rfl, rfl, rfl, rfl, rfl, rfl, rfl, rfl, rfl, rfl, rfl, rfl, rfl⟩

/-- The four `int` fields of a finished header read back as the values written. -/
theorem headerBytes_read (cmp : Bool) (ch : Channels) (tf : Int) (width height bpp_num : Int)
    (rest : List Nat) :
    readInt32At (headerBytes cmp ch tf width height bpp_num ++ rest) 548 = wrapInt32 width ∧
    readInt32At (headerBytes cmp ch tf width height bpp_num ++ rest) 552 = wrapInt32 height ∧
    readInt32At (headerBytes cmp ch tf width height bpp_num ++ rest) 556 = wrapInt32 bpp_num ∧
    readInt32At (headerBytes cmp ch tf width height bpp_num ++ rest) 564 =
      wrapInt32 (bytesPerFrame width height bpp_num) ∧
    readInt32At (headerBytes cmp ch tf width height bpp_num ++ rest) 572 = wrapInt32 tf := by
  have h := headerBytes_layout cmp ch tf width height bpp_num rest
  obtain ⟨-, -, -, -, -, -, h548, h552, h556, -, h564, -, h572, -⟩ := h
  simp only [readInt32At, h548, h552, h556, h564, h572, wrapInt32_readLE_int32Bytes, and_self]

theorem startRecording_seqFile (w : SEQWriter) (workingDir : String) (width height : Int)
    (compressed : Bool) (dateTime : String) (isPGswitched : Bool) :
    (w.startRecording workingDir width height compressed dateTime isPGswitched).seqFile.data =
        List.replicate 1024 0 ∧
    (w.startRecording workingDir width height compressed dateTime isPGswitched).seqFile.pos =
        1024 ∧
    (w.startRecording workingDir width height compressed dateTime isPGswitched).seqFile.isOpen =
        true := by
  simp only [SEQWriter.startRecording, makeEmptyHeader, writeNulls_eq, SEQ_HEADER_SIZE]
  rw [QFile.writeRawData_at_end _ _ rfl rfl]
  simp only [QFile.openWriteOnly, List.nil_append, List.length_nil, List.length_replicate,
    Nat.zero_add, and_self]

theorem startRecording_fields (w : SEQWriter) (workingDir : String) (width height : Int)
    (compressed : Bool) (dateTime : String) (isPGswitched : Bool) :
    (w.startRecording workingDir width height compressed dateTime isPGswitched).totalFrames = 0 ∧
    (w.startRecording workingDir width height compressed dateTime isPGswitched).width = width ∧
    (w.startRecording workingDir width height compressed dateTime isPGswitched).height =
        height ∧
    (w.startRecording workingDir width height compressed dateTime isPGswitched).compressed =
        compressed ∧
    (w.startRecording workingDir width height compressed dateTime isPGswitched).streamChannel =
        w.streamChannel := by
  simp only [SEQWriter.startRecording, and_self]

theorem startRecording_recording (w : SEQWriter) (workingDir : String) (width height : Int)
    (compressed : Bool) (dateTime : String) (isPGswitched : Bool) :
    Recording (w.startRecording workingDir width height compressed dateTime isPGswitched) := by
  obtain ⟨hd, hp, ho⟩ :=
    startRecording_seqFile w workingDir width height compressed dateTime isPGswitched
  refine ⟨ho, ?_, rfl⟩
  rw [hp, hd, List.length_replicate]

/-- One `writeFrame` of an uncompressed session appends `rawFrameBytes` to the
file and counts the frame. -/
theorem writeFrame_raw (compressJPEG : QImage → Int → Int → Option (List Nat)) (w : SEQWriter)
    (image : QImage) (secs ms : Int) (hc : w.compressed = false) (hr : Recording w) :
    w.writeFrame compressJPEG image secs ms =
      some { w with
        seqFile :=
          { w.seqFile with
            data := w.seqFile.data ++ rawFrameBytes w.streamChannel image secs ms
            pos := w.seqFile.data.length + (rawFrameBytes w.streamChannel image secs ms).length }
        totalFrames := wrapInt32 (w.totalFrames + 1) } := by
  obtain ⟨ho, hp, -⟩ := hr
  have hmc : int16Bytes 0 = [0, 0] := by decide
  simp only [SEQWriter.writeFrame, hc, COMPATIBILITY_MODE, if_true, Bool.false_eq_true, if_false,
    writeNulls_eq, QFile.writeRawData_append, hmc]
  rw [QFile.writeRawData_at_end _ _ ho hp]
  simp only [rawFrameBytes, List.append_assoc]

theorem frameStream_cons_length (channel : Channels) (a : FrameArgs) (rest : List FrameArgs) :
    (frameStream channel (a :: rest)).length =
      (rawFrameBytes channel a.image a.secs a.ms).length + (frameStream channel rest).length := by
  simp only [frameStream, List.length_append]

/-- A sequence of `writeFrame` calls of an uncompressed session never fails; it
appends `frameStream` to the file and adds the number of calls to the counter. -/
theorem writeFrames_raw (compressJPEG : QImage → Int → Int → Option (List Nat))
    (frames : List FrameArgs) :
    ∀ w : SEQWriter, w.compressed = false → Recording w →
      writeFrames compressJPEG w frames =
        some { w with
          seqFile :=
            { w.seqFile with
              data := w.seqFile.data ++ frameStream w.streamChannel frames
              pos := w.seqFile.data.length + (frameStream w.streamChannel frames).length }
          totalFrames := wrapInt32 (w.totalFrames + frames.length) } := by
  induction frames with
  | nil =>
    intro w _ hr
    obtain ⟨-, hp, ht⟩ := hr
    cases w with
    | mk f tf wd ht2 ch c =>
      cases f with
      | mk name data pos isOpen =>
        simp only at hp ht
        simp only [writeFrames, frameStream, List.append_nil, List.length_nil, Nat.add_zero,
          Nat.cast_zero, Int.add_zero, ht, hp]
  | cons a rest ih =>
    intro w hc hr
    rw [writeFrames, writeFrame_raw compressJPEG w a.image a.secs a.ms hc hr]
    have hr1 : Recording { w with
        seqFile :=
          { w.seqFile with
            data := w.seqFile.data ++ rawFrameBytes w.streamChannel a.image a.secs a.ms
            pos := w.seqFile.data.length +
              (rawFrameBytes w.streamChannel a.image a.secs a.ms).length }
        totalFrames := wrapInt32 (w.totalFrames + 1) } := by
      refine ⟨hr.1, ?_, ?_⟩
      · simp only [List.length_append]
      · simp only [wrapInt32]; omega
    simp only []
    rw [ih _ (by exact hc) hr1]
    simp only [frameStream, List.append_assoc, List.length_append, List.length_cons,
      Nat.add_assoc, Option.some.injEq, SEQWriter.mk.injEq, QFile.mk.injEq, true_and, and_true]
    simp only [wrapInt32]
    push_cast
    omega

/-- On a writer whose file is open, `stopRecording` replaces the first 1024
bytes of the file by the finished header and closes the file. -/
theorem stopRecording_data (w : SEQWriter) (ho : w.seqFile.isOpen = true) :
    (w.stopRecording).seqFile.data =
        headerBytes w.compressed w.streamChannel w.totalFrames w.width w.height
            (bitsPerPixel w.streamChannel) ++
          w.seqFile.data.drop 1024 ∧
    (w.stopRecording).seqFile.isOpen = false := by
  simp only [SEQWriter.stopRecording, QFile.close]
  rw [writeHeader_seqFile _ _ _ _ ho]
  exact ⟨rfl, trivial⟩

theorem drop_placeholder (rest : List Nat) :
    (List.replicate 1024 0 ++ rest).drop 1024 = rest := by
  have h : (List.replicate 1024 (0 : Nat)).length = 1024 := List.length_replicate _ _
  exact List.drop_left' h

/-- The writer after a sequence of `writeFrame` calls of an uncompressed
session, field by field. -/
theorem writeFrames_raw_fields (compressJPEG : QImage → Int → Int → Option (List Nat))
    (frames : List FrameArgs) (w : SEQWriter) (hc : w.compressed = false) (hr : Recording w) :
    ∃ wN : SEQWriter,
      writeFrames compressJPEG w frames = some wN ∧
      wN.seqFile.data = w.seqFile.data ++ frameStream w.streamChannel frames ∧
      wN.seqFile.isOpen = true ∧
      wN.seqFile.pos = wN.seqFile.data.length ∧
      wN.totalFrames = wrapInt32 (w.totalFrames + frames.length) ∧
      wN.width = w.width ∧ wN.height = w.height ∧
      wN.streamChannel = w.streamChannel ∧ wN.compressed = false := by
  refine ⟨_, writeFrames_raw compressJPEG frames w hc hr, rfl, hr.1, ?_, rfl, rfl, rfl, rfl, hc⟩
  simp only [List.length_append]

/-- A whole uncompressed session never fails and leaves a closed file made of
the finished header followed by the frames. -/
theorem recordSession_raw (compressJPEG : QImage → Int → Int → Option (List Nat))
    (w : SEQWriter) (workingDir : String) (width height : Int) (dateTime : String)
    (isPGswitched : Bool) (frames : List FrameArgs) :
    ∃ w1 : SEQWriter,
      recordSession compressJPEG w workingDir width height false dateTime isPGswitched frames =
        some w1 ∧
      w1.seqFile.data =
        headerBytes false w.streamChannel (wrapInt32 frames.length) width height
            (bitsPerPixel w.streamChannel) ++
          frameStream w.streamChannel frames ∧
      w1.seqFile.isOpen = false := by
  obtain ⟨hd, -, -⟩ :=
    startRecording_seqFile w workingDir width height false dateTime isPGswitched
  obtain ⟨ht, hw, hh, hc, hch⟩ :=
    startRecording_fields w workingDir width height false dateTime isPGswitched
  have hr := startRecording_recording w workingDir width height false dateTime isPGswitched
  unfold recordSession
  generalize w.startRecording workingDir width height false dateTime isPGswitched = w0 at *
  obtain ⟨wN, hrun, hdata, hopen, -, htf, hwid, hhei, hchn, hcmp⟩ :=
    writeFrames_raw_fields compressJPEG frames w0 hc hr
  rw [hrun, Option.map_some']
  obtain ⟨hs1, hs2⟩ := stopRecording_data wN hopen
  refine ⟨wN.stopRecording, rfl, ?_, hs2⟩
  rw [hs1, hdata, htf, hwid, hhei, hchn, hcmp, hd, ht, hw, hh, hch, Int.zero_add,
    drop_placeholder]

theorem bitsPerPixel_pos (channel : Channels) : 0 < bitsPerPixel channel := by
  cases channel <;> decide

/-- Without overflow the `int` expression `width * height * bpp` has its
mathematical value. -/
theorem mul32_mul32_eq (width height bpp : Int) (hw : 0 ≤ width) (hh : 0 ≤ height)
    (hb : 0 < bpp) (hp : width * height * bpp < 2147483648) :
    mul32 (mul32 width height) bpp = width * height * bpp := by
  have h0 : 0 ≤ width * height := mul_nonneg hw hh
  have h1 : width * height ≤ width * height * bpp := le_mul_of_one_le_right h0 (by omega)
  have h2 : 0 ≤ width * height * bpp := mul_nonneg h0 (by omega)
  unfold mul32
  rw [wrapInt32_of_range (width * height) (by omega) (by omega)]
  exact wrapInt32_of_range _ (by omega) hp

theorem bytesPerFrame_eq (width height bpp : Int) (hw : 0 ≤ width) (hh : 0 ≤ height)
    (hb : 0 < bpp) (hp : width * height * bpp < 2147483648) :
    bytesPerFrame width height bpp = width * height * bpp := by
  have h0 : 0 ≤ width * height * bpp := mul_nonneg (mul_nonneg hw hh) (by omega)
  simp only [bytesPerFrame, COMPATIBILITY_MODE, if_true, Int.tdiv_one]
  rw [mul32_mul32_eq width height bpp hw hh hb hp]
  exact wrapInt32_of_range _ (by omega) hp

theorem imageSize_eq (width height bpp : Int) (hw : 0 ≤ width) (hh : 0 ≤ height)
    (hb : 0 < bpp) (hp : width * height * bpp < 2147483648) :
    Int.tdiv (mul32 (mul32 width height) bpp) 8 = width * height * bpp / 8 := by
  have h0 : 0 ≤ width * height * bpp := mul_nonneg (mul_nonneg hw hh) (by omega)
  rw [mul32_mul32_eq width height bpp hw hh hb hp]
  exact Int.tdiv_eq_ediv h0 (by omega)

theorem rawFrameBytes_length (channel : Channels) (image : QImage) (secs ms : Int) :
    (rawFrameBytes channel image secs ms).length =
      (Int.tdiv (mul32 (mul32 image.width image.height) (bitsPerPixel channel)) 8).toNat + 20 := by
  simp only [rawFrameBytes, List.length_append, int32Bytes_length, int16Bytes_length,
    rawData_length, List.length_replicate, List.length_cons, List.length_nil]
  omega

theorem frameStream_length (channel : Channels) (width height : Int) (frames : List FrameArgs)
    (hdim : ∀ a ∈ frames, a.image.width = width ∧ a.image.height = height) :
    (frameStream channel frames).length =
      frames.length *
        ((Int.tdiv (mul32 (mul32 width height) (bitsPerPixel channel)) 8).toNat + 20) := by
  induction frames with
  | nil => simp [frameStream]
  | cons a rest ih =>
    have ha := hdim a (List.mem_cons_self _ _)
    have hrest := ih (fun b hb => hdim b (List.mem_cons_of_mem _ hb))
    rw [frameStream_cons_length, hrest, rawFrameBytes_length, ha.1, ha.2, List.length_cons]
    ring

/-- One `writeFrame` of a compressed session whose JPEG call succeeds appends
the 4-byte size, the encoded bytes, the timestamp record and 8 zero bytes. -/
theorem writeFrame_jpeg (compressJPEG : QImage → Int → Int → Option (List Nat)) (w : SEQWriter)
    (image : QImage) (secs ms : Int) (jpeg : List Nat) (hc : w.compressed = true)
    (hr : Recording w) (hj : compressJPEG image w.width w.height = some jpeg) :
    ∃ w1 : SEQWriter,
      w.writeFrame compressJPEG image secs ms = some w1 ∧
      w1.seqFile.data =
        w.seqFile.data ++
          (int32Bytes (wrapInt32 jpeg.length) ++
          (rawData (fun i => jpeg.getD i 0) (wrapInt32 jpeg.length) ++
          (int32Bytes secs ++ (int16Bytes ms ++ ([0, 0] ++ List.replicate 8 0))))) := by
  obtain ⟨ho, hp, -⟩ := hr
  have hmc : int16Bytes 0 = [0, 0] := by decide
  simp only [SEQWriter.writeFrame, hc, hj, COMPATIBILITY_MODE, if_true, writeNulls_eq,
    QFile.writeRawData_append, hmc]
  rw [QFile.writeRawData_at_end _ _ ho hp]
  exact ⟨_, rfl, by simp only [List.append_assoc]⟩

theorem bytesAt_append_left (data bytes rest : List Nat) :
    bytesAt (data ++ (bytes ++ rest)) data.length bytes.length = bytes := by
  unfold bytesAt
  rw [List.drop_left' rfl, List.take_left' rfl]

/-! ## Claims -/

/-- C1: starting from an empty Synchronization Buffer, after any sequence of
`SynchronizationQueue::push` calls the buffer holds at most 2 frames, and after
`k ≥ 2` pushes it holds exactly the two most recently pushed frames, oldest
first; a push onto a full buffer `[a, b]` evicts the oldest frame `a`. -/
theorem C1_sync_buffer_keeps_last_two (frames : List Frame) :
    (pushAll [] frames).length ≤ 2 ∧
    (2 ≤ frames.length → pushAll [] frames = frames.drop (frames.length - 2)) ∧
    (∀ a b frame : Frame, SynchronizationQueue.push [a, b] frame = [b, frame]) := by
  refine ⟨pushAll_length_le frames [] (by simp), ?_, fun a b frame => rfl⟩
  intro h
  obtain ⟨gs, a, b, rfl⟩ := exists_last_two frames h
  rw [pushAll_last_two [] (by simp) gs a b, drop_length_sub_two]

/-- Witness for C1: five pushes leave the last two frames. -/
theorem C1_sync_buffer_keeps_last_two_witness :
    (pushAll [] [10, 11, 12, 13, 14]).length ≤ 2 ∧ pushAll [] [10, 11, 12, 13, 14] = [13, 14] :=
  ⟨(C1_sync_buffer_keeps_last_two [10, 11, 12, 13, 14]).1,
   (C1_sync_buffer_keeps_last_two [10, 11, 12, 13, 14]).2.1 (by decide)⟩

/-- C2: when at least one channel is enabled, every enabled channel has a frame
in its Synchronization Buffer and no enabled Delivery Queue holds more than
`MAX_QUEUE_SIZE` frames, one pass of `checkFrameBuffer` appends to the Delivery
Queue of each enabled channel exactly the frame that was oldest in its
Synchronization Buffer and removes it there, and leaves both queues of every
channel that is not enabled unchanged. -/
theorem C2_pass_moves_one_frame_per_enabled_channel (s : Streamer)
    (p_pgTop p_pgFront p_depth p_color : Bool)
    (hne : ∃ ch, enabled p_pgTop p_pgFront p_depth p_color ch = true)
    (hready : ∀ ch, enabled p_pgTop p_pgFront p_depth p_color ch = true →
      s.synchronizationQueues ch ≠ [])
    (hroom : ∀ ch, enabled p_pgTop p_pgFront p_depth p_color ch = true →
      ¬ (s.frameQueues ch).length > MAX_QUEUE_SIZE)
    (ch : Channels) :
    (enabled p_pgTop p_pgFront p_depth p_color ch = true →
      ∃ front rest,
        s.synchronizationQueues ch = front :: rest ∧
        (checkFrameBuffer s p_pgTop p_pgFront p_depth p_color).frameQueues ch =
          s.frameQueues ch ++ [front] ∧
        ((checkFrameBuffer s p_pgTop p_pgFront p_depth p_color).frameQueues ch).length =
          (s.frameQueues ch).length + 1 ∧
        (checkFrameBuffer s p_pgTop p_pgFront p_depth p_color).synchronizationQueues ch = rest) ∧
    (enabled p_pgTop p_pgFront p_depth p_color ch = false →
      (checkFrameBuffer s p_pgTop p_pgFront p_depth p_color).frameQueues ch = s.frameQueues ch ∧
      (checkFrameBuffer s p_pgTop p_pgFront p_depth p_color).synchronizationQueues ch =
        s.synchronizationQueues ch) := by
  have hroom2 : ∀ c0, enabled p_pgTop p_pgFront p_depth p_color c0 = true →
      (s.frameQueues c0).length ≤ MAX_QUEUE_SIZE := fun c0 h0 => Nat.le_of_not_lt (hroom c0 h0)
  have ht := checkFrameBuffer_transfer s p_pgTop p_pgFront p_depth p_color hne hready hroom2 ch
  constructor
  · intro hen
    rw [if_pos hen, if_pos hen] at ht
    cases hq : s.synchronizationQueues ch with
    | nil => exact absurd hq (hready ch hen)
    | cons front rest =>
      rw [hq] at ht
      refine ⟨front, rest, rfl, ?_, ?_, ?_⟩
      · simpa using ht.1
      · rw [ht.1]; simp
      · simpa using ht.2
  · intro hen
    have hen2 : ¬ enabled p_pgTop p_pgFront p_depth p_color ch = true := by simp [hen]
    rw [if_neg hen2, if_neg hen2] at ht
    exact ht

/-- Witness for C2: with Top and Front enabled in `exampleState`, Top receives
the front of its buffer and Color, which is not enabled, keeps both queues. -/
theorem C2_pass_moves_one_frame_per_enabled_channel_witness :
    (∃ front rest,
      exampleState.synchronizationQueues Channels.PointGreyTop = front :: rest ∧
      (checkFrameBuffer exampleState true true false false).frameQueues Channels.PointGreyTop =
        exampleState.frameQueues Channels.PointGreyTop ++ [front] ∧
      ((checkFrameBuffer exampleState true true false false).frameQueues
          Channels.PointGreyTop).length =
        (exampleState.frameQueues Channels.PointGreyTop).length + 1 ∧
      (checkFrameBuffer exampleState true true false false).synchronizationQueues
          Channels.PointGreyTop = rest) ∧
    ((checkFrameBuffer exampleState true true false false).frameQueues Channels.Color =
        exampleState.frameQueues Channels.Color ∧
      (checkFrameBuffer exampleState true true false false).synchronizationQueues Channels.Color =
        exampleState.synchronizationQueues Channels.Color) :=
  ⟨(C2_pass_moves_one_frame_per_enabled_channel exampleState true true false false
      ⟨Channels.PointGreyTop, rfl⟩ (by decide) (by decide) Channels.PointGreyTop).1 rfl,
   (C2_pass_moves_one_frame_per_enabled_channel exampleState true true false false
      ⟨Channels.PointGreyTop, rfl⟩ (by decide) (by decide) Channels.Color).2 rfl⟩

/-- C3: a coordinator pass is all-or-nothing. When no channel is enabled, or
some enabled channel has an empty Synchronization Buffer, or the Delivery Queue
of some enabled channel holds more than 5 frames, `checkFrameBuffer` returns the
state it was given: every buffer and every queue of every channel is unchanged. -/
theorem C3_pass_all_or_nothing (s : Streamer) (p_pgTop p_pgFront p_depth p_color : Bool)
    (h : (∀ ch, enabled p_pgTop p_pgFront p_depth p_color ch = false) ∨
         (∃ ch, enabled p_pgTop p_pgFront p_depth p_color ch = true ∧
            s.synchronizationQueues ch = []) ∨
         (∃ ch, enabled p_pgTop p_pgFront p_depth p_color ch = true ∧
            (s.frameQueues ch).length > 5)) :
    checkFrameBuffer s p_pgTop p_pgFront p_depth p_color = s :=
  checkFrameBuffer_skip s p_pgTop p_pgFront p_depth p_color h

/-- Witness for C3: with Top and Depth enabled in `exampleState`, where the
buffer of Depth is empty, the pass changes nothing. -/
theorem C3_pass_all_or_nothing_witness :
    checkFrameBuffer exampleState true false true false = exampleState :=
  C3_pass_all_or_nothing exampleState true false true false
    (Or.inr (Or.inl ⟨Channels.Depth, rfl, rfl⟩))

/-- C4: evaluation of `checkFrameBuffer` where the claim fails. The Delivery
Queue of Top holds exactly `MAX_QUEUE_SIZE` = 5 frames, Top and Front are
enabled and both have a buffered frame: the pass transfers on both channels,
and the Delivery Queue of Top grows to 6 frames. -/
theorem C4_transfer_at_capacity :
    (atCapacityState.frameQueues Channels.PointGreyTop).length = MAX_QUEUE_SIZE ∧
    (checkFrameBuffer atCapacityState true true false false).frameQueues Channels.PointGreyTop =
      [1, 2, 3, 4, 5, 6] ∧
    (checkFrameBuffer atCapacityState true true false false).frameQueues Channels.PointGreyFront =
      [7] ∧
    (checkFrameBuffer atCapacityState true true false false).synchronizationQueues
      Channels.PointGreyTop = [] ∧
    (checkFrameBuffer atCapacityState true true false false).synchronizationQueues
      Channels.PointGreyFront = [] := by
  decide

/-- C5: lockstep. For fixed flags, along every interleaving of buffer pushes,
coordinator passes and processor pops, started in any state, two enabled
channels are released a frame in exactly the same passes; so the number of
frames released so far is the same on both. -/
theorem C5_lockstep (p_pgTop p_pgFront p_depth p_color : Bool) (s : Streamer) (ops : List Op)
    (hfix : fixedFlags p_pgTop p_pgFront p_depth p_color ops) (c1 c2 : Channels)
    (h1 : enabled p_pgTop p_pgFront p_depth p_color c1 = true)
    (h2 : enabled p_pgTop p_pgFront p_depth p_color c2 = true) :
    releaseLog c1 s ops = releaseLog c2 s ops ∧
    releasedCount c1 s ops = releasedCount c2 s ops := by
  have h := releaseLog_eq p_pgTop p_pgFront p_depth p_color c1 c2 h1 h2 ops s hfix
  exact ⟨h, by unfold releasedCount; rw [h]⟩

/-- Witness for C5: on `exampleOps`, run from the empty state with Top and
Front enabled, Top and Front are released a frame in the same passes. -/
theorem C5_lockstep_witness :
    releaseLog Channels.PointGreyTop Streamer.init exampleOps =
      releaseLog Channels.PointGreyFront Streamer.init exampleOps ∧
    releasedCount Channels.PointGreyTop Streamer.init exampleOps =
      releasedCount Channels.PointGreyFront Streamer.init exampleOps :=
  C5_lockstep true true false false Streamer.init exampleOps
    (by intro a b c d h; simp [exampleOps] at h; simp [h])
    Channels.PointGreyTop Channels.PointGreyFront rfl rfl

/-- C6: within one channel frame order is preserved end to end. From the empty
state, along every sequence of buffer pushes, coordinator passes (with any
flags) and pops, the frames returned by `FrameQueue::pop` on a channel's
Delivery Queue form an order-preserving subsequence of the frames pushed into
its Synchronization Buffer; when the pushed frames are distinct no frame is
returned twice; and `pop` on an empty queue returns `NULL` and leaves the
queue empty. -/
theorem C6_channel_order_preserved (ops : List Op) (ch : Channels) :
    (poppedFrames ch Streamer.init ops).Sublist (pushedFrames ch ops) ∧
    ((pushedFrames ch ops).Nodup → (poppedFrames ch Streamer.init ops).Nodup) ∧
    FrameQueue.pop [] = (none, []) ∧
    (∀ s : Streamer, s.frameQueues ch = [] → step s (Op.pop ch) = s) := by
  have hsub : (poppedFrames ch Streamer.init ops).Sublist (pushedFrames ch ops) := by
    simpa [Streamer.init] using poppedFrames_sublist ch ops Streamer.init
  refine ⟨hsub, fun hnd => hsub.nodup hnd, rfl, ?_⟩
  intro s hs
  cases s with
  | mk fq sq =>
    simp only at hs
    simp only [step, hs, FrameQueue.pop]
    congr 1
    rw [← hs, Function.update_eq_self]

/-- Witness for C6: on `exampleOps` the frames popped on Top are distinct and
form a subsequence of the frames pushed on Top, and a pop on the empty Delivery
Queue of Top in the initial state changes nothing. -/
theorem C6_channel_order_preserved_witness :
    (poppedFrames Channels.PointGreyTop Streamer.init exampleOps).Sublist
      (pushedFrames Channels.PointGreyTop exampleOps) ∧
    (poppedFrames Channels.PointGreyTop Streamer.init exampleOps).Nodup ∧
    step Streamer.init (Op.pop Channels.PointGreyTop) = Streamer.init :=
  ⟨(C6_channel_order_preserved exampleOps Channels.PointGreyTop).1,
   (C6_channel_order_preserved exampleOps Channels.PointGreyTop).2.1 (by decide),
   (C6_channel_order_preserved exampleOps Channels.PointGreyTop).2.2.2 Streamer.init rfl⟩

/-- C7, the claim as stated fails: in an uncompressed 64 x 48 session of
N = 4294967296 `writeFrame` calls the 4-byte frame-count field of the header
reads 0, not N. -/
theorem C7_frame_count_field_wraps :
    ∃ w1 : SEQWriter,
      recordSession noJPEG usedWriter "rec/" 64 48 false "20240101_00-00-00" false
          (List.replicate 4294967296 testFrame) = some w1 ∧
      (List.replicate 4294967296 testFrame).length = 4294967296 ∧
      readInt32At w1.seqFile.data 572 = 0 ∧
      readInt32At w1.seqFile.data 572 ≠ 4294967296 := by
  obtain ⟨w1, h1, h2, -⟩ := recordSession_raw noJPEG usedWriter "rec/" 64 48
    "20240101_00-00-00" false (List.replicate 4294967296 testFrame)
  have hread := (headerBytes_read false usedWriter.streamChannel
    (wrapInt32 ((List.replicate 4294967296 testFrame).length : Int)) 64 48
    (bitsPerPixel usedWriter.streamChannel)
    (frameStream usedWriter.streamChannel (List.replicate 4294967296 testFrame))).2.2.2.2
  rw [← h2, List.length_replicate] at hread
  have hz : wrapInt32 (wrapInt32 ((4294967296 : Nat) : Int)) = 0 := by decide
  rw [hz] at hread
  refine ⟨w1, h1, List.length_replicate _ _, hread, ?_⟩
  rw [hread]
  decide

/-- C7, amended: for every writer state (also one left by an earlier session),
every geometry held by two `int`s and every sequence of fewer than 2^31
`writeFrame` calls, the uncompressed session `startRecording`, the calls,
`stopRecording` completes, and in the file the header fields at offsets 572,
548, 552 and 556 read the number of calls, the session width, the session
height and the bit depth of the writer's channel. -/
theorem C7_session_header_round_trip (compressJPEG : QImage → Int → Int → Option (List Nat))
    (w : SEQWriter) (workingDir : String) (width height : Int) (dateTime : String)
    (isPGswitched : Bool) (frames : List FrameArgs)
    (hN : frames.length < 2147483648)
    (hw : -2147483648 ≤ width ∧ width < 2147483648)
    (hh : -2147483648 ≤ height ∧ height < 2147483648) :
    ∃ w1 : SEQWriter,
      recordSession compressJPEG w workingDir width height false dateTime isPGswitched frames =
        some w1 ∧
      readInt32At w1.seqFile.data 572 = frames.length ∧
      readInt32At w1.seqFile.data 548 = width ∧
      readInt32At w1.seqFile.data 552 = height ∧
      readInt32At w1.seqFile.data 556 = bitsPerPixel w.streamChannel := by
  obtain ⟨w1, h1, h2, -⟩ := recordSession_raw compressJPEG w workingDir width height dateTime
    isPGswitched frames
  obtain ⟨r548, r552, r556, -, r572⟩ := headerBytes_read false w.streamChannel
    (wrapInt32 (frames.length : Int)) width height (bitsPerPixel w.streamChannel)
    (frameStream w.streamChannel frames)
  rw [← h2] at r548 r552 r556 r572
  have hbpp : wrapInt32 (bitsPerPixel w.streamChannel) = bitsPerPixel w.streamChannel := by
    cases w.streamChannel <;> decide
  have hcount : wrapInt32 (wrapInt32 (frames.length : Int)) = frames.length := by
    have hlen : (frames.length : Int) < 2147483648 := by exact_mod_cast hN
    have h0 : (0 : Int) ≤ frames.length := Int.ofNat_nonneg _
    rw [wrapInt32_of_range _ (by omega) hlen, wrapInt32_of_range _ (by omega) hlen]
  refine ⟨w1, h1, ?_, ?_, ?_, ?_⟩
  · rw [r572, hcount]
  · rw [r548, wrapInt32_of_range _ hw.1 hw.2]
  · rw [r552, wrapInt32_of_range _ hh.1 hh.2]
  · rw [r556, hbpp]

/-- Witness for C7: a writer that already recorded three frames records a new
64 x 48 session of two frames on the Top channel; the header reads 2, 64, 48, 8. -/
theorem C7_session_header_round_trip_witness :
    ∃ w1 : SEQWriter,
      recordSession noJPEG usedWriter "rec/" 64 48 false "20240101_00-00-00" false
          [testFrame, testFrame] = some w1 ∧
      readInt32At w1.seqFile.data 572 = 2 ∧
      readInt32At w1.seqFile.data 548 = 64 ∧
      readInt32At w1.seqFile.data 552 = 48 ∧
      readInt32At w1.seqFile.data 556 = 8 :=
  C7_session_header_round_trip noJPEG usedWriter "rec/" 64 48 "20240101_00-00-00" false
    [testFrame, testFrame] (by decide) (by decide) (by decide)

/-- C8, the claim as stated fails: after an uncompressed 64 x 48 session on
the 8-bit Top channel the field at offset 564 reads 24576 = 64 x 48 x 8, not
3072 = 64 x 48 x 1. -/
theorem C8_bytes_per_frame_is_not_divided :
    ∃ w1 : SEQWriter,
      recordSession noJPEG usedWriter "rec/" 64 48 false "20240101_00-00-00" false
          [testFrame] = some w1 ∧
      readInt32At w1.seqFile.data 556 = 8 ∧
      readInt32At w1.seqFile.data 564 = 24576 ∧
      readInt32At w1.seqFile.data 564 ≠ 64 * 48 * 1 := by
  obtain ⟨w1, h1, h2, -⟩ := recordSession_raw noJPEG usedWriter "rec/" 64 48
    "20240101_00-00-00" false [testFrame]
  obtain ⟨-, -, r556, r564, -⟩ := headerBytes_read false usedWriter.streamChannel
    (wrapInt32 (([testFrame] : List FrameArgs).length : Int)) 64 48
    (bitsPerPixel usedWriter.streamChannel) (frameStream usedWriter.streamChannel [testFrame])
  rw [← h2] at r556 r564
  have e1 : wrapInt32 (bitsPerPixel usedWriter.streamChannel) = 8 := by decide
  have e2 : wrapInt32 (bytesPerFrame 64 48 (bitsPerPixel usedWriter.streamChannel)) = 24576 := by
    decide
  rw [e1] at r556
  rw [e2] at r564
  refine ⟨w1, h1, r556, r564, ?_⟩
  rw [r564]
  decide

/-- C8, amended: as the program is built (`COMPATIBILITY_MODE` defined),
`stopRecording` on a writer whose file is open and whose session geometry is
`width` x `height` stores at offset 564 the product width x height x
bits-per-pixel of the channel, not divided by 8, whenever the geometry is not
negative and the product fits an `int`. -/
theorem C8_header_bytes_per_frame (w : SEQWriter) (ho : w.seqFile.isOpen = true)
    (hw : 0 ≤ w.width) (hh : 0 ≤ w.height)
    (hp : w.width * w.height * bitsPerPixel w.streamChannel < 2147483648) :
    readInt32At (w.stopRecording).seqFile.data 564 =
      w.width * w.height * bitsPerPixel w.streamChannel := by
  have h0 : 0 ≤ w.width * w.height * bitsPerPixel w.streamChannel :=
    mul_nonneg (mul_nonneg hw hh) (le_of_lt (bitsPerPixel_pos _))
  rw [(stopRecording_data w ho).1]
  rw [(headerBytes_read w.compressed w.streamChannel w.totalFrames w.width w.height
    (bitsPerPixel w.streamChannel) (w.seqFile.data.drop 1024)).2.2.2.1]
  rw [bytesPerFrame_eq w.width w.height _ hw hh (bitsPerPixel_pos _) hp]
  exact wrapInt32_of_range _ (by omega) hp

/-- Witness for C8: closing the 64 x 48 session of `recordingWriter` on the
8-bit Top channel stores 24576 at offset 564. -/
theorem C8_header_bytes_per_frame_witness :
    recordingWriter.seqFile.isOpen = true ∧
    readInt32At (recordingWriter.stopRecording).seqFile.data 564 = 24576 :=
  ⟨(startRecording_seqFile usedWriter "rec/" 64 48 false "20240101_00-00-00" false).2.2,
   (C8_header_bytes_per_frame recordingWriter
      (startRecording_seqFile usedWriter "rec/" 64 48 false "20240101_00-00-00" false).2.2
      (by decide) (by decide) (by decide)).trans (by decide)⟩

/-- C9: for every width, height, bits-per-pixel argument and writer state
(frame count, channel, compression flag) with an open file, `writeHeader`
rewrites exactly the bytes 0 to 1023 of the file and leaves the position at
1024: magic 0xFEED at 0, the ten 16-bit characters of "Norpix seq" at 4, four
zero bytes at 24, version 3 at 28, header size 1024 at 32, a 512-byte zero
description at 36, width at 548, height at 552, bits per pixel at 556, the
constant 8 at 560, the per-frame byte count at 564, the format tag at 568, the
frame count at 572, origin 0 at 576, the true image size at 580, the frame rate
30.0 as a binary64 at 584 and 432 zero bytes from 592 to 1023; the padding
count computed in `remainingHeader` is 432, not negative; the bytes from
offset 1024 on are the ones the file had. -/
theorem C9_header_layout (w : SEQWriter) (width height bpp_num : Int)
    (ho : w.seqFile.isOpen = true) :
    (w.writeHeader width height bpp_num).seqFile.pos = 1024 ∧
    ((w.writeHeader width height bpp_num).seqFile.data.take 1024).length = 1024 ∧
    (w.writeHeader width height bpp_num).seqFile.data.drop 1024 = w.seqFile.data.drop 1024 ∧
    (writeHeaderCore w width height bpp_num).2 = 432 ∧
    0 ≤ (writeHeaderCore w width height bpp_num).2 ∧
    bytesAt (w.writeHeader width height bpp_num).seqFile.data 0 4 = [0xED, 0xFE, 0, 0] ∧
    bytesAt (w.writeHeader width height bpp_num).seqFile.data 4 20 =
      [78, 0, 111, 0, 114, 0, 112, 0, 105, 0, 120, 0, 32, 0, 115, 0, 101, 0, 113, 0] ∧
    norpixString = [78, 111, 114, 112, 105, 120, 32, 115, 101, 113] ∧
    bytesAt (w.writeHeader width height bpp_num).seqFile.data 24 4 = [0, 0, 0, 0] ∧
    bytesAt (w.writeHeader width height bpp_num).seqFile.data 28 4 = int32Bytes 3 ∧
    bytesAt (w.writeHeader width height bpp_num).seqFile.data 32 4 = int32Bytes 1024 ∧
    bytesAt (w.writeHeader width height bpp_num).seqFile.data 36 512 = List.replicate 512 0 ∧
    bytesAt (w.writeHeader width height bpp_num).seqFile.data 548 4 = int32Bytes width ∧
    bytesAt (w.writeHeader width height bpp_num).seqFile.data 552 4 = int32Bytes height ∧
    bytesAt (w.writeHeader width height bpp_num).seqFile.data 556 4 = int32Bytes bpp_num ∧
    bytesAt (w.writeHeader width height bpp_num).seqFile.data 560 4 = int32Bytes 8 ∧
    bytesAt (w.writeHeader width height bpp_num).seqFile.data 564 4 =
      int32Bytes (bytesPerFrame width height bpp_num) ∧
    bytesAt (w.writeHeader width height bpp_num).seqFile.data 568 4 =
      int32Bytes (imageFormat w.compressed w.streamChannel) ∧
    bytesAt (w.writeHeader width height bpp_num).seqFile.data 572 4 = int32Bytes w.totalFrames ∧
    bytesAt (w.writeHeader width height bpp_num).seqFile.data 576 4 = int32Bytes 0 ∧
    bytesAt (w.writeHeader width height bpp_num).seqFile.data 580 4 =
      int32Bytes (trueImageSize (bytesPerFrame width height bpp_num)) ∧
    bytesAt (w.writeHeader width height bpp_num).seqFile.data 584 8 = fpsBytes ∧
    bytesAt (w.writeHeader width height bpp_num).seqFile.data 592 432 = List.replicate 432 0 := by
  have hf := writeHeader_seqFile w width height bpp_num ho
  have hl := headerBytes_layout w.compressed w.streamChannel w.totalFrames width height bpp_num
    (w.seqFile.data.drop 1024)
  have hlen := headerBytes_length w.compressed w.streamChannel w.totalFrames width height bpp_num
  have hd : (w.writeHeader width height bpp_num).seqFile.data =
      headerBytes w.compressed w.streamChannel w.totalFrames width height bpp_num ++
        w.seqFile.data.drop 1024 := by rw [hf]
  have hpos : (w.writeHeader width height bpp_num).seqFile.pos = 1024 := by rw [hf]
  rw [hd]
  obtain ⟨l0, l4, l24, l28, l32, l36, l548, l552, l556, l560, l564, l568, l572, l576, l580,
    l584, l592, ldrop⟩ := hl
  refine ⟨hpos, ?_, ldrop, rfl, by rw [remainingHeader_eq]; decide, l0, l4, by decide, l24, l28,
    l32, l36, l548, l552, l556, l560, l564, l568, l572, l576, l580, l584, l592⟩
  rw [List.take_left' hlen, hlen]

/-- Witness for C9: the header written on `recordingWriter` for a 64 x 48
8-bit geometry. -/
theorem C9_header_layout_witness :
    recordingWriter.seqFile.isOpen = true ∧
    (recordingWriter.writeHeader 64 48 8).seqFile.pos = 1024 ∧
    bytesAt (recordingWriter.writeHeader 64 48 8).seqFile.data 0 4 = [0xED, 0xFE, 0, 0] ∧
    bytesAt (recordingWriter.writeHeader 64 48 8).seqFile.data 548 4 = int32Bytes 64 :=
  ⟨(startRecording_seqFile usedWriter "rec/" 64 48 false "20240101_00-00-00" false).2.2,
   (C9_header_layout recordingWriter 64 48 8
      (startRecording_seqFile usedWriter "rec/" 64 48 false "20240101_00-00-00" false).2.2).1,
   (C9_header_layout recordingWriter 64 48 8
      (startRecording_seqFile usedWriter "rec/" 64 48 false "20240101_00-00-00" false).2.2
      ).2.2.2.2.2.1,
   (C9_header_layout recordingWriter 64 48 8
      (startRecording_seqFile usedWriter "rec/" 64 48 false "20240101_00-00-00" false).2.2
      ).2.2.2.2.2.2.2.2.2.2.2.2.1⟩

/-- C10, the claim as stated fails: in the uncompressed 64 x 48 8-bit session
of `recordingWriter` one `writeFrame` appends 3072 + 20 bytes, not 3072 + 8,
and the appended bytes start with the 4-byte length 3072, not with pixels. -/
theorem C10_raw_frame_has_length_field_and_padding :
    ∃ w1 : SEQWriter,
      recordingWriter.writeFrame noJPEG testImage 12 345 = some w1 ∧
      recordingWriter.compressed = false ∧
      w1.seqFile.data.length = recordingWriter.seqFile.data.length + (3072 + 20) ∧
      w1.seqFile.data.length ≠ recordingWriter.seqFile.data.length + (64 * 48 * 8 / 8 + 8) ∧
      bytesAt w1.seqFile.data recordingWriter.seqFile.data.length 4 = int32Bytes 3072 := by
  have hr : Recording recordingWriter :=
    startRecording_recording usedWriter "rec/" 64 48 false "20240101_00-00-00" false
  have hc : recordingWriter.compressed = false := rfl
  have hwf := writeFrame_raw noJPEG recordingWriter testImage 12 345 hc hr
  have hsize : Int.tdiv (mul32 (mul32 testImage.width testImage.height)
      (bitsPerPixel recordingWriter.streamChannel)) 8 = 3072 := by decide
  have hlen := rawFrameBytes_length recordingWriter.streamChannel testImage 12 345
  rw [hsize] at hlen
  have hpre := bytesAt_append_left recordingWriter.seqFile.data (int32Bytes 3072)
    (rawData testImage.bits 3072 ++
      (int32Bytes 12 ++ (int16Bytes 345 ++ ([0, 0] ++ List.replicate 8 0))))
  rw [int32Bytes_length] at hpre
  have h2 : (3072 : Int).toNat = 3072 := rfl
  rw [h2] at hlen
  refine ⟨_, hwf, hc, ?_, ?_, ?_⟩
  · simp only [List.length_append, hlen]
  · simp only [List.length_append, hlen]
    generalize recordingWriter.seqFile.data.length = n
    omega
  · simp only [rawFrameBytes, hsize]
    exact hpre

/-- C10, amended: as the program is built (`COMPATIBILITY_MODE` defined), in an
uncompressed session, after any frames of `iw` x `ih` images (with
`iw * ih * bits-per-pixel` fitting an `int`), every `writeFrame` of an
`iw` x `ih` image completes and appends exactly size + 20 bytes, where size =
`iw * ih * bits-per-pixel / 8`: the 4-byte size, the size pixel bytes, the
4-byte seconds, the 2-byte milliseconds, the 2-byte reserved zero and 8 zero
bytes; after N frames the file length is 1024 + N x (size + 20), also after
`stopRecording`. In a compressed session whose JPEG call succeeds with fewer
than 2^31 bytes the appended bytes start with the 4-byte length too. -/
theorem C10_raw_frame_layout (compressJPEG : QImage → Int → Int → Option (List Nat))
    (w : SEQWriter) (workingDir : String) (width height : Int) (dateTime : String)
    (isPGswitched : Bool) (frames : List FrameArgs) (iw ih : Int)
    (hiw : 0 ≤ iw) (hih : 0 ≤ ih)
    (hp : iw * ih * bitsPerPixel w.streamChannel < 2147483648)
    (hdim : ∀ a ∈ frames, a.image.width = iw ∧ a.image.height = ih) :
    ∃ wN : SEQWriter,
      writeFrames compressJPEG
          (w.startRecording workingDir width height false dateTime isPGswitched) frames =
        some wN ∧
      wN.seqFile.data.length =
        1024 + frames.length * ((iw * ih * bitsPerPixel w.streamChannel / 8).toNat + 20) ∧
      (wN.stopRecording).seqFile.data.length =
        1024 + frames.length * ((iw * ih * bitsPerPixel w.streamChannel / 8).toNat + 20) ∧
      (∀ (image : QImage) (secs ms : Int), image.width = iw → image.height = ih →
        ∃ w1 : SEQWriter,
          wN.writeFrame compressJPEG image secs ms = some w1 ∧
          w1.seqFile.data =
            wN.seqFile.data ++
              (int32Bytes (iw * ih * bitsPerPixel w.streamChannel / 8) ++
              (rawData image.bits (iw * ih * bitsPerPixel w.streamChannel / 8) ++
              (int32Bytes secs ++ (int16Bytes ms ++ ([0, 0] ++ List.replicate 8 0))))) ∧
          w1.seqFile.data.length =
            wN.seqFile.data.length +
              ((iw * ih * bitsPerPixel w.streamChannel / 8).toNat + 20)) ∧
      (∀ (wc : SEQWriter) (image : QImage) (secs ms : Int) (jpeg : List Nat),
        wc.compressed = true → Recording wc →
        compressJPEG image wc.width wc.height = some jpeg → jpeg.length < 2147483648 →
        ∃ w1 : SEQWriter,
          wc.writeFrame compressJPEG image secs ms = some w1 ∧
          bytesAt w1.seqFile.data wc.seqFile.data.length 4 = int32Bytes jpeg.length) := by
  obtain ⟨hd, -, -⟩ :=
    startRecording_seqFile w workingDir width height false dateTime isPGswitched
  obtain ⟨-, -, -, hc, hch⟩ :=
    startRecording_fields w workingDir width height false dateTime isPGswitched
  have hr := startRecording_recording w workingDir width height false dateTime isPGswitched
  generalize w.startRecording workingDir width height false dateTime isPGswitched = w0 at *
  obtain ⟨wN, hrun, hdata, hopen, hpos, htf, -, -, hchn, hcmp⟩ :=
    writeFrames_raw_fields compressJPEG frames w0 hc hr
  have hsize := imageSize_eq iw ih (bitsPerPixel w.streamChannel) hiw hih (bitsPerPixel_pos _) hp
  have hstream := frameStream_length w.streamChannel iw ih frames hdim
  rw [hsize] at hstream
  have hlenN : wN.seqFile.data.length =
      1024 + frames.length * ((iw * ih * bitsPerPixel w.streamChannel / 8).toNat + 20) := by
    rw [hdata, List.length_append, hd, List.length_replicate, hch, hstream]
  have hrN : Recording wN := by
    refine ⟨hopen, hpos, ?_⟩
    rw [htf]
    exact wrapInt32_idem _
  refine ⟨wN, hrun, hlenN, ?_, ?_, ?_⟩
  · rw [(stopRecording_data wN hopen).1, List.length_append, headerBytes_length, List.length_drop,
      hlenN, Nat.add_sub_cancel_left]
  · intro image secs ms hwi hhi
    have hwf := writeFrame_raw compressJPEG wN image secs ms hcmp hrN
    have hl := rawFrameBytes_length wN.streamChannel image secs ms
    rw [hchn, hch, hwi, hhi, hsize] at hl
    refine ⟨_, hwf, ?_, ?_⟩
    · simp only [rawFrameBytes, hchn, hch, hwi, hhi, hsize]
    · simp only [List.length_append, hchn, hch, hl]
  · intro wc image secs ms jpeg hcc hrc hj hjl
    obtain ⟨w1, h1, h2⟩ := writeFrame_jpeg compressJPEG wc image secs ms jpeg hcc hrc hj
    have hjr : wrapInt32 (jpeg.length : Int) = jpeg.length :=
      wrapInt32_of_range _ (le_trans (by decide) (Int.ofNat_nonneg _)) (by exact_mod_cast hjl)
    refine ⟨w1, h1, ?_⟩
    rw [h2, hjr]
    have hpre := bytesAt_append_left wc.seqFile.data (int32Bytes jpeg.length)
      (rawData (fun i => jpeg.getD i 0) jpeg.length ++
        (int32Bytes secs ++ (int16Bytes ms ++ ([0, 0] ++ List.replicate 8 0))))
    rw [int32Bytes_length] at hpre
    exact hpre

/-- Witness for C10: two frames of the 64 x 48 `testImage` in an uncompressed
session on the 8-bit Top channel give a file of 1024 + 2 x (3072 + 20) bytes, a
third frame appends 3072 + 20 bytes, and in a compressed session a frame whose
JPEG encoding has 3 bytes starts with the 4-byte length 3. -/
theorem C10_raw_frame_layout_witness :
    (∃ wN : SEQWriter,
      writeFrames noJPEG recordingWriter [testFrame, testFrame] = some wN ∧
      wN.seqFile.data.length = 1024 + 2 * (3072 + 20) ∧
      ∃ w1 : SEQWriter,
        wN.writeFrame noJPEG testImage 12 345 = some w1 ∧
        w1.seqFile.data.length = wN.seqFile.data.length + (3072 + 20)) ∧
    (∃ w1 : SEQWriter,
      (usedWriter.startRecording "rec/" 64 48 true "20240101_00-00-00" false).writeFrame
          stubJPEG testImage 12 345 = some w1 ∧
      bytesAt w1.seqFile.data
          (usedWriter.startRecording "rec/" 64 48 true "20240101_00-00-00" false
            ).seqFile.data.length 4 = int32Bytes 3) := by
  constructor
  · obtain ⟨wN, h1, h2, -, h4, -⟩ := C10_raw_frame_layout noJPEG usedWriter "rec/" 64 48
      "20240101_00-00-00" false [testFrame, testFrame] 64 48 (by decide) (by decide)
      (by decide) (by decide)
    obtain ⟨w1, hw1, -, hlen⟩ := h4 testImage 12 345 rfl rfl
    exact ⟨wN, h1, h2, w1, hw1, hlen⟩
  · obtain ⟨wN, -, -, -, -, h5⟩ := C10_raw_frame_layout stubJPEG usedWriter "rec/" 64 48
      "20240101_00-00-00" false [] 64 48 (by decide) (by decide) (by decide) (by decide)
    exact h5 (usedWriter.startRecording "rec/" 64 48 true "20240101_00-00-00" false) testImage
      12 345 [255, 216, 217] rfl
      (startRecording_recording usedWriter "rec/" 64 48 true "20240101_00-00-00" false) rfl
      (by decide)

/-! ## Lemmas on the depth scaling and the regions of interest -/

theorem slope_eq : slope = -1 := by decide

theorem y_intercept_eq : y_intercept = 480 := by decide

/-- The scaled value of the sample `v` assembled from its two bytes. -/
theorem scaled_value_eq (v : Nat) (hv : v ≤ 65535) :
    scaled_value (v % 256) (v / 256) =
      if (480 : Int) - v > 255 then (255 : Int)
      else if (480 : Int) - v < 0 then (0 : Int) else (480 : Int) - v := by
  have hval : (v / 256 % 256) * 256 + v % 256 % 256 = v := by omega
  simp only [scaled_value, hval, slope_eq, y_intercept_eq]
  have e : (v : Int) * -1 + 480 = 480 - v := by ring
  rw [e]

theorem setROI_originalROIs (st : StreamerState) (camera : Cameras) (x y w h : Int) :
    (st.setROI camera x y w h).originalROIs = st.originalROIs := rfl

theorem setROIs_originalROIs (calls : List ROICall) :
    ∀ st : StreamerState, (setROIs st calls).originalROIs = st.originalROIs := by
  induction calls with
  | nil => intro st; rfl
  | cons c rest ih =>
    intro st
    simp only [setROIs, List.foldl_cons] at ih ⊢
    rw [ih, setROI_originalROIs]

theorem setROI_roiInvariant (st : StreamerState) (c : ROICall)
    (hc : roiInSensor c.camera c.x c.y c.w c.h) (hst : ∀ camera, roiInvariant st camera)
    (camera : Cameras) : roiInvariant (st.setROI c.camera c.x c.y c.w c.h) camera := by
  by_cases hcam : camera = c.camera
  · subst hcam
    simpa [roiInvariant, StreamerState.setROI] using hc
  · have h := hst camera
    simpa [roiInvariant, StreamerState.setROI, Function.update_noteq hcam] using h

theorem setROIs_roiInvariant (calls : List ROICall) :
    ∀ st : StreamerState, (∀ c ∈ calls, roiInSensor c.camera c.x c.y c.w c.h) →
      (∀ camera, roiInvariant st camera) → ∀ camera, roiInvariant (setROIs st calls) camera := by
  induction calls with
  | nil => intro st _ hst; exact hst
  | cons c rest ih =>
    intro st hall hst
    simp only [setROIs, List.foldl_cons] at ih ⊢
    exact ih _ (fun d hd => hall d (List.mem_cons_of_mem _ hd))
      (setROI_roiInvariant st c (hall c (List.mem_cons_self _ _)) hst)

set_option maxRecDepth 100000 in
theorem placeholder_read (rest : List Nat) :
    bytesAt (List.replicate 1024 0 ++ rest) 0 1024 = List.replicate 1024 0 ∧
    bytesAt (List.replicate 1024 0 ++ rest) 572 4 = [0, 0, 0, 0] := by
  refine ⟨rfl, rfl⟩

/-- A `writeFrame` call that returns, on a writer that is recording, appends
to the file and leaves the writer recording in the same mode. -/
theorem writeFrame_appends (compressJPEG : QImage → Int → Int → Option (List Nat))
    (w w1 : SEQWriter) (image : QImage) (secs ms : Int) (hr : Recording w)
    (h : w.writeFrame compressJPEG image secs ms = some w1) :
    (∃ bytes, w1.seqFile.data = w.seqFile.data ++ bytes) ∧ Recording w1 ∧
      w1.compressed = w.compressed ∧ w1.streamChannel = w.streamChannel := by
  cases hc : w.compressed with
  | false =>
    rw [writeFrame_raw compressJPEG w image secs ms hc hr] at h
    injection h with h
    subst h
    refine ⟨⟨_, rfl⟩, ⟨hr.1, ?_, wrapInt32_idem _⟩, hc, rfl⟩
    simp only [List.length_append]
  | true =>
    cases hj : compressJPEG image w.width w.height with
    | none => simp [SEQWriter.writeFrame, hc, hj] at h
    | some jpeg =>
      obtain ⟨ho, hp, -⟩ := hr
      have hmc : int16Bytes 0 = [0, 0] := by decide
      simp only [SEQWriter.writeFrame, hc, hj, COMPATIBILITY_MODE, if_true, writeNulls_eq,
        QFile.writeRawData_append, hmc] at h
      rw [QFile.writeRawData_at_end _ _ ho hp] at h
      injection h with h
      subst h
      exact ⟨⟨_, rfl⟩, ⟨ho, by simp only [List.length_append], wrapInt32_idem _⟩, rfl, rfl⟩

/-- Along any sequence of `writeFrame` calls the file keeps the bytes it had. -/
theorem stateAfterCalls_appends (compressJPEG : QImage → Int → Int → Option (List Nat))
    (frames : List FrameArgs) :
    ∀ w : SEQWriter, Recording w →
      (∃ bytes, (stateAfterCalls compressJPEG w frames).seqFile.data = w.seqFile.data ++ bytes) ∧
      Recording (stateAfterCalls compressJPEG w frames) := by
  induction frames with
  | nil => intro w hr; exact ⟨⟨[], by simp [stateAfterCalls]⟩, hr⟩
  | cons a rest ih =>
    intro w hr
    cases hw : w.writeFrame compressJPEG a.image a.secs a.ms with
    | none =>
      simp only [stateAfterCalls, hw]
      exact ⟨⟨[], by simp⟩, hr⟩
    | some w1 =>
      simp only [stateAfterCalls, hw]
      obtain ⟨⟨b1, hb1⟩, hr1, -, -⟩ := writeFrame_appends compressJPEG w w1 a.image a.secs a.ms hr hw
      obtain ⟨⟨b2, hb2⟩, hr2⟩ := ih w1 hr1
      exact ⟨⟨b1 ++ b2, by rw [hb2, hb1, List.append_assoc]⟩, hr2⟩

theorem stateAfterCalls_raw (compressJPEG : QImage → Int → Int → Option (List Nat))
    (frames : List FrameArgs) :
    ∀ (w wN : SEQWriter), writeFrames compressJPEG w frames = some wN →
      stateAfterCalls compressJPEG w frames = wN := by
  induction frames with
  | nil =>
    intro w wN h
    simp only [writeFrames, Option.some.injEq] at h
    simpa [stateAfterCalls] using h
  | cons a rest ih =>
    intro w wN h
    cases hw : w.writeFrame compressJPEG a.image a.secs a.ms with
    | none => simp [writeFrames, hw] at h
    | some w1 =>
      simp only [writeFrames, hw] at h
      simp only [stateAfterCalls, hw]
      exact ih w1 wN h

theorem imageFormat_read (cmp : Bool) (ch : Channels) (tf : Int) (width height bpp_num : Int)
    (rest : List Nat) :
    readInt32At (headerBytes cmp ch tf width height bpp_num ++ rest) 568 =
      imageFormat cmp ch := by
  have h := (headerBytes_layout cmp ch tf width height bpp_num rest).2.2.2.2.2.2.2.2.2.2.2.1
  simp only [readInt32At, h, wrapInt32_readLE_int32Bytes]
  cases cmp <;> cases ch <;> decide

/-! ## Lemmas on stopping a recording -/

/-- One iteration of the loop of `stopRecording` changes no streaming flag and
leaves `running` and `recording` as they were. -/
theorem stopRecordingStep_keeps (st : StreamerState) (c : Channels) :
    (∀ ch, ((stopRecordingStep st c).streamAttributes ch).streaming =
      (st.streamAttributes ch).streaming) ∧
    (stopRecordingStep st c).running = st.running ∧
    (stopRecordingStep st c).recording = st.recording := by
  unfold stopRecordingStep
  refine ⟨?_, ?_, ?_⟩
  · intro ch
    by_cases hch : ch = c
    · subst hch
      simp only [writerStop]
      split_ifs <;> simp
    · simp only [writerStop]
      split_ifs <;> simp [Function.update_noteq hch]
  · simp only [writerStop]
    split_ifs <;> rfl
  · simp only [writerStop]
    split_ifs <;> rfl

theorem foldl_stopRecordingStep_keeps (cs : List Channels) :
    ∀ st : StreamerState,
      (∀ ch, ((cs.foldl stopRecordingStep st).streamAttributes ch).streaming =
        (st.streamAttributes ch).streaming) ∧
      (cs.foldl stopRecordingStep st).running = st.running ∧
      (cs.foldl stopRecordingStep st).recording = st.recording := by
  induction cs with
  | nil => intro st; exact ⟨fun _ => rfl, rfl, rfl⟩
  | cons c rest ih =>
    intro st
    obtain ⟨h1, h2, h3⟩ := ih (stopRecordingStep st c)
    obtain ⟨k1, k2, k3⟩ := stopRecordingStep_keeps st c
    simp only [List.foldl_cons]
    exact ⟨fun ch => (h1 ch).trans (k1 ch), h2.trans k2, h3.trans k3⟩

theorem stopRecording_keeps (st : StreamerState) :
    (∀ ch, ((st.stopRecording).streamAttributes ch).streaming =
      (st.streamAttributes ch).streaming) ∧
    (st.stopRecording).running = st.running ∧
    (st.stopRecording).recording = false := by
  obtain ⟨h1, h2, h3⟩ := foldl_stopRecordingStep_keeps
    [Channels.IR, Channels.Depth, Channels.Color, Channels.PointGreyFront,
      Channels.PointGreyTop] { st with recording := false }
  exact ⟨h1, h2, h3⟩

/-! ## Lemmas on one iteration of the processor -/

theorem writeFrame_returns (compressJPEG : QImage → Int → Int → Option (List Nat))
    (htotal : ∀ image w h, ∃ jpeg, compressJPEG image w h = some jpeg)
    (w : SEQWriter) (image : QImage) (secs ms : Int) :
    ∃ w1, w.writeFrame compressJPEG image secs ms = some w1 := by
  cases hc : w.compressed with
  | false => simp [SEQWriter.writeFrame, hc]
  | true =>
    obtain ⟨jpeg, hj⟩ := htotal image w.width w.height
    simp [SEQWriter.writeFrame, hc, hj]

theorem writerWriteFrame_returns (compressJPEG : QImage → Int → Int → Option (List Nat))
    (htotal : ∀ image w h, ∃ jpeg, compressJPEG image w h = some jpeg)
    (st : StreamerState) (channel : Channels) (image : QImage) (secs ms : Int) :
    ∃ st1, writerWriteFrame compressJPEG st channel image secs ms = some st1 ∧
      st1.streamAttributes = st.streamAttributes ∧ st1.workingDir = st.workingDir := by
  obtain ⟨w1, hw1⟩ := writeFrame_returns compressJPEG htotal (st.seqWriters channel) image secs ms
  exact ⟨{ st with seqWriters := Function.update st.seqWriters channel w1 },
    by simp only [writerWriteFrame, hw1], rfl, rfl⟩

/-- With a JPEG library that does not throw, the recording section returns; it
changes no stream attribute. -/
theorem recordingSection_returns (compressJPEG : QImage → Int → Int → Option (List Nat))
    (copy : QImage → Int → Int → Int → Int → QImage)
    (htotal : ∀ image w h, ∃ jpeg, compressJPEG image w h = some jpeg)
    (st : StreamerState) (channel : Channels) (frame : FrameData) :
    ∃ st1, recordingSection compressJPEG copy st channel frame = some st1 ∧
      st1.streamAttributes = st.streamAttributes ∧ st1.workingDir = st.workingDir := by
  unfold recordingSection
  simp only [COMPATIBILITY_MODE, if_true]
  by_cases hra : recordingActive st channel = true
  · simp only [hra, if_true]
    by_cases hd : channel = Channels.Depth
    · simp only [hd, if_true]
      cases hconf : frame.confidenceImage with
      | none =>
        simp only []
        exact writerWriteFrame_returns compressJPEG htotal st _ _ _ _
      | some confidenceImage =>
        simp only []
        obtain ⟨sa, hsa, ha1, ha2⟩ := writerWriteFrame_returns compressJPEG htotal st
          Channels.IR
          (cropToROI copy st (camOf Channels.Depth)
            (depthScaled (depthScaled frame.rawImage frame.rawImage) confidenceImage))
          frame.timestampSeconds frame.timestampMilliSeconds
        rw [hsa]
        simp only []
        obtain ⟨sb, hsb, hb1, hb2⟩ := writerWriteFrame_returns compressJPEG htotal sa
          Channels.Depth
          (cropToROI copy sa (camOf Channels.Depth) (depthScaled frame.rawImage frame.rawImage))
          frame.timestampSeconds frame.timestampMilliSeconds
        exact ⟨sb, hsb, hb1.trans ha1, hb2.trans ha2⟩
    · simp only [hd, if_false]
      exact writerWriteFrame_returns compressJPEG htotal st _ _ _ _
  · simp only [hra]
    exact ⟨st, by simp, rfl, rfl⟩

theorem displaySection_keeps (copy : QImage → Int → Int → Int → Int → QImage)
    (st : StreamerState) (channel : Channels) (frame : FrameData) (now : Int) :
    (displaySection copy st channel frame now).1.streamAttributes = st.streamAttributes ∧
    (displaySection copy st channel frame now).1.workingDir = st.workingDir := by
  unfold displaySection
  simp only []
  split_ifs <;> exact ⟨rfl, rfl⟩

/-- After the snapshot section the loop body goes through the other two
sections, which write no snapshot and change no stream attribute. -/
theorem imageProcessorBody_after_snapshot
    (compressJPEG : QImage → Int → Int → Option (List Nat))
    (copy : QImage → Int → Int → Int → Int → QImage)
    (htotal : ∀ image w h, ∃ jpeg, compressJPEG image w h = some jpeg)
    (st s1 : StreamerState) (channel : Channels) (frame : FrameData) (timeStamp : String)
    (now : Int) (files : List SnapshotFile)
    (hsnap : snapshotSection compressJPEG st channel frame timeStamp = some (s1, files)) :
    ∃ s2 out, imageProcessorBody compressJPEG copy st channel frame timeStamp now =
        some (s2, out) ∧
      out.snapshots = files ∧ s2.streamAttributes = s1.streamAttributes ∧
      s2.workingDir = s1.workingDir := by
  obtain ⟨sr, hsr, hr1, hr2⟩ := recordingSection_returns compressJPEG copy htotal s1 channel frame
  obtain ⟨hd1, hd2⟩ := displaySection_keeps copy sr channel frame now
  refine ⟨(displaySection copy sr channel frame now).1,
    { snapshots := files, displayed := (displaySection copy sr channel frame now).2 },
    by simp only [imageProcessorBody, hsnap, hsr], rfl, ?_, ?_⟩
  · exact hd1.trans hr1
  · exact hd2.trans hr2

/-- The snapshot section when the flag of the channel is set and the JPEG
library does not throw: the snapshot of the frame is written, followed for
Depth by the one of its confidence data, and the flag is cleared. -/
theorem snapshotSection_requested (compressJPEG : QImage → Int → Int → Option (List Nat))
    (htotal : ∀ image w h, ∃ jpeg, compressJPEG image w h = some jpeg)
    (st : StreamerState) (channel : Channels) (frame : FrameData) (timeStamp : String)
    (hflag : (st.streamAttributes channel).shouldSnap = true) :
    ∃ s1 jpeg irFiles,
      snapshotSection compressJPEG st channel frame timeStamp =
        some (s1, snapshotFile st.workingDir timeStamp channel jpeg :: irFiles) ∧
      compressJPEG frame.rawImage frame.rawImage.width frame.rawImage.height = some jpeg ∧
      (s1.streamAttributes channel).shouldSnap = false ∧
      s1.workingDir = st.workingDir ∧
      irFiles.length ≤ 1 ∧
      (∀ f ∈ irFiles, f.fileName = snapshotName st.workingDir timeStamp Channels.IR) ∧
      (channel ≠ Channels.Depth ∨ frame.confidenceImage = none → irFiles = []) ∧
      (channel = Channels.Depth → frame.confidenceImage ≠ none → irFiles.length = 1) := by
  obtain ⟨jpeg, hj⟩ := htotal frame.rawImage frame.rawImage.width frame.rawImage.height
  unfold snapshotSection
  simp only [hflag, if_true, hj]
  by_cases hd : channel = Channels.Depth
  · simp only [hd, if_true]
    cases hconf : frame.confidenceImage with
    | none =>
      refine ⟨_, jpeg, [], rfl, rfl, by simp, rfl, by simp, by simp, by simp, by simp⟩
    | some confidenceImage =>
      obtain ⟨jpegIR, hjIR⟩ := htotal confidenceImage frame.rawImage.width frame.rawImage.height
      simp only [hjIR]
      refine ⟨_, jpeg, [snapshotFile st.workingDir timeStamp Channels.IR jpegIR], rfl, rfl,
        by simp, rfl, by simp, ?_, by simp, by simp⟩
      intro f hf
      simp only [List.mem_singleton] at hf
      rw [hf]
      rfl
  · simp only [hd, if_false]
    exact ⟨_, jpeg, [], rfl, rfl, by simp, rfl, by simp, by simp, by simp, by simp⟩

theorem snapshotSection_idle (compressJPEG : QImage → Int → Int → Option (List Nat))
    (st : StreamerState) (channel : Channels) (frame : FrameData) (timeStamp : String)
    (hflag : (st.streamAttributes channel).shouldSnap = false) :
    snapshotSection compressJPEG st channel frame timeStamp = some (st, []) := by
  simp [snapshotSection, hflag]

/-! ## Lemmas on starting a recording -/

theorem statesThrough_append_singleton (fs : List (StreamerState → StreamerState))
    (g : StreamerState → StreamerState) :
    ∀ st : StreamerState,
      statesThrough st (fs ++ [g]) = statesThrough st fs ++ [g (runStatements st fs)] := by
  induction fs with
  | nil => intro st; rfl
  | cons f rest ih =>
    intro st
    show st :: statesThrough (f st) (rest ++ [g]) = _
    rw [ih (f st)]
    rfl

theorem runStatements_append_singleton (fs : List (StreamerState → StreamerState))
    (g : StreamerState → StreamerState) (st : StreamerState) :
    runStatements st (fs ++ [g]) = g (runStatements st fs) := by
  simp [runStatements, List.foldl_append]

/-- A property every statement keeps holds in every state the statements go
through. -/
theorem statesThrough_invariant (P : StreamerState → Prop)
    (fs : List (StreamerState → StreamerState))
    (hkeep : ∀ f ∈ fs, ∀ s, P s → P (f s)) :
    ∀ st : StreamerState, P st → ∀ s ∈ statesThrough st fs, P s := by
  induction fs with
  | nil =>
    intro st hst s hs
    simp only [statesThrough, List.mem_singleton] at hs
    rw [hs]; exact hst
  | cons f rest ih =>
    intro st hst s hs
    simp only [statesThrough, List.mem_cons] at hs
    rcases hs with rfl | hs
    · exact hst
    · exact ih (fun g hg => hkeep g (List.mem_cons_of_mem _ hg)) (f st)
        (hkeep f (List.mem_cons_self _ _) st hst) s hs

theorem runStatements_invariant (P : StreamerState → Prop)
    (fs : List (StreamerState → StreamerState))
    (hkeep : ∀ f ∈ fs, ∀ s, P s → P (f s)) :
    ∀ st : StreamerState, P st → P (runStatements st fs) := by
  induction fs with
  | nil => intro st hst; exact hst
  | cons f rest ih =>
    intro st hst
    simp only [runStatements, List.foldl_cons]
    exact ih (fun g hg => hkeep g (List.mem_cons_of_mem _ hg)) (f st)
      (hkeep f (List.mem_cons_self _ _) st hst)

/-- A property that one of the statements establishes and all of them keep
holds after the statements. -/
theorem runStatements_establishes (P : StreamerState → Prop)
    (fs : List (StreamerState → StreamerState))
    (hkeep : ∀ f ∈ fs, ∀ s, P s → P (f s))
    (f0 : StreamerState → StreamerState) (hmem : f0 ∈ fs) (hest : ∀ s, P (f0 s)) :
    ∀ st : StreamerState, P (runStatements st fs) := by
  induction fs with
  | nil => exact absurd hmem (List.not_mem_nil _)
  | cons f rest ih =>
    intro st
    simp only [runStatements, List.foldl_cons]
    rcases List.mem_cons.mp hmem with h | h
    · subst h
      exact runStatements_invariant P rest (fun g hg => hkeep g (List.mem_cons_of_mem _ hg))
        (f0 st) (hest st)
    · exact ih (fun g hg => hkeep g (List.mem_cons_of_mem _ hg)) h (f st)

/-- The statements of `startRecording` before the last one. -/
theorem mem_startRecordingBody (pgt pgf color depth : Bool) (dateTime : String)
    (f : StreamerState → StreamerState) :
    f ∈ startRecordingBody pgt pgf color depth dateTime ↔
      (pgt = true ∧
        (f = writerStart Channels.PointGreyTop Cameras.PointGreyTop Channels.PointGreyTop
              dateTime ∨
         f = setRecordingAttribute Channels.PointGreyTop ∨
         f = startProcessorUnlessStreaming Channels.PointGreyTop)) ∨
      (pgf = true ∧
        (f = writerStart Channels.PointGreyFront Cameras.PointGreyFront Channels.PointGreyFront
              dateTime ∨
         f = setRecordingAttribute Channels.PointGreyFront ∨
         f = startProcessorUnlessStreaming Channels.PointGreyFront)) ∨
      (color = true ∧
        (f = writerStart Channels.Color Cameras.Color Channels.Color dateTime ∨
         f = setRecordingAttribute Channels.Color ∨
         f = startProcessorUnlessStreaming Channels.Color)) ∨
      (depth = true ∧
        (f = writerStart Channels.Depth Cameras.Depth Channels.Depth dateTime ∨
         f = writerStart Channels.IR Cameras.Depth Channels.Depth dateTime ∨
         f = setRecordingAttribute Channels.Depth ∨
         f = startProcessorUnlessStreaming Channels.Depth)) := by
  cases pgt <;> cases pgf <;> cases color <;> cases depth <;>
    simp [startRecordingBody, or_assoc]

theorem startProcessorUnlessStreaming_keeps (channel : Channels) (s : StreamerState) :
    (startProcessorUnlessStreaming channel s).recording = s.recording ∧
    (startProcessorUnlessStreaming channel s).seqWriters = s.seqWriters ∧
    (startProcessorUnlessStreaming channel s).streamAttributes = s.streamAttributes := by
  unfold startProcessorUnlessStreaming
  split <;> exact ⟨rfl, rfl, rfl⟩

theorem writerStart_opens (channel : Channels) (cam : Cameras) (attr : Channels)
    (dateTime : String) (s : StreamerState) (c : Channels) :
    ((writerStart channel cam attr dateTime s).seqWriters channel).seqFile.isOpen = true ∧
    (((s.seqWriters c).seqFile.isOpen = true →
      ((writerStart channel cam attr dateTime s).seqWriters c).seqFile.isOpen = true)) := by
  constructor
  · simp only [writerStart, Function.update_same]
    exact (startRecording_seqFile _ _ _ _ _ _ _).2.2
  · intro h
    by_cases hc : c = channel
    · subst hc
      simp only [writerStart, Function.update_same]
      exact (startRecording_seqFile _ _ _ _ _ _ _).2.2
    · simp only [writerStart, Function.update_noteq hc]
      exact h

/-- No statement of `startRecording` before the last one changes `recording`. -/
theorem startRecordingBody_keeps_recording (pgt pgf color depth : Bool) (dateTime : String)
    (f : StreamerState → StreamerState)
    (hf : f ∈ startRecordingBody pgt pgf color depth dateTime) (s : StreamerState) :
    (f s).recording = s.recording := by
  rw [mem_startRecordingBody] at hf
  rcases hf with ⟨-, rfl | rfl | rfl⟩ | ⟨-, rfl | rfl | rfl⟩ | ⟨-, rfl | rfl | rfl⟩ |
    ⟨-, rfl | rfl | rfl | rfl⟩ <;>
    first
      | rfl
      | exact (startProcessorUnlessStreaming_keeps _ s).1

/-- No statement of `startRecording` before the last one closes a writer. -/
theorem startRecordingBody_keeps_open (pgt pgf color depth : Bool) (dateTime : String)
    (c : Channels) (f : StreamerState → StreamerState)
    (hf : f ∈ startRecordingBody pgt pgf color depth dateTime) (s : StreamerState)
    (h : (s.seqWriters c).seqFile.isOpen = true) : ((f s).seqWriters c).seqFile.isOpen = true := by
  rw [mem_startRecordingBody] at hf
  rcases hf with ⟨-, rfl | rfl | rfl⟩ | ⟨-, rfl | rfl | rfl⟩ | ⟨-, rfl | rfl | rfl⟩ |
    ⟨-, rfl | rfl | rfl | rfl⟩ <;>
    first
      | exact (writerStart_opens _ _ _ _ s c).2 h
      | exact h
      | (rw [(startProcessorUnlessStreaming_keeps _ s).2.1]; exact h)

/-- After the statements of `startRecording` before the last one the writer of
every requested channel, and the one of IR with Depth, is open. -/
theorem startRecordingBody_opens (pgt pgf color depth : Bool) (dateTime : String)
    (st : StreamerState) (c : Channels) (hc : requested pgt pgf color depth c = true) :
    ((runStatements st (startRecordingBody pgt pgf color depth dateTime)).seqWriters
      c).seqFile.isOpen = true := by
  have hmem : writerStart c (camOf c) (if c = Channels.IR then Channels.Depth else c) dateTime ∈
      startRecordingBody pgt pgf color depth dateTime := by
    rw [mem_startRecordingBody]
    cases c <;> simp only [requested] at hc <;> simp [hc, camOf]
  exact runStatements_establishes (fun s => (s.seqWriters c).seqFile.isOpen = true) _
    (fun f hf s h => startRecordingBody_keeps_open pgt pgf color depth dateTime c f hf s h)
    _ hmem (fun s => (writerStart_opens _ _ _ _ s c).1) st

/-- The statements of `startRecording` before the last one set the recording
attribute of requested channels only. -/
theorem startRecordingBody_keeps_attributes (pgt pgf color depth : Bool) (dateTime : String)
    (f : StreamerState → StreamerState)
    (hf : f ∈ startRecordingBody pgt pgf color depth dateTime) (s : StreamerState)
    (h : ∀ c, (s.streamAttributes c).recording = true → requested pgt pgf color depth c = true) :
    ∀ c, ((f s).streamAttributes c).recording = true →
      requested pgt pgf color depth c = true := by
  rw [mem_startRecordingBody] at hf
  intro c hc
  rcases hf with ⟨hp, rfl | rfl | rfl⟩ | ⟨hp, rfl | rfl | rfl⟩ | ⟨hp, rfl | rfl | rfl⟩ |
    ⟨hp, rfl | rfl | rfl | rfl⟩
  all_goals first
    | exact h c hc
    | (rw [(startProcessorUnlessStreaming_keeps _ s).2.2] at hc; exact h c hc)
    | (simp only [setRecordingAttribute] at hc
       cases c <;> first
         | exact hp
         | (simp only [Function.update, reduceCtorEq, dite_false, eq_rec_constant] at hc
            exact h _ hc))

theorem mem_writersUsed (s : StreamerState) (channel wch : Channels) (hasConfidence : Bool)
    (h : wch ∈ writersUsed s channel hasConfidence) :
    s.recording = true ∧ (s.streamAttributes channel).recording = true ∧
      (wch = channel ∨ (channel = Channels.Depth ∧ wch = Channels.IR)) := by
  unfold writersUsed at h
  by_cases hra : recordingActive s channel = true
  · have hra2 := hra
    simp only [recordingActive, Bool.and_eq_true] at hra2
    simp only [hra, if_true] at h
    refine ⟨hra2.2, hra2.1, ?_⟩
    by_cases hd : channel = Channels.Depth
    · simp only [hd, if_true] at h
      cases hasConfidence <;> simp at h
      · exact Or.inl (h.trans hd.symm)
      · rcases h with h | h
        · exact Or.inr ⟨hd, h⟩
        · exact Or.inl (h.trans hd.symm)
    · simp only [hd, if_false, List.mem_singleton] at h
      exact Or.inl h
  · simp [hra] at h

/-- The states `startRecording` goes through, entered with `recording` cleared:
`recording` is set in the last state only, where the writers of all requested
channels are open. -/
theorem startRecording_states (st : StreamerState) (pgt pgf color depth : Bool)
    (dateTime : String) (hentry : st.recording = false) (s : StreamerState)
    (hs : s ∈ statesThrough st (startRecordingStatements pgt pgf color depth dateTime))
    (hrec : s.recording = true) :
    s = setRecording (runStatements st (startRecordingBody pgt pgf color depth dateTime)) := by
  rw [startRecordingStatements, statesThrough_append_singleton, List.mem_append] at hs
  rcases hs with hs | hs
  · have hkeep := statesThrough_invariant (fun x => x.recording = false)
      (startRecordingBody pgt pgf color depth dateTime)
      (fun f hf x hx =>
        (startRecordingBody_keeps_recording pgt pgf color depth dateTime f hf x).trans hx)
      st hentry s hs
    rw [hkeep] at hrec
    exact Bool.noConfusion hrec
  · exact List.mem_singleton.mp hs

/-! ## Lemmas on the settings forms and the display of depth frames -/

theorem floatToInt_eq_floor (f : Rat) (hf : 0 ≤ f) : floatToInt f = ⌊f⌋ := by
  unfold floatToInt
  rw [Rat.floor_def]
  exact Int.tdiv_eq_ediv (Rat.num_nonneg.mpr hf) (Int.ofNat_nonneg _)

/-- A sum that does not exceed the bound `n` passes the check of a form. -/
theorem round_add_le (round : Rat → Rat) (hround : floatRounding round) (x w : Rat)
    (n : Int) (hn0 : -16777216 ≤ n) (hn : n ≤ 16777216) (h : x + w ≤ n) :
    ¬ round (x + w) > n := by
  have h1 := hround.1 _ _ h
  rw [hround.2 n hn0 hn] at h1
  exact not_lt.mpr h1

/-- The method `Hunter::applyDepth` as one test. -/
theorem applyDepth_eq (round : Rat → Rat) (v : DepthValues) (h : HunterState) :
    applyDepth round v h =
      if ¬ (v.fX < 0 ∨ v.fX ≥ DEPTH_X_MAX) ∧ ¬ (v.fY < 0 ∨ v.fY ≥ DEPTH_Y_MAX) ∧
          ¬ (v.fH ≤ 0 ∨ round (v.fY + v.fH) > DEPTH_Y_MAX) ∧
          ¬ (v.fW ≤ 0 ∨ round (v.fX + v.fW) > DEPTH_X_MAX) ∧
          ¬ v.iMaxDist < DEPTH_DIST_MIN then
        { h with
          streamer :=
            StreamerState.setROI { h.streamer with maxDepthMM := v.iMaxDist } Cameras.Depth
              (floatToInt v.fX) (floatToInt v.fY) (floatToInt v.fW) (floatToInt v.fH) }
      else h := by
  unfold applyDepth
  by_cases h1 : v.fX < 0 ∨ v.fX ≥ DEPTH_X_MAX <;>
  by_cases h2 : v.fY < 0 ∨ v.fY ≥ DEPTH_Y_MAX <;>
  by_cases h3 : v.fH ≤ 0 ∨ round (v.fY + v.fH) > DEPTH_Y_MAX <;>
  by_cases h4 : v.fW ≤ 0 ∨ round (v.fX + v.fW) > DEPTH_X_MAX <;>
  by_cases h5 : v.iMaxDist < DEPTH_DIST_MIN <;>
  simp only [h1, h2, h3, h4, h5, if_true, if_false, not_true_eq_false, not_false_eq_true,
    and_self, and_true, and_false, false_and, true_and, Bool.false_eq_true]

/-- A form whose rectangle lies inside the sensor, with the other values in
their ranges, is applied: the converted rectangle becomes the ROI. -/
theorem applyDepth_accepted (round : Rat → Rat) (hround : floatRounding round)
    (v : DepthValues) (h : HunterState) (hx : 0 ≤ v.fX) (hy : 0 ≤ v.fY) (hw : 0 < v.fW)
    (hh : 0 < v.fH) (hxw : v.fX + v.fW ≤ DEPTH_X_MAX) (hyh : v.fY + v.fH ≤ DEPTH_Y_MAX)
    (hdist : DEPTH_DIST_MIN ≤ v.iMaxDist) :
    applyDepth round v h =
      { h with
        streamer :=
          StreamerState.setROI { h.streamer with maxDepthMM := v.iMaxDist } Cameras.Depth
            (floatToInt v.fX) (floatToInt v.fY) (floatToInt v.fW) (floatToInt v.fH) } := by
  rw [applyDepth_eq, if_pos]
  refine ⟨?_, ?_, ?_, ?_, not_lt.mpr hdist⟩
  · rw [not_or]; exact ⟨not_lt.mpr hx, not_le.mpr (by linarith)⟩
  · rw [not_or]; exact ⟨not_lt.mpr hy, not_le.mpr (by linarith)⟩
  · rw [not_or]
    exact ⟨not_le.mpr hh, round_add_le round hround _ _ _ (by decide) (by decide) hyh⟩
  · rw [not_or]
    exact ⟨not_le.mpr hw, round_add_le round hround _ _ _ (by decide) (by decide) hxw⟩

/-- The byte the depth scaling stores at index `i`, from the two bytes of the
sample of this index. -/
theorem depthScaled_bits_bytes (geometry source : QImage) (i : Nat) :
    ((depthScaled geometry source).bits i : Int) =
      max 0 (min 255 (480 -
        (((source.bits (2 * i + 1) % 256) * 256 + source.bits (2 * i) % 256 : Nat) : Int))) := by
  show ((scaled_value (source.bits (2 * i)) (source.bits (2 * i + 1))).toNat : Int) = _
  simp only [scaled_value, slope_eq, y_intercept_eq]
  split_ifs <;> omega

/-- The byte the depth scaling stores for the sample `v` of index `i`. -/
theorem depthScaled_bits (geometry source : QImage) (i v : Nat) (hv : v ≤ 65535)
    (hlow : source.bits (2 * i) = v % 256) (hhigh : source.bits (2 * i + 1) = v / 256) :
    ((depthScaled geometry source).bits i : Int) =
      if (480 : Int) - v > 255 then (255 : Int)
      else if (480 : Int) - v < 0 then (0 : Int) else (480 : Int) - v := by
  have h := scaled_value_eq v hv
  show ((scaled_value (source.bits (2 * i)) (source.bits (2 * i + 1))).toNat : Int) = _
  rw [hlow, hhigh, h]
  split_ifs <;> omega

/-- The display section of the Depth processor when a publish is due: it emits
the scaled image, cropped to the ROI. -/
theorem displaySection_depth (copy : QImage → Int → Int → Int → Int → QImage)
    (st : StreamerState) (frame : FrameData) (now : Int)
    (hstream : (st.streamAttributes Channels.Depth).streaming = true)
    (hdue : wrapInt32 (Int.tmod (now - st.lastUIUpdate Channels.Depth) 1000000000) >
      UI_UPDATE_RATE) :
    (displaySection copy st Channels.Depth frame now).2 =
      [(Cameras.Depth,
        copy (depthScaled frame.rawImage frame.rawImage)
          (st.ROIs Cameras.Depth ROICoordinates.X) (st.ROIs Cameras.Depth ROICoordinates.Y)
          (st.ROIs Cameras.Depth ROICoordinates.W) (st.ROIs Cameras.Depth ROICoordinates.H))] := by
  unfold displaySection
  have hch : Channels.Depth ≠ Channels.IR ∧
      (st.streamAttributes Channels.Depth).streaming = true := ⟨by decide, hstream⟩
  simp only [if_pos hch, if_pos hdue, if_true]
  rfl

/-- The ROI the accepted Depth form `depthForm` leaves. -/
theorem depthForm_applied (round : Rat → Rat) (hround : floatRounding round) (h : HunterState) :
    (applyDepth round depthForm h).streamer.getROI Cameras.Depth ROICoordinates.X = 10 ∧
    (applyDepth round depthForm h).streamer.getROI Cameras.Depth ROICoordinates.Y = 20 ∧
    (applyDepth round depthForm h).streamer.getROI Cameras.Depth ROICoordinates.W = 300 ∧
    (applyDepth round depthForm h).streamer.getROI Cameras.Depth ROICoordinates.H = 200 := by
  rw [applyDepth_accepted round hround depthForm h (by norm_num [depthForm])
    (by norm_num [depthForm]) (by norm_num [depthForm]) (by norm_num [depthForm])
    (by norm_num [depthForm, DEPTH_X_MAX]) (by norm_num [depthForm, DEPTH_Y_MAX]) (by decide)]
  have e1 : floatToInt depthForm.fX = 10 := by
    rw [floatToInt_eq_floor _ (by norm_num [depthForm]), Int.floor_eq_iff]
    norm_num [depthForm]
  have e2 : floatToInt depthForm.fY = 20 := by
    rw [floatToInt_eq_floor _ (by norm_num [depthForm]), Int.floor_eq_iff]
    norm_num [depthForm]
  have e3 : floatToInt depthForm.fW = 300 := by
    rw [floatToInt_eq_floor _ (by norm_num [depthForm]), Int.floor_eq_iff]
    norm_num [depthForm]
  have e4 : floatToInt depthForm.fH = 200 := by
    rw [floatToInt_eq_floor _ (by norm_num [depthForm]), Int.floor_eq_iff]
    norm_num [depthForm]
  simp [StreamerState.getROI, StreamerState.setROI, e1, e2, e3, e4]

/-- The Depth form `wideDepthForm`, whose rectangle is wider and higher than
the sensor, is refused: the state stays as it is. -/
theorem wideDepthForm_refused (round : Rat → Rat) (hround : floatRounding round)
    (h : HunterState) : applyDepth round wideDepthForm h = h := by
  rw [applyDepth_eq, if_neg]
  intro hv
  have h1 := hv.2.2.2.1
  rw [not_or] at h1
  apply h1.2
  have h2 := hround.1 (321 : Rat) (wideDepthForm.fX + wideDepthForm.fW)
    (by norm_num [wideDepthForm])
  have h3 := hround.2 321 (by decide) (by decide)
  have h4 : round (321 : Rat) = 321 := by exact_mod_cast h3
  rw [h4] at h2
  have h5 : ((DEPTH_X_MAX : Int) : Rat) < 321 := by norm_num [DEPTH_X_MAX]
  exact lt_of_lt_of_le h5 h2

/-! ## Claims C11 to C20 -/

/-- C13: for every 16-bit raw depth sample `v`, assembled as high byte x 256 +
low byte, the display value of the Depth processor is
`clamp(v * slope + y_intercept, 0, 255)` for the line through (225, 255) and
(480, 0), that is `clamp(480 - v, 0, 255)`. When Depth streams and a publish is
due, the image the processor emits is the crop to the ROI of the scaled image
`depthScaled`, and whenever the bytes `2 * i` and `2 * i + 1` of the raw image
hold the low and the high byte of `v`, byte `i` of the scaled image is that
clamped value: 255 at `v = 225`, 0 at `v = 480`, 255 for every `v ≤ 225`, 0 for
every `v ≥ 480`, and always within 0 .. 255. The scaled image has the size of
the raw image, and each of its bytes `j` is the clamped value of the sample the
bytes `2 * j` and `2 * j + 1` of the raw image assemble. -/
theorem C13_depth_scaling (copy : QImage → Int → Int → Int → Int → QImage)
    (st : StreamerState) (frame : FrameData) (now : Int) (i v : Nat)
    (hstream : (st.streamAttributes Channels.Depth).streaming = true)
    (hdue : wrapInt32 (Int.tmod (now - st.lastUIUpdate Channels.Depth) 1000000000) >
      UI_UPDATE_RATE)
    (hv : v ≤ 65535)
    (hlow : frame.rawImage.bits (2 * i) = v % 256)
    (hhigh : frame.rawImage.bits (2 * i + 1) = v / 256) :
    (displaySection copy st Channels.Depth frame now).2 =
      [(Cameras.Depth,
        copy (depthScaled frame.rawImage frame.rawImage)
          (st.ROIs Cameras.Depth ROICoordinates.X) (st.ROIs Cameras.Depth ROICoordinates.Y)
          (st.ROIs Cameras.Depth ROICoordinates.W) (st.ROIs Cameras.Depth ROICoordinates.H))] ∧
    (depthScaled frame.rawImage frame.rawImage).width = frame.rawImage.width ∧
    (depthScaled frame.rawImage frame.rawImage).height = frame.rawImage.height ∧
    (∀ j : Nat, (((depthScaled frame.rawImage frame.rawImage).bits j : Nat) : Int) =
      max 0 (min 255 (480 - (((frame.rawImage.bits (2 * j + 1) % 256) * 256 +
        frame.rawImage.bits (2 * j) % 256 : Nat) : Int)))) ∧
    (((depthScaled frame.rawImage frame.rawImage).bits i : Nat) : Int) =
      max 0 (min 255 ((v : Int) * slope + y_intercept)) ∧
    (((depthScaled frame.rawImage frame.rawImage).bits i : Nat) : Int) =
      max 0 (min 255 (480 - (v : Int))) ∧
    (225 : Int) * slope + y_intercept = 255 ∧
    (480 : Int) * slope + y_intercept = 0 ∧
    (v = 225 → (depthScaled frame.rawImage frame.rawImage).bits i = 255) ∧
    (v = 480 → (depthScaled frame.rawImage frame.rawImage).bits i = 0) ∧
    (v ≤ 225 → (depthScaled frame.rawImage frame.rawImage).bits i = 255) ∧
    (480 ≤ v → (depthScaled frame.rawImage frame.rawImage).bits i = 0) ∧
    (depthScaled frame.rawImage frame.rawImage).bits i ≤ 255 := by
  have h := depthScaled_bits frame.rawImage frame.rawImage i v hv hlow hhigh
  have e : (v : Int) * slope + y_intercept = 480 - v := by
    rw [slope_eq, y_intercept_eq]; ring
  refine ⟨displaySection_depth copy st frame now hstream hdue, rfl, rfl,
    depthScaled_bits_bytes frame.rawImage frame.rawImage, ?_, ?_, by decide,
    by decide, ?_, ?_, ?_, ?_, ?_⟩
  · rw [e, h]; split_ifs <;> omega
  · rw [h]; split_ifs <;> omega
  · intro hv225; split_ifs at h <;> omega
  · intro hv480; split_ifs at h <;> omega
  · intro hle; split_ifs at h <;> omega
  · intro hge; split_ifs at h <;> omega
  · split_ifs at h <;> omega

/-- Witness for C13: the samples 225 and 300 of `depthTestImage`, published
250 ms after the last publish. -/
theorem C13_depth_scaling_witness :
    (streamingState.streamAttributes Channels.Depth).streaming = true ∧
    wrapInt32 (Int.tmod (250 - streamingState.lastUIUpdate Channels.Depth) 1000000000) >
      UI_UPDATE_RATE ∧
    depthTestFrame.rawImage.bits (2 * 0) = 225 % 256 ∧
    depthTestFrame.rawImage.bits (2 * 0 + 1) = 225 / 256 ∧
    depthTestFrame.rawImage.bits (2 * 3) = 300 % 256 ∧
    depthTestFrame.rawImage.bits (2 * 3 + 1) = 300 / 256 ∧
    (depthScaled depthTestFrame.rawImage depthTestFrame.rawImage).bits 0 = 255 ∧
    (((depthScaled depthTestFrame.rawImage depthTestFrame.rawImage).bits 3 : Nat) : Int) =
      max 0 (min 255 (480 - ((300 : Nat) : Int))) :=
  ⟨rfl, by decide, rfl, rfl, rfl, rfl,
   (C13_depth_scaling stubCopy streamingState depthTestFrame 250 0 225 rfl (by decide)
      (by decide) rfl rfl).2.2.2.2.2.2.2.2.1 rfl,
   (C13_depth_scaling stubCopy streamingState depthTestFrame 250 3 300 rfl (by decide)
      (by decide) rfl rfl).2.2.2.2.2.1⟩

/-- C14: the raw depth 352, the midpoint of 225 and 480, is displayed as 128,
which is within 1 of 127: when Depth streams and a publish is due, the image
the processor emits is the crop to the ROI of the scaled image, and byte `i` of
the scaled image is 128 whenever the bytes `2 * i` and `2 * i + 1` of the raw
image hold the low and the high byte of 352. -/
theorem C14_depth_midpoint (copy : QImage → Int → Int → Int → Int → QImage)
    (st : StreamerState) (frame : FrameData) (now : Int) (i : Nat)
    (hstream : (st.streamAttributes Channels.Depth).streaming = true)
    (hdue : wrapInt32 (Int.tmod (now - st.lastUIUpdate Channels.Depth) 1000000000) >
      UI_UPDATE_RATE)
    (hlow : frame.rawImage.bits (2 * i) = 352 % 256)
    (hhigh : frame.rawImage.bits (2 * i + 1) = 352 / 256) :
    (displaySection copy st Channels.Depth frame now).2 =
      [(Cameras.Depth,
        copy (depthScaled frame.rawImage frame.rawImage)
          (st.ROIs Cameras.Depth ROICoordinates.X) (st.ROIs Cameras.Depth ROICoordinates.Y)
          (st.ROIs Cameras.Depth ROICoordinates.W) (st.ROIs Cameras.Depth ROICoordinates.H))] ∧
    (depthScaled frame.rawImage frame.rawImage).bits i = 128 ∧
    127 - 1 ≤ (depthScaled frame.rawImage frame.rawImage).bits i ∧
    (depthScaled frame.rawImage frame.rawImage).bits i ≤ 127 + 1 := by
  have h := depthScaled_bits frame.rawImage frame.rawImage i 352 (by decide) hlow hhigh
  have h128 : (depthScaled frame.rawImage frame.rawImage).bits i = 128 := by
    have h2 : (((depthScaled frame.rawImage frame.rawImage).bits i : Nat) : Int) = 128 := by
      rw [h]; decide
    exact_mod_cast h2
  refine ⟨displaySection_depth copy st frame now hstream hdue, h128, ?_, ?_⟩
  · omega
  · omega

/-- Witness for C14: the sample 352 of `depthTestImage`, at index 1, published
250 ms after the last publish. -/
theorem C14_depth_midpoint_witness :
    (streamingState.streamAttributes Channels.Depth).streaming = true ∧
    wrapInt32 (Int.tmod (250 - streamingState.lastUIUpdate Channels.Depth) 1000000000) >
      UI_UPDATE_RATE ∧
    depthTestFrame.rawImage.bits (2 * 1) = 352 % 256 ∧
    depthTestFrame.rawImage.bits (2 * 1 + 1) = 352 / 256 ∧
    (depthScaled depthTestFrame.rawImage depthTestFrame.rawImage).bits 1 = 128 :=
  ⟨rfl, by decide, rfl, rfl,
   (C14_depth_midpoint stubCopy streamingState depthTestFrame 250 1 rfl (by decide) rfl
      rfl).2.1⟩

/-- C16: the original ROIs are fixed at initialisation. After the constructor
and any sequence of `setROI` calls `getOriginalROI` returns the constructor's
values (Top and Front 0, 0, 1920, 1200; Depth 0, 0, 320, 240; Color 0, 0, 640,
480); `setROI(c, x, y, w, h)` in any state makes `getROI(c, ·)` return `x`,
`y`, `w`, `h`, and leaves the current ROI of every other camera and all
original ROIs as they were. -/
theorem C16_original_roi_fixed (u : StreamerState) (calls : List ROICall) (st : StreamerState)
    (c : Cameras) (x y w h : Int) :
    (∀ camera value,
      (setROIs (newStreamer u) calls).getOriginalROI camera value = initialROIs camera value) ∧
    (∀ value, initialROIs Cameras.PointGreyTop value =
      match value with
      | ROICoordinates.X => 0 | ROICoordinates.Y => 0
      | ROICoordinates.W => 1920 | ROICoordinates.H => 1200) ∧
    (∀ value, initialROIs Cameras.PointGreyFront value =
      match value with
      | ROICoordinates.X => 0 | ROICoordinates.Y => 0
      | ROICoordinates.W => 1920 | ROICoordinates.H => 1200) ∧
    (∀ value, initialROIs Cameras.Depth value =
      match value with
      | ROICoordinates.X => 0 | ROICoordinates.Y => 0
      | ROICoordinates.W => 320 | ROICoordinates.H => 240) ∧
    (∀ value, initialROIs Cameras.Color value =
      match value with
      | ROICoordinates.X => 0 | ROICoordinates.Y => 0
      | ROICoordinates.W => 640 | ROICoordinates.H => 480) ∧
    (st.setROI c x y w h).getROI c ROICoordinates.X = x ∧
    (st.setROI c x y w h).getROI c ROICoordinates.Y = y ∧
    (st.setROI c x y w h).getROI c ROICoordinates.W = w ∧
    (st.setROI c x y w h).getROI c ROICoordinates.H = h ∧
    (∀ camera value, camera ≠ c →
      (st.setROI c x y w h).getROI camera value = st.getROI camera value) ∧
    (∀ camera value,
      (st.setROI c x y w h).getOriginalROI camera value = st.getOriginalROI camera value) := by
  refine ⟨?_, ?_, ?_, ?_, ?_, ?_, ?_, ?_, ?_, ?_, ?_⟩
  · intro camera value
    simp only [StreamerState.getOriginalROI, setROIs_originalROIs]
    rfl
  · intro value; cases value <;> rfl
  · intro value; cases value <;> rfl
  · intro value; cases value <;> rfl
  · intro value; cases value <;> rfl
  · simp [StreamerState.getROI, StreamerState.setROI]
  · simp [StreamerState.getROI, StreamerState.setROI]
  · simp [StreamerState.getROI, StreamerState.setROI]
  · simp [StreamerState.getROI, StreamerState.setROI]
  · intro camera value hne
    simp [StreamerState.getROI, StreamerState.setROI, Function.update_noteq hne]
  · intro camera value
    rfl

/-- Witness for C16: after `setROI(Depth, 10, 20, 300, 200)` on a fresh
`Streamer` the ROI of Color is still the constructor's. -/
theorem C16_original_roi_fixed_witness :
    ((newStreamer indeterminate).setROI Cameras.Depth 10 20 300 200).getROI Cameras.Color
        ROICoordinates.W =
      (newStreamer indeterminate).getROI Cameras.Color ROICoordinates.W :=
  (C16_original_roi_fixed indeterminate [] (newStreamer indeterminate) Cameras.Depth
    10 20 300 200).2.2.2.2.2.2.2.2.2.1 Cameras.Color ROICoordinates.W (by decide)

/-- C11: the header stays a placeholder until the session is stopped. For
every writer state, mode and JPEG library, `startRecording` leaves a file of
exactly 1024 zero bytes, and at the end of any sequence of `writeFrame` calls
(or at the call that throws) with no `stopRecording` the first 1024 bytes of
the file are still zero and the frame-count field reads 0; every call that
returns only appends; in an uncompressed session no call throws and the bytes
of the N frames follow the placeholder. -/
theorem C11_header_placeholder (compressJPEG : QImage → Int → Int → Option (List Nat))
    (w : SEQWriter) (workingDir : String) (width height : Int) (compressed : Bool)
    (dateTime : String) (isPGswitched : Bool) (frames : List FrameArgs) :
    (w.startRecording workingDir width height compressed dateTime isPGswitched).seqFile.data =
      List.replicate 1024 0 ∧
    bytesAt
        (stateAfterCalls compressJPEG
          (w.startRecording workingDir width height compressed dateTime isPGswitched)
          frames).seqFile.data 0 1024 =
      List.replicate 1024 0 ∧
    readInt32At
        (stateAfterCalls compressJPEG
          (w.startRecording workingDir width height compressed dateTime isPGswitched)
          frames).seqFile.data 572 = 0 ∧
    (∀ (wk w1 : SEQWriter) (image : QImage) (secs ms : Int), Recording wk →
      wk.writeFrame compressJPEG image secs ms = some w1 →
      ∃ bytes, w1.seqFile.data = wk.seqFile.data ++ bytes) ∧
    (compressed = false →
      ∃ wN : SEQWriter,
        writeFrames compressJPEG
            (w.startRecording workingDir width height compressed dateTime isPGswitched)
            frames = some wN ∧
        stateAfterCalls compressJPEG
            (w.startRecording workingDir width height compressed dateTime isPGswitched)
            frames = wN ∧
        wN.seqFile.data = List.replicate 1024 0 ++ frameStream w.streamChannel frames) := by
  obtain ⟨hd, -, -⟩ :=
    startRecording_seqFile w workingDir width height compressed dateTime isPGswitched
  obtain ⟨-, -, -, hcmp, hch⟩ :=
    startRecording_fields w workingDir width height compressed dateTime isPGswitched
  have hr := startRecording_recording w workingDir width height compressed dateTime isPGswitched
  generalize w.startRecording workingDir width height compressed dateTime isPGswitched = w0 at *
  obtain ⟨⟨bytes, hb⟩, -⟩ := stateAfterCalls_appends compressJPEG frames w0 hr
  rw [hd] at hb
  obtain ⟨p1, p2⟩ := placeholder_read bytes
  refine ⟨hd, ?_, ?_, ?_, ?_⟩
  · rw [hb]; exact p1
  · rw [readInt32At, hb, p2]; decide
  · intro wk w1 image secs ms hrk hk
    exact (writeFrame_appends compressJPEG wk w1 image secs ms hrk hk).1
  · intro hfalse
    rw [hfalse] at hcmp
    obtain ⟨wN, hrun, hdata, -⟩ := writeFrames_raw_fields compressJPEG frames w0 hcmp hr
    exact ⟨wN, hrun, stateAfterCalls_raw compressJPEG frames w0 wN hrun, by rw [hdata, hd, hch]⟩

/-- Witness for C11: two frames written by `recordingWriter` and no
`stopRecording`; the frame-count field reads 0 and the bytes of the two
frames follow the 1024 zero bytes. -/
theorem C11_header_placeholder_witness :
    readInt32At
        (stateAfterCalls noJPEG recordingWriter [testFrame, testFrame]).seqFile.data 572 = 0 ∧
    (∃ wN : SEQWriter,
      writeFrames noJPEG recordingWriter [testFrame, testFrame] = some wN ∧
      stateAfterCalls noJPEG recordingWriter [testFrame, testFrame] = wN ∧
      wN.seqFile.data =
        List.replicate 1024 0 ++ frameStream usedWriter.streamChannel [testFrame, testFrame]) :=
  ⟨(C11_header_placeholder noJPEG usedWriter "rec/" 64 48 false "20240101_00-00-00" false
      [testFrame, testFrame]).2.2.1,
   (C11_header_placeholder noJPEG usedWriter "rec/" 64 48 false "20240101_00-00-00" false
      [testFrame, testFrame]).2.2.2.2 rfl⟩

/-- C12: the format tag `writeHeader` stores at offset 568 is 100 for raw
grayscale, 200 for raw color, 102 for compressed grayscale and 201 for
compressed color, the kind being color exactly when the writer's channel is
Color; the four tags are pairwise distinct, so the tag determines the
compression flag and whether the channel is Color. -/
theorem C12_format_tag (w : SEQWriter) (width height bpp_num : Int)
    (ho : w.seqFile.isOpen = true) :
    readInt32At (w.writeHeader width height bpp_num).seqFile.data 568 =
      (if w.compressed = true then
        (if w.streamChannel = Channels.Color then 201 else 102)
       else
        (if w.streamChannel = Channels.Color then 200 else 100)) ∧
    (∀ ch : Channels, ch ≠ Channels.Color →
      imageFormat false ch = 100 ∧ imageFormat true ch = 102) ∧
    imageFormat false Channels.Color = 200 ∧ imageFormat true Channels.Color = 201 ∧
    (∀ (c1 c2 : Bool) (ch1 ch2 : Channels), imageFormat c1 ch1 = imageFormat c2 ch2 →
      c1 = c2 ∧ (ch1 = Channels.Color ↔ ch2 = Channels.Color)) := by
  refine ⟨?_, ?_, rfl, rfl, ?_⟩
  · rw [writeHeader_seqFile w width height bpp_num ho]
    simp only []
    rw [imageFormat_read]
    cases w.compressed <;> cases w.streamChannel <;> decide
  · intro ch hch
    cases ch <;> first | exact absurd rfl hch | decide
  · intro c1 c2 ch1 ch2
    cases c1 <;> cases c2 <;> cases ch1 <;> cases ch2 <;> decide

/-- Witness for C12: the header written on `recordingWriter`, an uncompressed
session on the Top channel, has the tag 100. -/
theorem C12_format_tag_witness :
    readInt32At (recordingWriter.writeHeader 64 48 8).seqFile.data 568 = 100 :=
  (C12_format_tag recordingWriter 64 48 8
    (startRecording_seqFile usedWriter "rec/" 64 48 false "20240101_00-00-00" false).2.2).1

/-- C17: the ROI crop is the identity under a full-frame ROI. When the ROI of
the camera is `x = 0`, `y = 0`, `width = W`, `height = H` for a `W` x `H`
bitmap, the crop the processor takes before recording or display has the size
of the source and the same value at every pixel of it, and cropping the result
again with the same ROI gives the same bitmap. -/
theorem C17_full_frame_crop (st : StreamerState) (cam : Cameras) (image : Bitmap)
    (hx : st.ROIs cam ROICoordinates.X = 0) (hy : st.ROIs cam ROICoordinates.Y = 0)
    (hw : st.ROIs cam ROICoordinates.W = image.width)
    (hh : st.ROIs cam ROICoordinates.H = image.height) :
    (cropToROI Bitmap.copy st cam image).width = image.width ∧
    (cropToROI Bitmap.copy st cam image).height = image.height ∧
    (∀ i j : Int, 0 ≤ i → i < image.width → 0 ≤ j → j < image.height →
      (cropToROI Bitmap.copy st cam image).pixel i j = image.pixel i j) ∧
    cropToROI Bitmap.copy st cam (cropToROI Bitmap.copy st cam image) =
      cropToROI Bitmap.copy st cam image := by
  simp only [cropToROI, hx, hy, hw, hh, Bitmap.copy, Int.zero_add, true_and]
  refine ⟨?_, ?_⟩
  · intro i j h1 h2 h3 h4
    simp [h1, h2, h3, h4]
  · congr 1
    funext i j
    split_ifs <;> rfl

/-- Witness for C17: the 4 x 3 `testBitmap` under the ROI 0, 0, 4, 3. -/
theorem C17_full_frame_crop_witness :
    (cropToROI Bitmap.copy ((newStreamer indeterminate).setROI Cameras.Depth 0 0 4 3)
        Cameras.Depth testBitmap).width = testBitmap.width ∧
    cropToROI Bitmap.copy ((newStreamer indeterminate).setROI Cameras.Depth 0 0 4 3)
        Cameras.Depth
        (cropToROI Bitmap.copy ((newStreamer indeterminate).setROI Cameras.Depth 0 0 4 3)
          Cameras.Depth testBitmap) =
      cropToROI Bitmap.copy ((newStreamer indeterminate).setROI Cameras.Depth 0 0 4 3)
        Cameras.Depth testBitmap :=
  ⟨(C17_full_frame_crop ((newStreamer indeterminate).setROI Cameras.Depth 0 0 4 3)
      Cameras.Depth testBitmap (by simp [StreamerState.setROI])
      (by simp [StreamerState.setROI]) (by simp [StreamerState.setROI, testBitmap])
      (by simp [StreamerState.setROI, testBitmap])).1,
   (C17_full_frame_crop ((newStreamer indeterminate).setROI Cameras.Depth 0 0 4 3)
      Cameras.Depth testBitmap (by simp [StreamerState.setROI])
      (by simp [StreamerState.setROI]) (by simp [StreamerState.setROI, testBitmap])
      (by simp [StreamerState.setROI, testBitmap])).2.2.2⟩

/-- C19: stopping the recording while a channel streams leaves its processor
alive. In every state with `running` set and `streaming` set for `c`, after
`Streamer::stopRecording` no streaming flag has changed, `running` is still
set, the loop condition `running && (streaming || recording)` of the
processor of `c` holds, the condition on which its wait loop returns does not,
and the global recording flag is cleared. -/
theorem C19_processor_survives_stop (st : StreamerState) (c : Channels)
    (hrun : st.running = true) (hs : (st.streamAttributes c).streaming = true) :
    (∀ ch, ((st.stopRecording).streamAttributes ch).streaming =
      (st.streamAttributes ch).streaming) ∧
    (st.stopRecording).running = true ∧
    processorContinues st.stopRecording c = true ∧
    processorReturns st.stopRecording c = false ∧
    (st.stopRecording).recording = false := by
  obtain ⟨h1, h2, h3⟩ := stopRecording_keeps st
  refine ⟨h1, h2.trans hrun, ?_, ?_, h3⟩
  · simp [processorContinues, h2, hrun, h1 c, hs]
  · simp [processorReturns, h2, hrun, h1 c, hs]

/-- Witness for C19: in `streamingState`, where Depth streams and records, the
processor of Depth goes on after `stopRecording`. -/
theorem C19_processor_survives_stop_witness :
    processorContinues streamingState.stopRecording Channels.Depth = true ∧
    processorReturns streamingState.stopRecording Channels.Depth = false :=
  ⟨(C19_processor_survives_stop streamingState Channels.Depth rfl rfl).2.2.1,
   (C19_processor_survives_stop streamingState Channels.Depth rfl rfl).2.2.2.1⟩

/-- C18: a snapshot request is one-shot. For every camera, with a JPEG library
that does not throw, after `saveSnapshot(camera)` the processing of one frame
on the camera's channel writes the snapshot of that frame exactly once
(followed, for Depth, by one snapshot of the confidence data when the frame
has some) and clears the flag; the processing of a second frame with no new
`saveSnapshot` writes no snapshot and leaves the flag cleared. -/
theorem C18_snapshot_one_shot (compressJPEG : QImage → Int → Int → Option (List Nat))
    (copy : QImage → Int → Int → Int → Int → QImage)
    (htotal : ∀ image w h, ∃ jpeg, compressJPEG image w h = some jpeg)
    (st : StreamerState) (camera : Cameras) (frame1 frame2 : FrameData)
    (timeStamp1 timeStamp2 : String) (now1 now2 : Int) :
    ∃ (st1 : StreamerState) (out1 : ProcessorOutput) (jpeg : List Nat)
        (irFiles : List SnapshotFile),
      imageProcessorBody compressJPEG copy (st.saveSnapshot camera) camera.toChannel frame1
          timeStamp1 now1 = some (st1, out1) ∧
      compressJPEG frame1.rawImage frame1.rawImage.width frame1.rawImage.height = some jpeg ∧
      out1.snapshots =
        snapshotFile st.workingDir timeStamp1 camera.toChannel jpeg :: irFiles ∧
      irFiles.length ≤ 1 ∧
      (∀ f ∈ irFiles, f.fileName = snapshotName st.workingDir timeStamp1 Channels.IR) ∧
      (camera.toChannel ≠ Channels.Depth ∨ frame1.confidenceImage = none → irFiles = []) ∧
      (camera.toChannel = Channels.Depth → frame1.confidenceImage ≠ none →
        irFiles.length = 1) ∧
      (st1.streamAttributes camera.toChannel).shouldSnap = false ∧
      ∃ (st2 : StreamerState) (out2 : ProcessorOutput),
        imageProcessorBody compressJPEG copy st1 camera.toChannel frame2 timeStamp2 now2 =
          some (st2, out2) ∧
        out2.snapshots = [] ∧
        (st2.streamAttributes camera.toChannel).shouldSnap = false := by
  have hflag : ((st.saveSnapshot camera).streamAttributes camera.toChannel).shouldSnap = true := by
    simp [StreamerState.saveSnapshot]
  obtain ⟨s1, jpeg, irFiles, hsnap, hj, hclear, hwd, hlen, hnames, hnone, hone⟩ :=
    snapshotSection_requested compressJPEG htotal (st.saveSnapshot camera) camera.toChannel
      frame1 timeStamp1 hflag
  obtain ⟨st1, out1, hbody1, hout1, hattr1, -⟩ :=
    imageProcessorBody_after_snapshot compressJPEG copy htotal (st.saveSnapshot camera) s1
      camera.toChannel frame1 timeStamp1 now1 _ hsnap
  have hclear1 : (st1.streamAttributes camera.toChannel).shouldSnap = false := by
    rw [hattr1]; exact hclear
  have hidle := snapshotSection_idle compressJPEG st1 camera.toChannel frame2 timeStamp2 hclear1
  obtain ⟨st2, out2, hbody2, hout2, hattr2, -⟩ :=
    imageProcessorBody_after_snapshot compressJPEG copy htotal st1 st1
      camera.toChannel frame2 timeStamp2 now2 _ hidle
  refine ⟨st1, out1, jpeg, irFiles, hbody1, hj, hout1, hlen, hnames, hnone, hone, hclear1,
    st2, out2, hbody2, hout2, ?_⟩
  rw [hattr2]; exact hclear1

/-- Witness for C18: a snapshot requested for Depth in `streamingState`, then
two depth frames with confidence data. -/
theorem C18_snapshot_one_shot_witness :
    ∃ (st1 : StreamerState) (out1 : ProcessorOutput),
      imageProcessorBody stubJPEG stubCopy (streamingState.saveSnapshot Cameras.Depth)
          Channels.Depth testFrameData "20240101_00-00-00" 1000 = some (st1, out1) ∧
      out1.snapshots.length = 2 ∧
      (st1.streamAttributes Channels.Depth).shouldSnap = false ∧
      ∃ (st2 : StreamerState) (out2 : ProcessorOutput),
        imageProcessorBody stubJPEG stubCopy st1 Channels.Depth testFrameData
            "20240101_00-00-01" 1033 = some (st2, out2) ∧
        out2.snapshots = [] := by
  obtain ⟨st1, out1, jpeg, irFiles, h1, -, h3, -, -, -, h7, h8, st2, out2, h9, h10, -⟩ :=
    C18_snapshot_one_shot stubJPEG stubCopy (fun _ _ _ => ⟨_, rfl⟩) streamingState
      Cameras.Depth testFrameData testFrameData "20240101_00-00-00" "20240101_00-00-01"
      1000 1033
  refine ⟨st1, out1, h1, ?_, h8, st2, out2, h9, h10⟩
  rw [h3, List.length_cons, h7 rfl (by simp [testFrameData])]

/-- C20: in `Streamer::startRecording`, entered with the global recording flag
cleared, the flag is set at the end, and in every state the statements go
through in program order the flag is set only if the writer of every
requested channel (and the one of IR when Depth is requested) is open; so in
each of these states every writer the processor of a requested channel would
call `writeFrame` on (the condition being `recording[c]` and the global flag)
is open, and when no recording attribute is set at entry this holds for the
processor of every channel. -/
theorem C20_recording_flag_set_last (st : StreamerState) (pgt pgf color depth : Bool)
    (dateTime : String) (hentry : st.recording = false) :
    (st.startRecording pgt pgf color depth dateTime).recording = true ∧
    (∀ s ∈ statesThrough st (startRecordingStatements pgt pgf color depth dateTime),
      s.recording = true →
      ∀ c, requested pgt pgf color depth c = true → (s.seqWriters c).seqFile.isOpen = true) ∧
    (∀ s ∈ statesThrough st (startRecordingStatements pgt pgf color depth dateTime),
      ∀ (channel : Channels) (hasConfidence : Bool),
        requested pgt pgf color depth channel = true →
        ∀ wch ∈ writersUsed s channel hasConfidence, (s.seqWriters wch).seqFile.isOpen = true) ∧
    ((∀ c, (st.streamAttributes c).recording = false) →
      ∀ s ∈ statesThrough st (startRecordingStatements pgt pgf color depth dateTime),
        ∀ (channel : Channels) (hasConfidence : Bool),
          ∀ wch ∈ writersUsed s channel hasConfidence,
            (s.seqWriters wch).seqFile.isOpen = true) := by
  have hopen : ∀ s ∈ statesThrough st (startRecordingStatements pgt pgf color depth dateTime),
      s.recording = true →
      ∀ c, requested pgt pgf color depth c = true → (s.seqWriters c).seqFile.isOpen = true := by
    intro s hs hrec c hc
    rw [startRecording_states st pgt pgf color depth dateTime hentry s hs hrec]
    exact startRecordingBody_opens pgt pgf color depth dateTime st c hc
  have hused : ∀ s ∈ statesThrough st (startRecordingStatements pgt pgf color depth dateTime),
      ∀ (channel : Channels) (hasConfidence : Bool),
        requested pgt pgf color depth channel = true →
        ∀ wch ∈ writersUsed s channel hasConfidence,
          (s.seqWriters wch).seqFile.isOpen = true := by
    intro s hs channel hasConfidence hreq wch hw
    obtain ⟨hrec, -, hwch | ⟨hd, hir⟩⟩ := mem_writersUsed s channel wch hasConfidence hw
    · rw [hwch]
      exact hopen s hs hrec channel hreq
    · rw [hir]
      rw [hd] at hreq
      exact hopen s hs hrec Channels.IR hreq
  refine ⟨?_, hopen, hused, ?_⟩
  · rw [StreamerState.startRecording, startRecordingStatements, runStatements_append_singleton]
    rfl
  · intro hattr s hs channel hasConfidence wch hw
    obtain ⟨hrec, hch, -⟩ := mem_writersUsed s channel wch hasConfidence hw
    have hfinal := startRecording_states st pgt pgf color depth dateTime hentry s hs hrec
    have hreq : requested pgt pgf color depth channel = true := by
      have hinv := runStatements_invariant
        (fun x => ∀ c, (x.streamAttributes c).recording = true →
          requested pgt pgf color depth c = true)
        (startRecordingBody pgt pgf color depth dateTime)
        (fun f hf x hx =>
          startRecordingBody_keeps_attributes pgt pgf color depth dateTime f hf x hx)
        st (fun c hc => by rw [hattr c] at hc; exact Bool.noConfusion hc)
      rw [hfinal] at hch
      exact hinv channel hch
    exact hused s hs channel hasConfidence hreq wch hw

/-- Witness for C20: a fresh `Streamer` whose global flag is clear is asked to
record Top and Depth; at the end the flag is set and the writers of Top, Depth
and IR are open. -/
theorem C20_recording_flag_set_last_witness :
    ({ newStreamer indeterminate with recording := false }.startRecording true false false true
      "20240101_00-00-00").recording = true ∧
    (({ newStreamer indeterminate with recording := false }.startRecording true false false true
      "20240101_00-00-00").seqWriters Channels.IR).seqFile.isOpen = true := by
  have h := C20_recording_flag_set_last { newStreamer indeterminate with recording := false }
    true false false true "20240101_00-00-00" rfl
  refine ⟨h.1, ?_⟩
  have hlast : { newStreamer indeterminate with recording := false }.startRecording true false
      false true "20240101_00-00-00" ∈
      statesThrough { newStreamer indeterminate with recording := false }
        (startRecordingStatements true false false true "20240101_00-00-00") := by
    rw [startRecordingStatements, statesThrough_append_singleton, StreamerState.startRecording,
      startRecordingStatements, runStatements_append_singleton]
    exact List.mem_append_right _ (List.mem_singleton.mpr rfl)
  exact h.2.1 _ hlast h.1 Channels.IR rfl

/-! ## Lemmas on the control calls -/

theorem stopRecording_eq_statements (st : StreamerState) :
    st.stopRecording = runStatements st stopRecordingStatements := rfl

/-- The writer calls `stopRecording` issues when the IR channel has no
recording attribute of its own. -/
theorem stopRecording_calls (st : StreamerState)
    (hIR : (st.streamAttributes Channels.IR).recording = false) :
    st.stopRecording.calls = st.calls ++ writersClosed st := by
  cases hD : (st.streamAttributes Channels.Depth).recording <;>
  cases hC : (st.streamAttributes Channels.Color).recording <;>
  cases hF : (st.streamAttributes Channels.PointGreyFront).recording <;>
  cases hT : (st.streamAttributes Channels.PointGreyTop).recording <;>
  simp [StreamerState.stopRecording, stopRecordingStep, writerStop, writersClosed, hIR, hD, hC,
    hF, hT, Function.update_apply]

/-- The writers after `stopRecording` when the IR channel has no recording
attribute of its own. -/
theorem stopRecording_seqWriters (st : StreamerState)
    (hIR : (st.streamAttributes Channels.IR).recording = false) (c : Channels) :
    st.stopRecording.seqWriters c =
      if closesWriter st c then (st.seqWriters c).stopRecording else st.seqWriters c := by
  cases hD : (st.streamAttributes Channels.Depth).recording <;>
  cases hC : (st.streamAttributes Channels.Color).recording <;>
  cases hF : (st.streamAttributes Channels.PointGreyFront).recording <;>
  cases hT : (st.streamAttributes Channels.PointGreyTop).recording <;>
  cases c <;>
  simp [StreamerState.stopRecording, stopRecordingStep, writerStop, closesWriter, hIR, hD, hC,
    hF, hT, Function.update_apply]

/-- The stream attributes after one iteration of the loop of `stopRecording`. -/
theorem stopRecordingStep_attributes (st : StreamerState) (c ch : Channels) :
    ((stopRecordingStep st c).streamAttributes ch).recording =
      (if ch = c then false else (st.streamAttributes ch).recording) ∧
    ((stopRecordingStep st c).streamAttributes ch).streaming =
      (st.streamAttributes ch).streaming ∧
    ((stopRecordingStep st c).streamAttributes ch).compressed =
      (st.streamAttributes ch).compressed ∧
    ((stopRecordingStep st c).streamAttributes ch).shouldSnap =
      (st.streamAttributes ch).shouldSnap := by
  unfold stopRecordingStep
  simp only [writerStop]
  by_cases hch : ch = c
  · subst hch
    split_ifs <;> simp_all
  · split_ifs <;> simp [Function.update_noteq hch, hch]

theorem foldl_stopRecordingStep_attributes (cs : List Channels) :
    ∀ (st : StreamerState) (ch : Channels),
      ((cs.foldl stopRecordingStep st).streamAttributes ch).recording =
        (if ch ∈ cs then false else (st.streamAttributes ch).recording) ∧
      ((cs.foldl stopRecordingStep st).streamAttributes ch).streaming =
        (st.streamAttributes ch).streaming ∧
      ((cs.foldl stopRecordingStep st).streamAttributes ch).compressed =
        (st.streamAttributes ch).compressed ∧
      ((cs.foldl stopRecordingStep st).streamAttributes ch).shouldSnap =
        (st.streamAttributes ch).shouldSnap := by
  induction cs with
  | nil => intro st ch; simp
  | cons c rest ih =>
    intro st ch
    obtain ⟨h1, h2, h3, h4⟩ := ih (stopRecordingStep st c) ch
    obtain ⟨k1, k2, k3, k4⟩ := stopRecordingStep_attributes st c ch
    simp only [List.foldl_cons]
    refine ⟨?_, h2.trans k2, h3.trans k3, h4.trans k4⟩
    rw [h1, k1]
    by_cases hr : ch ∈ rest
    · simp [hr]
    · by_cases hc : ch = c
      · simp [hc]
      · simp [hr, hc]

/-- The stream attributes after `stopRecording`. -/
theorem stopRecording_streamAttributes (st : StreamerState) (c : Channels) :
    (st.stopRecording.streamAttributes c).recording = false ∧
    (st.stopRecording.streamAttributes c).streaming = (st.streamAttributes c).streaming ∧
    (st.stopRecording.streamAttributes c).compressed = (st.streamAttributes c).compressed ∧
    (st.stopRecording.streamAttributes c).shouldSnap = (st.streamAttributes c).shouldSnap := by
  obtain ⟨h1, h2, h3, h4⟩ := foldl_stopRecordingStep_attributes
    [Channels.IR, Channels.Depth, Channels.Color, Channels.PointGreyFront,
      Channels.PointGreyTop] { st with recording := false } c
  refine ⟨?_, h2, h3, h4⟩
  have hmem : c ∈ [Channels.IR, Channels.Depth, Channels.Color, Channels.PointGreyFront,
      Channels.PointGreyTop] := by cases c <;> decide
  rw [if_pos hmem] at h1
  exact h1

/-- The members an iteration of the loop of `stopRecording` does not write. -/
theorem stopRecordingStep_others (st : StreamerState) (c : Channels) :
    (stopRecordingStep st c).ROIs = st.ROIs ∧
    (stopRecordingStep st c).originalROIs = st.originalROIs ∧
    (stopRecordingStep st c).workingDir = st.workingDir ∧
    (stopRecordingStep st c).isPGswitched = st.isPGswitched := by
  unfold stopRecordingStep
  simp only [writerStop]
  split_ifs <;> exact ⟨rfl, rfl, rfl, rfl⟩

theorem foldl_stopRecordingStep_others (cs : List Channels) :
    ∀ st : StreamerState,
      (cs.foldl stopRecordingStep st).ROIs = st.ROIs ∧
      (cs.foldl stopRecordingStep st).originalROIs = st.originalROIs ∧
      (cs.foldl stopRecordingStep st).workingDir = st.workingDir ∧
      (cs.foldl stopRecordingStep st).isPGswitched = st.isPGswitched := by
  induction cs with
  | nil => intro st; exact ⟨rfl, rfl, rfl, rfl⟩
  | cons c rest ih =>
    intro st
    obtain ⟨h1, h2, h3, h4⟩ := ih (stopRecordingStep st c)
    obtain ⟨k1, k2, k3, k4⟩ := stopRecordingStep_others st c
    simp only [List.foldl_cons]
    exact ⟨h1.trans k1, h2.trans k2, h3.trans k3, h4.trans k4⟩

/-- The members `stopRecording` does not write. -/
theorem stopRecording_others (st : StreamerState) :
    st.stopRecording.ROIs = st.ROIs ∧ st.stopRecording.originalROIs = st.originalROIs ∧
    st.stopRecording.workingDir = st.workingDir ∧
    st.stopRecording.isPGswitched = st.isPGswitched ∧
    st.stopRecording.running = st.running ∧ st.stopRecording.recording = false := by
  obtain ⟨h1, h2, h3, h4⟩ := foldl_stopRecordingStep_others
    [Channels.IR, Channels.Depth, Channels.Color, Channels.PointGreyFront,
      Channels.PointGreyTop] { st with recording := false }
  obtain ⟨-, k2, k3⟩ := stopRecording_keeps st
  exact ⟨h1, h2, h3, h4, k2, k3⟩

/-- The statement that starts a processor writes the log of calls only. -/
theorem startProcessorUnlessStreaming_fields (channel : Channels) (s : StreamerState) :
    (startProcessorUnlessStreaming channel s).seqWriters = s.seqWriters ∧
    (startProcessorUnlessStreaming channel s).streamAttributes = s.streamAttributes ∧
    (startProcessorUnlessStreaming channel s).ROIs = s.ROIs ∧
    (startProcessorUnlessStreaming channel s).originalROIs = s.originalROIs ∧
    (startProcessorUnlessStreaming channel s).workingDir = s.workingDir ∧
    (startProcessorUnlessStreaming channel s).isPGswitched = s.isPGswitched ∧
    (startProcessorUnlessStreaming channel s).recording = s.recording ∧
    (startProcessorUnlessStreaming channel s).running = s.running ∧
    (startProcessorUnlessStreaming channel s).calls =
      s.calls ++ (if (s.streamAttributes channel).streaming then []
        else [Call.imageProcessor channel]) := by
  unfold startProcessorUnlessStreaming
  cases h : (s.streamAttributes channel).streaming <;> simp

theorem startProcessorUnlessStreaming_seqWriters (channel : Channels) (s : StreamerState) :
    (startProcessorUnlessStreaming channel s).seqWriters = s.seqWriters :=
  (startProcessorUnlessStreaming_fields channel s).1

theorem startProcessorUnlessStreaming_streamAttributes (channel : Channels)
    (s : StreamerState) :
    (startProcessorUnlessStreaming channel s).streamAttributes = s.streamAttributes :=
  (startProcessorUnlessStreaming_fields channel s).2.1

theorem startProcessorUnlessStreaming_ROIs (channel : Channels) (s : StreamerState) :
    (startProcessorUnlessStreaming channel s).ROIs = s.ROIs :=
  (startProcessorUnlessStreaming_fields channel s).2.2.1

theorem startProcessorUnlessStreaming_originalROIs (channel : Channels) (s : StreamerState) :
    (startProcessorUnlessStreaming channel s).originalROIs = s.originalROIs :=
  (startProcessorUnlessStreaming_fields channel s).2.2.2.1

theorem startProcessorUnlessStreaming_workingDir (channel : Channels) (s : StreamerState) :
    (startProcessorUnlessStreaming channel s).workingDir = s.workingDir :=
  (startProcessorUnlessStreaming_fields channel s).2.2.2.2.1

theorem startProcessorUnlessStreaming_isPGswitched (channel : Channels) (s : StreamerState) :
    (startProcessorUnlessStreaming channel s).isPGswitched = s.isPGswitched :=
  (startProcessorUnlessStreaming_fields channel s).2.2.2.2.2.1

theorem startProcessorUnlessStreaming_recording (channel : Channels) (s : StreamerState) :
    (startProcessorUnlessStreaming channel s).recording = s.recording :=
  (startProcessorUnlessStreaming_fields channel s).2.2.2.2.2.2.1

theorem startProcessorUnlessStreaming_running (channel : Channels) (s : StreamerState) :
    (startProcessorUnlessStreaming channel s).running = s.running :=
  (startProcessorUnlessStreaming_fields channel s).2.2.2.2.2.2.2.1

theorem startProcessorUnlessStreaming_calls (channel : Channels) (s : StreamerState) :
    (startProcessorUnlessStreaming channel s).calls =
      s.calls ++ (if (s.streamAttributes channel).streaming then []
        else [Call.imageProcessor channel]) :=
  (startProcessorUnlessStreaming_fields channel s).2.2.2.2.2.2.2.2

/-- The writers after `startRecording`: the writer of every requested channel,
and the one of IR with Depth, has been started with the members the
`Streamer` had on entry. -/
theorem startRecording_seqWriters (st : StreamerState) (pgt pgf color depth : Bool)
    (dateTime : String) (c : Channels) :
    (st.startRecording pgt pgf color depth dateTime).seqWriters c =
      if requested pgt pgf color depth c then
        (st.seqWriters c).startRecording st.workingDir
          (st.ROIs (camOf c) ROICoordinates.W) (st.ROIs (camOf c) ROICoordinates.H)
          (st.streamAttributes (if c = Channels.IR then Channels.Depth else c)).compressed
          dateTime st.isPGswitched
      else st.seqWriters c := by
  cases pgt <;> cases pgf <;> cases color <;> cases depth <;> cases c <;>
  simp only [StreamerState.startRecording, runStatements, startRecordingStatements,
    startRecordingBody, setRecording, writerStart, setRecordingAttribute, requested, camOf,
    startProcessorUnlessStreaming_seqWriters, startProcessorUnlessStreaming_streamAttributes,
    startProcessorUnlessStreaming_ROIs, startProcessorUnlessStreaming_workingDir,
    startProcessorUnlessStreaming_isPGswitched, Function.update_apply, if_true,
    List.append_nil, List.nil_append, List.foldl, List.cons_append, reduceCtorEq, if_false,
    Bool.false_eq_true]

/-- The stream attributes after `startRecording`: the recording attribute of
every requested channel is set, the one of IR is not written, and no other
attribute changes. -/
theorem startRecording_streamAttributes (st : StreamerState) (pgt pgf color depth : Bool)
    (dateTime : String) (c : Channels) :
    ((st.startRecording pgt pgf color depth dateTime).streamAttributes c).recording =
      (if c = Channels.IR then (st.streamAttributes c).recording
       else (requested pgt pgf color depth c || (st.streamAttributes c).recording)) ∧
    ((st.startRecording pgt pgf color depth dateTime).streamAttributes c).streaming =
      (st.streamAttributes c).streaming ∧
    ((st.startRecording pgt pgf color depth dateTime).streamAttributes c).compressed =
      (st.streamAttributes c).compressed ∧
    ((st.startRecording pgt pgf color depth dateTime).streamAttributes c).shouldSnap =
      (st.streamAttributes c).shouldSnap := by
  cases pgt <;> cases pgf <;> cases color <;> cases depth <;> cases c <;>
  simp only [StreamerState.startRecording, runStatements, startRecordingStatements,
    startRecordingBody, setRecording, writerStart, setRecordingAttribute, requested,
    startProcessorUnlessStreaming_streamAttributes, Function.update_apply, if_true,
    List.append_nil, List.nil_append, List.foldl, List.cons_append, reduceCtorEq, if_false,
    Bool.false_eq_true, Bool.true_or, Bool.false_or, and_self]

/-- The members `startRecording` does not write, and the flag it sets. -/
theorem startRecording_others (st : StreamerState) (pgt pgf color depth : Bool)
    (dateTime : String) :
    (st.startRecording pgt pgf color depth dateTime).ROIs = st.ROIs ∧
    (st.startRecording pgt pgf color depth dateTime).originalROIs = st.originalROIs ∧
    (st.startRecording pgt pgf color depth dateTime).workingDir = st.workingDir ∧
    (st.startRecording pgt pgf color depth dateTime).isPGswitched = st.isPGswitched ∧
    (st.startRecording pgt pgf color depth dateTime).running = st.running ∧
    (st.startRecording pgt pgf color depth dateTime).recording = true := by
  cases pgt <;> cases pgf <;> cases color <;> cases depth <;>
  simp only [StreamerState.startRecording, runStatements, startRecordingStatements,
    startRecordingBody, setRecording, writerStart, setRecordingAttribute,
    startProcessorUnlessStreaming_ROIs, startProcessorUnlessStreaming_originalROIs,
    startProcessorUnlessStreaming_workingDir, startProcessorUnlessStreaming_isPGswitched,
    startProcessorUnlessStreaming_running, if_true,
    List.append_nil, List.nil_append, List.foldl, List.cons_append, if_false,
    Bool.false_eq_true, and_self]

/-- The calls `startRecording` issues: for every requested channel the start
of its writer (and of the IR writer after the one of Depth), then the start of
a processor unless the channel is streaming. -/
theorem startRecording_calls (st : StreamerState) (pgt pgf color depth : Bool)
    (dateTime : String) :
    (st.startRecording pgt pgf color depth dateTime).calls =
      st.calls ++
      ((if pgt then
          Call.startRecording Channels.PointGreyTop ::
            (if (st.streamAttributes Channels.PointGreyTop).streaming then []
             else [Call.imageProcessor Channels.PointGreyTop])
        else []) ++
       (if pgf then
          Call.startRecording Channels.PointGreyFront ::
            (if (st.streamAttributes Channels.PointGreyFront).streaming then []
             else [Call.imageProcessor Channels.PointGreyFront])
        else []) ++
       (if color then
          Call.startRecording Channels.Color ::
            (if (st.streamAttributes Channels.Color).streaming then []
             else [Call.imageProcessor Channels.Color])
        else []) ++
       (if depth then
          Call.startRecording Channels.Depth :: Call.startRecording Channels.IR ::
            (if (st.streamAttributes Channels.Depth).streaming then []
             else [Call.imageProcessor Channels.Depth])
        else [])) := by
  cases pgt <;> cases pgf <;> cases color <;> cases depth <;>
  simp only [StreamerState.startRecording, runStatements, startRecordingStatements,
    startRecordingBody, setRecording, writerStart, setRecordingAttribute,
    startProcessorUnlessStreaming_streamAttributes, startProcessorUnlessStreaming_calls,
    Function.update_apply, if_true,
    List.append_nil, List.nil_append, List.foldl, List.cons_append, reduceCtorEq, if_false,
    Bool.false_eq_true, List.append_assoc]

theorem stopRecording_closed (w : SEQWriter) : (w.stopRecording).seqFile.isOpen = false := rfl

theorem newCalls_append (before after : StreamerState) (l : List Call)
    (h : after.calls = before.calls ++ l) : newCalls before after = l := by
  simp [newCalls, h]

/-- The calls that neither start nor stop a recording leave the writers and
the recording attributes as they are. -/
theorem startStreaming_keeps (st : StreamerState) (camera : Cameras) :
    (st.startStreaming camera).seqWriters = st.seqWriters ∧
    ∀ c, ((st.startStreaming camera).streamAttributes c).recording =
      (st.streamAttributes c).recording := by
  unfold StreamerState.startStreaming
  simp only []
  split
  · refine ⟨rfl, fun c => ?_⟩
    by_cases hc : c = streamingChannel camera
    · subst hc; simp
    · simp [Function.update_noteq hc]
  · refine ⟨rfl, fun c => ?_⟩
    by_cases hc : c = streamingChannel camera
    · subst hc; simp
    · simp [Function.update_noteq hc]

theorem stopStreaming_keeps (st : StreamerState) (camera : Cameras) :
    (st.stopStreaming camera).seqWriters = st.seqWriters ∧
    ∀ c, ((st.stopStreaming camera).streamAttributes c).recording =
      (st.streamAttributes c).recording := by
  refine ⟨rfl, fun c => ?_⟩
  by_cases hc : c = streamingChannel camera
  · subst hc; simp [StreamerState.stopStreaming]
  · simp [StreamerState.stopStreaming, Function.update_noteq hc]

theorem setCompressed_keeps (st : StreamerState) (camera : Cameras) (compressed : Bool) :
    (st.setCompressed camera compressed).seqWriters = st.seqWriters ∧
    ∀ c, ((st.setCompressed camera compressed).streamAttributes c).recording =
      (st.streamAttributes c).recording := by
  refine ⟨rfl, fun c => ?_⟩
  by_cases hc : c = camera.toChannel
  · subst hc; simp [StreamerState.setCompressed]
  · simp [StreamerState.setCompressed, Function.update_noteq hc]

theorem saveSnapshot_keeps (st : StreamerState) (camera : Cameras) :
    (st.saveSnapshot camera).seqWriters = st.seqWriters ∧
    ∀ c, ((st.saveSnapshot camera).streamAttributes c).recording =
      (st.streamAttributes c).recording := by
  refine ⟨rfl, fun c => ?_⟩
  by_cases hc : c = camera.toChannel
  · subst hc; simp [StreamerState.saveSnapshot]
  · simp [StreamerState.saveSnapshot, Function.update_noteq hc]

/-- The lockstep invariant of the control surface: the IR channel has no
recording attribute of its own, and the files of the IR and of the Depth writer
are open exactly when Depth is recording. Every call keeps it. -/
theorem controlStep_lockstep (st : StreamerState) (call : ControlCall)
    (h : (st.streamAttributes Channels.IR).recording = false ∧
      (st.seqWriters Channels.IR).seqFile.isOpen =
        (st.streamAttributes Channels.Depth).recording ∧
      (st.seqWriters Channels.Depth).seqFile.isOpen =
        (st.streamAttributes Channels.Depth).recording) :
    ((controlStep st call).streamAttributes Channels.IR).recording = false ∧
      ((controlStep st call).seqWriters Channels.IR).seqFile.isOpen =
        ((controlStep st call).streamAttributes Channels.Depth).recording ∧
      ((controlStep st call).seqWriters Channels.Depth).seqFile.isOpen =
        ((controlStep st call).streamAttributes Channels.Depth).recording := by
  obtain ⟨h1, h2, h3⟩ := h
  cases call with
  | startStreaming camera =>
    obtain ⟨hw, ha⟩ := startStreaming_keeps st camera
    simp only [controlStep, hw, ha]
    exact ⟨h1, h2, h3⟩
  | stopStreaming camera =>
    obtain ⟨hw, ha⟩ := stopStreaming_keeps st camera
    simp only [controlStep, hw, ha]
    exact ⟨h1, h2, h3⟩
  | setCompressed camera compressed =>
    obtain ⟨hw, ha⟩ := setCompressed_keeps st camera compressed
    simp only [controlStep, hw, ha]
    exact ⟨h1, h2, h3⟩
  | saveSnapshot camera =>
    obtain ⟨hw, ha⟩ := saveSnapshot_keeps st camera
    simp only [controlStep, hw, ha]
    exact ⟨h1, h2, h3⟩
  | setROI camera x y w h => exact ⟨h1, h2, h3⟩
  | stopRecording =>
    simp only [controlStep]
    rw [stopRecording_seqWriters st h1, stopRecording_seqWriters st h1,
      (stopRecording_streamAttributes st _).1, (stopRecording_streamAttributes st _).1]
    refine ⟨rfl, ?_, ?_⟩
    · cases hD : (st.streamAttributes Channels.Depth).recording
      · simp only [closesWriter, if_true, hD, Bool.false_eq_true, if_false]
        rw [h2, hD]
      · simp only [closesWriter, if_true, hD]
        rfl
    · cases hD : (st.streamAttributes Channels.Depth).recording
      · simp only [closesWriter, reduceCtorEq, if_false, hD, Bool.false_eq_true]
        rw [h3, hD]
      · simp only [closesWriter, reduceCtorEq, if_false, hD, if_true]
        rfl
  | startRecording pgt pgf color depth dateTime =>
    simp only [controlStep]
    rw [startRecording_seqWriters, startRecording_seqWriters,
      (startRecording_streamAttributes st pgt pgf color depth dateTime _).1,
      (startRecording_streamAttributes st pgt pgf color depth dateTime _).1]
    simp only [if_true, reduceCtorEq, if_false, requested]
    refine ⟨h1, ?_, ?_⟩
    · cases depth
      · simp only [Bool.false_eq_true, if_false, Bool.false_or]
        exact h2
      · simp only [if_true, Bool.true_or]
        exact (startRecording_seqFile _ _ _ _ _ _ _).2.2
    · cases depth
      · simp only [Bool.false_eq_true, if_false, Bool.false_or]
        exact h3
      · simp only [if_true, Bool.true_or]
        exact (startRecording_seqFile _ _ _ _ _ _ _).2.2

theorem controlCalls_lockstep (calls : List ControlCall) :
    ∀ st : StreamerState,
      ((st.streamAttributes Channels.IR).recording = false ∧
        (st.seqWriters Channels.IR).seqFile.isOpen =
          (st.streamAttributes Channels.Depth).recording ∧
        (st.seqWriters Channels.Depth).seqFile.isOpen =
          (st.streamAttributes Channels.Depth).recording) →
      (((controlCalls st calls).streamAttributes Channels.IR).recording = false ∧
        ((controlCalls st calls).seqWriters Channels.IR).seqFile.isOpen =
          ((controlCalls st calls).streamAttributes Channels.Depth).recording ∧
        ((controlCalls st calls).seqWriters Channels.Depth).seqFile.isOpen =
          ((controlCalls st calls).streamAttributes Channels.Depth).recording) := by
  induction calls with
  | nil => intro st h; exact h
  | cons call rest ih =>
    intro st h
    simp only [controlCalls, List.foldl_cons]
    exact ih (controlStep st call) (controlStep_lockstep st call h)

/-- In every state the control surface leads to, the IR channel has no
recording attribute of its own, and the files of the IR and of the Depth writer
are open exactly when Depth is recording. -/
theorem reachable_lockstep (st : StreamerState) (hst : reachable st) :
    (st.streamAttributes Channels.IR).recording = false ∧
      (st.seqWriters Channels.IR).seqFile.isOpen =
        (st.streamAttributes Channels.Depth).recording ∧
      (st.seqWriters Channels.Depth).seqFile.isOpen =
        (st.streamAttributes Channels.Depth).recording := by
  obtain ⟨u, calls, rfl⟩ := hst
  exact controlCalls_lockstep calls (newStreamer u) ⟨rfl, rfl, rfl⟩

theorem writersClosed_count (st : StreamerState) (c : Channels) :
    (writersClosed st).count (Call.stopRecording c) = if closesWriter st c then 1 else 0 := by
  cases hD : (st.streamAttributes Channels.Depth).recording <;>
  cases hC : (st.streamAttributes Channels.Color).recording <;>
  cases hF : (st.streamAttributes Channels.PointGreyFront).recording <;>
  cases hT : (st.streamAttributes Channels.PointGreyTop).recording <;>
  cases c <;>
  simp [writersClosed, closesWriter, hD, hC, hF, hT]

theorem writersClosed_stops (st : StreamerState) (call : Call) (h : call ∈ writersClosed st) :
    ∃ c, call = Call.stopRecording c := by
  unfold writersClosed at h
  simp only [List.mem_append] at h
  rcases h with ((h | h) | h) | h <;> split at h <;> simp at h
  · rcases h with h | h
    · exact ⟨_, h⟩
    · exact ⟨_, h⟩
  · exact ⟨_, h⟩
  · exact ⟨_, h⟩
  · exact ⟨_, h⟩

/-- In the states `stopRecording` goes through, `recording` is cleared as soon
as a writer has been closed. -/
theorem stopRecording_states (st s : StreamerState)
    (hs : s ∈ statesThrough st stopRecordingStatements)
    (hchanged : s.calls ≠ st.calls ∨ s.seqWriters ≠ st.seqWriters) : s.recording = false := by
  have hs1 : s ∈ st :: statesThrough (clearRecording st)
      ([Channels.IR, Channels.Depth, Channels.Color, Channels.PointGreyFront,
        Channels.PointGreyTop].map (fun c st => stopRecordingStep st c)) := hs
  rcases List.mem_cons.mp hs1 with rfl | hs2
  · rcases hchanged with h | h <;> exact absurd rfl h
  · refine statesThrough_invariant (fun x => x.recording = false) _ ?_ (clearRecording st) rfl
      s hs2
    intro f hf x hx
    obtain ⟨c, -, rfl⟩ := List.mem_map.mp hf
    exact ((stopRecordingStep_keeps x c).2.2).trans hx


/-- The call `startStreaming` issues: the start of a processor unless the
recording attribute of the channel is set. -/
theorem startStreaming_calls (st : StreamerState) (camera : Cameras) :
    newCalls st (st.startStreaming camera) =
      if (st.streamAttributes (streamingChannel camera)).recording then []
      else [Call.imageProcessor (streamingChannel camera)] := by
  unfold StreamerState.startStreaming newCalls
  cases h : (st.streamAttributes (streamingChannel camera)).recording <;> simp [h]

/-- The processors `startRecording` starts: one for every requested channel
that is not streaming, none for IR. -/
theorem startRecording_processors (st : StreamerState) (pgt pgf color depth : Bool)
    (dateTime : String) (c : Channels) :
    (newCalls st (st.startRecording pgt pgf color depth dateTime)).count
        (Call.imageProcessor c) =
      if c ≠ Channels.IR ∧ requested pgt pgf color depth c = true ∧
          (st.streamAttributes c).streaming = false then 1 else 0 := by
  rw [newCalls_append st _ _ (startRecording_calls st pgt pgf color depth dateTime)]
  cases c <;>
    generalize (st.streamAttributes Channels.PointGreyTop).streaming = sT <;>
    generalize (st.streamAttributes Channels.PointGreyFront).streaming = sF <;>
    generalize (st.streamAttributes Channels.Color).streaming = sC <;>
    generalize (st.streamAttributes Channels.Depth).streaming = sD <;>
    generalize (st.streamAttributes Channels.IR).streaming = sI <;>
    cases pgt <;> cases pgf <;> cases color <;> cases depth <;>
    cases sT <;> cases sF <;> cases sC <;> cases sD <;> cases sI <;> decide

/-! ## Lemmas on the processor threads -/

/-- A processor that finds its condition true goes on, whatever the number of
times it evaluates it. -/
theorem taskSteps_observe (t : Tasks) (channel : Channels)
    (h : processorContinues t.st channel = true) (n : Nat) :
    taskSteps t (List.replicate n (TaskStep.observe channel)) = t := by
  induction n with
  | zero => rfl
  | succ n ih =>
    rw [List.replicate_succ, taskSteps, List.foldl_cons]
    have e : taskStep t (TaskStep.observe channel) = t := by
      simp only [taskStep, h, if_true]
    rw [e]
    exact ih


/-! ## Lemmas on the poll of the coordinator and the delivery queues -/

theorem mem_polledChannels (st : StreamerState) (c : Channels) :
    c ∈ polledChannels st ↔
      c ≠ Channels.IR ∧
        ((st.streamAttributes c).streaming = true ∨
          ((st.streamAttributes c).recording = true ∧ st.recording = true)) := by
  unfold polledChannels
  rw [mem_channels_to_check]
  cases c <;> simp [enabled, transporterFlags]


/-- A pass of the coordinator keeps every Delivery Queue within
`MAX_QUEUE_SIZE + 1` frames. -/
theorem checkFrameBuffer_length_le (s : Streamer) (a b c d : Bool)
    (h : ∀ ch, (s.frameQueues ch).length ≤ MAX_QUEUE_SIZE + 1) (ch : Channels) :
    ((checkFrameBuffer s a b c d).frameQueues ch).length ≤ MAX_QUEUE_SIZE + 1 := by
  by_cases hskip : (∀ ch, enabled a b c d ch = false) ∨
         (∃ ch, enabled a b c d ch = true ∧ s.synchronizationQueues ch = []) ∨
         (∃ ch, enabled a b c d ch = true ∧ (s.frameQueues ch).length > MAX_QUEUE_SIZE)
  · rw [checkFrameBuffer_skip s a b c d hskip]
    exact h ch
  · have hready : ∀ ch, enabled a b c d ch = true → s.synchronizationQueues ch ≠ [] :=
      fun ch hch hnil => hskip (Or.inr (Or.inl ⟨ch, hch, hnil⟩))
    have hroom : ∀ ch, enabled a b c d ch = true →
        (s.frameQueues ch).length ≤ MAX_QUEUE_SIZE := by
      intro ch hch
      by_contra hgt
      exact hskip (Or.inr (Or.inr ⟨ch, hch, by omega⟩))
    have hne : ∃ ch, enabled a b c d ch = true := by
      by_contra hnone
      refine hskip (Or.inl fun ch => ?_)
      cases he : enabled a b c d ch
      · rfl
      · exact absurd ⟨ch, he⟩ hnone
    rw [(checkFrameBuffer_transfer s a b c d hne hready hroom ch).1]
    by_cases he : enabled a b c d ch = true
    · simp only [he, if_true, List.length_append]
      have h1 := hroom ch he
      have h2 : ((s.synchronizationQueues ch).head?.toList).length ≤ 1 := by
        cases s.synchronizationQueues ch <;> simp
      omega
    · simp only [he, if_false]
      exact h ch

/-- A step keeps every Delivery Queue within `MAX_QUEUE_SIZE + 1` frames. -/
theorem step_length_le (s : Streamer) (op : Op)
    (h : ∀ ch, (s.frameQueues ch).length ≤ MAX_QUEUE_SIZE + 1) (ch : Channels) :
    ((step s op).frameQueues ch).length ≤ MAX_QUEUE_SIZE + 1 := by
  cases op with
  | push channel frame => exact h ch
  | check a b c d => exact checkFrameBuffer_length_le s a b c d h ch
  | pop channel =>
    simp only [step]
    by_cases hc : ch = channel
    · subst hc
      simp only [Function.update_same]
      have := h ch
      cases hq : s.frameQueues ch with
      | nil => simp [FrameQueue.pop]
      | cons x rest =>
        rw [hq] at this
        simp only [FrameQueue.pop, List.length_cons] at this ⊢
        omega
    · simp only [Function.update_noteq hc]
      exact h ch

theorem run_length_le (ops : List Op) :
    ∀ s : Streamer, (∀ ch, (s.frameQueues ch).length ≤ MAX_QUEUE_SIZE + 1) →
      ∀ ch, ((run s ops).frameQueues ch).length ≤ MAX_QUEUE_SIZE + 1 := by
  induction ops with
  | nil => intro s h; exact h
  | cons op rest ih =>
    intro s h
    simp only [run, List.foldl_cons]
    exact ih (step s op) (step_length_le s op h)


/-! ## Lemmas on the display section -/

/-- The value of `time_diff` for an elapsed time that an `int` holds after the
reduction modulo 10^9. -/
theorem time_diff_eq (elapsed : Int) (h0 : 0 ≤ elapsed) (h1 : elapsed < 1000000000) :
    wrapInt32 (Int.tmod elapsed 1000000000) = elapsed := by
  rw [Int.tmod_eq_emod h0 (by decide), Int.emod_eq_of_lt h0 h1]
  exact wrapInt32_of_range elapsed (by omega) (by omega)

/-- The display section on a channel that is streaming. -/
theorem displaySection_streaming (copy : QImage → Int → Int → Int → Int → QImage)
    (st : StreamerState) (channel : Channels) (frame : FrameData) (now : Int)
    (hch : channel ≠ Channels.IR) (hstream : (st.streamAttributes channel).streaming = true) :
    displaySection copy st channel frame now =
      if wrapInt32 (Int.tmod (now - st.lastUIUpdate channel) 1000000000) > UI_UPDATE_RATE then
        ({ st with lastUIUpdate := Function.update st.lastUIUpdate channel now },
         [(camOf channel,
            cropToROI copy st (camOf channel)
              (if channel = Channels.Depth then depthScaled frame.rawImage frame.rawImage
               else frame.rawImage))])
      else (st, []) := by
  unfold displaySection
  simp only [hch, hstream, ne_eq, not_false_eq_true, and_self, if_true]
  by_cases hd : channel = Channels.Depth
  · simp only [hd, if_true]
    rfl
  · simp only [hd, if_false]
    rfl

/-! ## Lemmas on the camera controller -/

/-- What `setValue` leaves as it is: the number of cameras, `CameraProps`, and
the cameras on which capture was started. -/
theorem setValue_fields (driver : Driver) (cc : CameraControllerState) (cam : Nat)
    (type : CameraProperties) (val : PropertyValue) :
    (cc.setValue driver cam type val).1.numPGCameras = cc.numPGCameras ∧
    (cc.setValue driver cam type val).1.CameraProps = cc.CameraProps ∧
    startedCameras (cc.setValue driver cam type val).1.log = startedCameras cc.log := by
  unfold CameraControllerState.setValue
  split_ifs <;> simp [startedCameras, List.filterMap_append]

/-- The call `setValue` throws `EXCEPTION_PG_INVALID_CAM` exactly for an index
that is not below `numPGCameras`, and then changes nothing. -/
theorem setValue_invalid (driver : Driver) (cc : CameraControllerState) (cam : Nat)
    (type : CameraProperties) (val : PropertyValue) :
    ((cc.setValue driver cam type val).2 =
        Outcome.raised exception_t.EXCEPTION_PG_INVALID_CAM ↔ cam ≥ cc.numPGCameras) ∧
    (cam ≥ cc.numPGCameras → (cc.setValue driver cam type val).1 = cc) := by
  unfold CameraControllerState.setValue
  split_ifs with h1 h2 h3 <;> simp [h1]

/-- The call `getValue` throws `EXCEPTION_PG_INVALID_CAM` exactly for an index
that is not below `numPGCameras`, and then changes nothing. -/
theorem getValue_invalid (driver : Driver) (cc : CameraControllerState) (cam : Nat)
    (type : CameraProperties) :
    ((cc.getValue driver cam type).2 =
        Outcome.raised exception_t.EXCEPTION_PG_INVALID_CAM ↔ cam ≥ cc.numPGCameras) ∧
    (cam ≥ cc.numPGCameras → (cc.getValue driver cam type).1 = cc) := by
  unfold CameraControllerState.getValue
  split_ifs with h1 h2 h3
  all_goals simp [h1]
  all_goals omega

theorem setDefaultValues_fields (driver : Driver) (cc : CameraControllerState) (i : Nat) :
    (setDefaultValues driver cc i).numPGCameras = cc.numPGCameras ∧
    (setDefaultValues driver cc i).CameraProps = cc.CameraProps ∧
    startedCameras (setDefaultValues driver cc i).log = startedCameras cc.log := by
  unfold setDefaultValues
  simp only []
  obtain ⟨a1, a2, a3⟩ := setValue_fields driver cc i CameraProperties.FPS
    (cc.CameraProps i).DefaultFPS
  generalize (cc.setValue driver i CameraProperties.FPS (cc.CameraProps i).DefaultFPS).1 = c1
    at a1 a2 a3 ⊢
  obtain ⟨b1, b2, b3⟩ := setValue_fields driver c1 i CameraProperties.Shutter
    (c1.CameraProps i).DefaultShutter
  generalize (c1.setValue driver i CameraProperties.Shutter (c1.CameraProps i).DefaultShutter).1
    = c2 at b1 b2 b3 ⊢
  obtain ⟨d1, d2, d3⟩ := setValue_fields driver c2 i CameraProperties.Gain
    (c2.CameraProps i).DefaultGain
  generalize (c2.setValue driver i CameraProperties.Gain (c2.CameraProps i).DefaultGain).1
    = c3 at d1 d2 d3 ⊢
  obtain ⟨e1, e2, e3⟩ := setValue_fields driver c3 i CameraProperties.Brightness
    (c3.CameraProps i).DefaultBrightness
  exact ⟨e1.trans (d1.trans (b1.trans a1)), e2.trans (d2.trans (b2.trans a2)),
    e3.trans (d3.trans (b3.trans a3))⟩

/-- Whether the iteration of `initPG` for a camera reaches
`camerasInitialized++` depends on the answers of the library only. -/
theorem initCamera_snd (driver : Driver) (cc : CameraControllerState) (i : Nat) :
    (initCamera driver cc i).2 =
      (driver.GetCameraFromIndex i && driver.Connect i && driver.ValidateFormat7Settings i &&
        driver.SetFormat7Configuration i) := by
  unfold initCamera
  cases driver.GetCameraFromIndex i <;> cases driver.Connect i <;>
    cases driver.ValidateFormat7Settings i <;> cases driver.SetFormat7Configuration i <;> rfl

theorem driverCall_fields (cc : CameraControllerState) (call : DriverCall) :
    (driverCall cc call).numPGCameras = cc.numPGCameras ∧
    (driverCall cc call).CameraProps = cc.CameraProps ∧
    (driverCall cc call).log = cc.log ++ [call] := ⟨rfl, rfl, rfl⟩

theorem startedCameras_driverCall (cc : CameraControllerState) (call : DriverCall)
    (h : ∀ i, call ≠ DriverCall.StartCapture i) :
    startedCameras (driverCall cc call).log = startedCameras cc.log := by
  unfold startedCameras driverCall
  rw [List.filterMap_append]
  cases call <;> simp
  exact absurd rfl (h _)

/-- What an iteration of `initPG` leaves as it is, and the pointer it sets. -/
theorem initCamera_fields (driver : Driver) (cc : CameraControllerState) (i : Nat) :
    (initCamera driver cc i).1.numPGCameras = cc.numPGCameras ∧
    (initCamera driver cc i).1.CameraProps =
      Function.update cc.CameraProps i { cc.CameraProps i with Camera := true } ∧
    startedCameras (initCamera driver cc i).1.log = startedCameras cc.log := by
  have k1 : ∀ j, DriverCall.Connect i ≠ DriverCall.StartCapture j := fun _ => by simp
  have k2 : ∀ j, DriverCall.ValidateFormat7Settings i ≠ DriverCall.StartCapture j :=
    fun _ => by simp
  have k3 : ∀ j, DriverCall.SetFormat7Configuration i ≠ DriverCall.StartCapture j :=
    fun _ => by simp
  unfold initCamera
  simp only []
  split_ifs <;>
    simp only [(driverCall_fields _ _).1, (driverCall_fields _ _).2.1,
      (setDefaultValues_fields _ _ _).1, (setDefaultValues_fields _ _ _).2.1,
      startedCameras_driverCall _ _ k1, startedCameras_driverCall _ _ k2,
      startedCameras_driverCall _ _ k3, (setDefaultValues_fields _ _ _).2.2] <;>
    exact ⟨rfl, rfl, rfl⟩

/-- The cameras that reach `camerasInitialized++` are the ones for which the
library answers `PGRERROR_OK` at the four steps that can end the iteration. -/
theorem initializedCameras_eq (driver : Driver) (indices : List Nat) :
    ∀ cc : CameraControllerState,
      initializedCameras driver cc indices =
        indices.filter (fun i =>
          driver.GetCameraFromIndex i && driver.Connect i && driver.ValidateFormat7Settings i &&
            driver.SetFormat7Configuration i) := by
  induction indices with
  | nil => intro cc; rfl
  | cons i rest ih =>
    intro cc
    simp only [initializedCameras, initCamera_snd, ih, List.filter_cons]
    split <;> simp

theorem initializedCameras_length_le (driver : Driver) (indices : List Nat)
    (cc : CameraControllerState) :
    (initializedCameras driver cc indices).length ≤ indices.length := by
  rw [initializedCameras_eq]
  exact List.length_filter_le _ _

/-- The loop of `initPG`: it keeps the number of cameras, sets the pointer of
every camera it goes through, starts no capture, and counts the cameras that
reach `camerasInitialized++`. -/
theorem initCameras_fields (driver : Driver) (indices : List Nat) :
    ∀ (cc : CameraControllerState) (n : Int),
      (initCameras driver cc n indices).1.numPGCameras = cc.numPGCameras ∧
      (∀ j, j ∈ indices ∨ (cc.CameraProps j).Camera = true →
        ((initCameras driver cc n indices).1.CameraProps j).Camera = true) ∧
      startedCameras (initCameras driver cc n indices).1.log = startedCameras cc.log ∧
      (0 ≤ n → n + indices.length < 2147483648 →
        (initCameras driver cc n indices).2 =
          n + ((initializedCameras driver cc indices).length : Int)) := by
  induction indices with
  | nil =>
    intro cc n
    refine ⟨rfl, ?_, rfl, ?_⟩
    · intro j hj
      rcases hj with hj | hj
      · exact absurd hj (List.not_mem_nil _)
      · exact hj
    · intro _ _
      simp [initCameras, initializedCameras]
  | cons i rest ih =>
    intro cc n
    obtain ⟨f1, f2, f3⟩ := initCamera_fields driver cc i
    obtain ⟨g1, g2, g3, g4⟩ := ih (initCamera driver cc i).1
      (if (initCamera driver cc i).2 then wrapInt32 (n + 1) else n)
    simp only [initCameras]
    refine ⟨g1.trans f1, ?_, g3.trans f3, ?_⟩
    · intro j hj
      apply g2
      by_cases hji : j = i
      · right
        rw [f2, hji]
        simp
      · rcases hj with hj | hj
        · rcases List.mem_cons.mp hj with h | h
          · exact absurd h hji
          · exact Or.inl h
        · right
          rw [f2, Function.update_noteq hji]
          exact hj
    · intro h0 hlt
      simp only [List.length_cons, Nat.cast_add, Nat.cast_one] at hlt
      have hlen := initializedCameras_length_le driver rest (initCamera driver cc i).1
      cases hok : (initCamera driver cc i).2
      · simp only [hok, Bool.false_eq_true, if_false] at g4 ⊢
        rw [g4 h0 (by omega)]
        simp [initializedCameras, hok]
      · simp only [hok, if_true] at g4 ⊢
        have hw : wrapInt32 (n + 1) = n + 1 := wrapInt32_of_range _ (by omega) (by omega)
        rw [hw] at g4 ⊢
        rw [g4 (by omega) (by omega)]
        simp [initializedCameras, hok]
        ring

theorem startedCameras_startCapture (cc : CameraControllerState) (i : Nat) :
    startedCameras (driverCall cc (DriverCall.StartCapture i)).log =
      startedCameras cc.log ++ [i] := by
  simp [startedCameras, driverCall, List.filterMap_append]

/-- The loop of `run` on cameras whose pointer is set: `StartCapture` is called
on each of them, in order. -/
theorem startCaptures_fields (indices : List Nat) :
    ∀ cc : CameraControllerState, (∀ i ∈ indices, (cc.CameraProps i).Camera = true) →
      ∃ cc1, startCaptures cc indices = some cc1 ∧
        startedCameras cc1.log = startedCameras cc.log ++ indices ∧
        cc1.numPGCameras = cc.numPGCameras := by
  induction indices with
  | nil => intro cc _; exact ⟨cc, rfl, by simp, rfl⟩
  | cons i rest ih =>
    intro cc h
    obtain ⟨cc1, h1, h2, h3⟩ := ih (driverCall cc (DriverCall.StartCapture i))
      (fun j hj => h j (List.mem_cons_of_mem _ hj))
    refine ⟨cc1, ?_, ?_, h3⟩
    · simp only [startCaptures, h i (List.mem_cons_self _ _), if_true]
      exact h1
    · rw [h2, startedCameras_startCapture, List.append_assoc]
      rfl

/-- The number of cameras after `initPG`: at most `PG_CAMERAS_MAX` when the
call returns. -/
theorem initPG_numPGCameras (driver : Driver) (cc : CameraControllerState) (n : Int)
    (h : (cc.initPG driver).2 = Outcome.returned n) :
    (cc.initPG driver).1.numPGCameras ≤ PG_CAMERAS_MAX := by
  unfold CameraControllerState.initPG at h ⊢
  simp only [] at h ⊢
  by_cases hb : driver.busError = true
  · simp [hb] at h
  · simp only [hb, Bool.false_eq_true, if_false]
    rw [(initCameras_fields driver _ _ _).1]
    split_ifs with hgt
    · exact le_refl _
    · simp only [not_lt] at hgt
      exact hgt

/-- The method `run` returns; it calls `StartCapture` on the cameras of index 0
up to the number of cameras that `initPG` counted as initialized, which are
not always the cameras that were initialized. -/
theorem run_startedCameras (driver : Driver) (st : StreamerState)
    (cc : CameraControllerState) :
    ∃ st1 cc1, st.run driver cc = some (st1, cc1) ∧ st1 = { st with running := true } ∧
      startedCameras cc1.log = startedCameras cc.log ++
        List.range (if driver.busError then 0 else
          (initializedCameras driver cc
            (List.range (min (driver.numCameras % 4294967296) PG_CAMERAS_MAX))).length) := by
  unfold StreamerState.run CameraControllerState.initPG
  simp only []
  by_cases hb : driver.busError = true
  · simp only [hb, if_true, startCaptures, Int.toNat_zero, List.range_zero, List.append_nil]
    exact ⟨_, _, rfl, rfl, rfl⟩
  · simp only [hb, Bool.false_eq_true, if_false]
    generalize hcc : (if driver.numCameras % 4294967296 > PG_CAMERAS_MAX then
        ({ numPGCameras := PG_CAMERAS_MAX, CameraProps := cc.CameraProps,
           properties := cc.properties, log := cc.log } : CameraControllerState)
      else { numPGCameras := driver.numCameras % 4294967296, CameraProps := cc.CameraProps,
             properties := cc.properties, log := cc.log }) = c0
    have hm : c0.numPGCameras = min (driver.numCameras % 4294967296) PG_CAMERAS_MAX ∧
        c0.log = cc.log := by
      subst hcc
      split_ifs with hgt
      · exact ⟨(min_eq_right (le_of_lt hgt)).symm, rfl⟩
      · exact ⟨(min_eq_left (not_lt.mp hgt)).symm, rfl⟩
    have hle : c0.numPGCameras ≤ 2 := by
      rw [hm.1]; exact min_le_right _ _
    obtain ⟨f1, f2, f3, f4⟩ := initCameras_fields driver (List.range c0.numPGCameras) c0 0
    have hlen := initializedCameras_length_le driver (List.range c0.numPGCameras) c0
    rw [List.length_range] at hlen
    have hcount := f4 (le_refl _) (by rw [List.length_range]; omega)
    rw [zero_add] at hcount
    have hcam : ∀ i ∈ List.range (initializedCameras driver c0
          (List.range c0.numPGCameras)).length,
        (((initCameras driver c0 0 (List.range c0.numPGCameras)).1).CameraProps i).Camera
          = true := by
      intro i hi
      apply f2
      left
      rw [List.mem_range] at hi ⊢
      omega
    obtain ⟨cc1, s1, s2, -⟩ := startCaptures_fields _ _ hcam
    refine ⟨_, cc1, ?_, rfl, ?_⟩
    · rw [hcount, Int.toNat_ofNat, s1]
    · rw [s2, f3, hm.2, ← hm.1, initializedCameras_eq driver _ cc,
        initializedCameras_eq driver _ c0]

/-! ## Lemmas on timestamps -/

theorem wrapInt16_of_range (x : Int) (h1 : -32768 ≤ x) (h2 : x < 32768) : wrapInt16 x = x := by
  unfold wrapInt16; omega

theorem readLE_int16Bytes (x : Int) : (readLE (int16Bytes x) : Int) = x % 65536 := by
  have h : readLE (int16Bytes x) = (x % 65536).toNat := by
    simp only [int16Bytes, leBytes, readLE, List.range, List.range.loop, List.map, List.foldr]
    omega
  rw [h]
  omega

/-- Seconds and milliseconds of a number of milliseconds. -/
theorem split_milliseconds (r : Int) :
    0 ≤ r % 1000 ∧ r % 1000 ≤ 999 ∧ r / 1000 * 1000 + r % 1000 = r ∧
      r % 1000 % 65536 = r % 1000 := by
  omega

/-- The timestamp of a Point Grey frame for a non-negative elapsed time. -/
theorem PGTimestamp_eq (elapsed : Int) (h : 0 ≤ elapsed) :
    PGTimestamp elapsed = (elapsed % 1000000000 / 1000, elapsed % 1000000000 % 1000) := by
  have h1 : Int.tmod elapsed 1000000000 = elapsed % 1000000000 :=
    Int.tmod_eq_emod h (by decide)
  have h2 : 0 ≤ elapsed % 1000000000 := Int.emod_nonneg _ (by decide)
  have h3 : elapsed % 1000000000 < 1000000000 := Int.emod_lt_of_pos _ (by decide)
  generalize elapsed % 1000000000 = r at h1 h2 h3
  have h4 : wrapInt32 r = r := wrapInt32_of_range r (by omega) (by omega)
  have h5 : Int.tdiv r 1000 = r / 1000 := Int.tdiv_eq_ediv h2 (by decide)
  have h6 : Int.tmod r 1000 = r % 1000 := Int.tmod_eq_emod h2 (by decide)
  have h7 : wrapInt32 (r / 1000) = r / 1000 := wrapInt32_of_range _ (by omega) (by omega)
  have h8 : wrapInt16 (r % 1000) = r % 1000 := wrapInt16_of_range _ (by omega) (by omega)
  simp only [PGTimestamp, h1, h4, h5, h6, h7, h8]

/-- The locals `sec` and `ms` of the DepthSense callbacks for a capture time
below 2^32 seconds. -/
theorem DSTimestampLocals_eq (timeOfCapture : Nat) (h : timeOfCapture < 4294967296000000) :
    DSTimestampLocals timeOfCapture =
      (timeOfCapture / 1000000, timeOfCapture / 1000 - 1000 * (timeOfCapture / 1000000)) ∧
    timeOfCapture / 1000 - 1000 * (timeOfCapture / 1000000) = timeOfCapture / 1000 % 1000 := by
  have e1 : timeOfCapture / 1000000 % 4294967296 = timeOfCapture / 1000000 := by omega
  have e2 : timeOfCapture / 1000 - 1000 * (timeOfCapture / 1000000) =
      timeOfCapture / 1000 % 1000 := by omega
  refine ⟨?_, e2⟩
  simp only [DSTimestampLocals, e1, e2]
  congr 1
  omega

/-- Seconds and milliseconds of a capture time in microseconds. -/
theorem split_microseconds (T : Nat) :
    (((T / 1000 % 1000 : Nat) : Int)) ≤ 999 ∧
    (((T / 1000000 : Nat) : Int)) * 1000 + ((T / 1000 % 1000 : Nat) : Int) =
      ((T / 1000 : Nat) : Int) ∧
    ((T / 1000 % 1000 : Nat) : Int) % 65536 = ((T / 1000 % 1000 : Nat) : Int) := by
  omega

theorem seconds_in_range (T : Nat) (h : T < 4294967296000000) :
    ((T / 1000000 : Nat) : Int) < 4294967296 ∧
    (T < 2147483648000000 → ((T / 1000000 : Nat) : Int) < 2147483648) := by
  omega

theorem wrapInt32_emod (x : Int) (h0 : 0 ≤ x) (h1 : x < 4294967296) :
    wrapInt32 x % 4294967296 = x := by
  unfold wrapInt32; omega

theorem timestampRecord_seconds (secs ms : Int) :
    bytesAt (timestampRecord secs ms) 0 4 = int32Bytes secs := by
  have h4 := int32Bytes_length secs
  simp only [bytesAt, timestampRecord, List.drop_zero]
  rw [List.take_append_of_le_length (by omega), List.take_of_length_le (by omega)]

theorem timestampRecord_milliseconds (secs ms : Int) :
    bytesAt (timestampRecord secs ms) 4 2 = int16Bytes ms := by
  have h4 := int32Bytes_length secs
  have h2 := int16Bytes_length ms
  simp only [bytesAt, timestampRecord]
  rw [List.drop_append_of_le_length (by omega), List.drop_of_length_le (by omega),
    List.nil_append, List.take_append_of_le_length (by omega),
    List.take_of_length_le (by omega)]

/-- The pair stored in a DepthSense frame for a capture time below 2^32
seconds. -/
theorem DSTimestamp_eq (T : Nat) (hT : T < 4294967296000000) :
    (DSTimestamp T).1 = wrapInt32 ((T / 1000000 : Nat) : Int) ∧
    (DSTimestamp T).2 = ((T / 1000 % 1000 : Nat) : Int) := by
  obtain ⟨hds, hms⟩ := DSTimestampLocals_eq T hT
  have hle := (split_microseconds T).1
  refine ⟨?_, ?_⟩
  · simp only [DSTimestamp, hds]
  · simp only [DSTimestamp, hds, hms]
    have h0 : (0 : Int) ≤ ((T / 1000 % 1000 : Nat) : Int) := Int.ofNat_nonneg _
    generalize ((T / 1000 % 1000 : Nat) : Int) = m at hle h0
    exact wrapInt32_of_range m (by omega) (by omega)

/-! ## Lemmas on the recording section -/

/-- A `writeFrame` call that returns counts the frame and keeps the other
members of the writer but the file. -/
theorem writeFrame_totalFrames (compressJPEG : QImage → Int → Int → Option (List Nat))
    (w w1 : SEQWriter) (image : QImage) (secs ms : Int)
    (h : w.writeFrame compressJPEG image secs ms = some w1) :
    w1.totalFrames = wrapInt32 (w.totalFrames + 1) := by
  unfold SEQWriter.writeFrame at h
  simp only [] at h
  split at h
  · exact Option.noConfusion h
  · injection h with h
    rw [← h]

/-- A `writeFrame` call of the processor writes the writer of its channel
only. -/
theorem writerWriteFrame_fields (compressJPEG : QImage → Int → Int → Option (List Nat))
    (st st1 : StreamerState) (channel : Channels) (image : QImage) (secs ms : Int)
    (h : writerWriteFrame compressJPEG st channel image secs ms = some st1) :
    st1.ROIs = st.ROIs ∧ st1.streamAttributes = st.streamAttributes ∧
    st1.recording = st.recording ∧
    (∀ c, c ≠ channel → st1.seqWriters c = st.seqWriters c) ∧
    (st1.seqWriters channel).totalFrames =
      wrapInt32 ((st.seqWriters channel).totalFrames + 1) := by
  unfold writerWriteFrame at h
  cases hw : (st.seqWriters channel).writeFrame compressJPEG image secs ms with
  | none => simp [hw] at h
  | some w1 =>
    simp only [hw, Option.some.injEq] at h
    subst h
    refine ⟨rfl, rfl, rfl, ?_, ?_⟩
    · intro c hc
      simp [Function.update_noteq hc]
    · simp only [Function.update_same]
      exact writeFrame_totalFrames compressJPEG _ _ image secs ms hw

/-- The recording section issues the calls of `writeFrameCalls`, in order. -/
theorem recordingSection_eq_calls (compressJPEG : QImage → Int → Int → Option (List Nat))
    (copy : QImage → Int → Int → Int → Int → QImage) (st : StreamerState)
    (channel : Channels) (frame : FrameData) :
    recordingSection compressJPEG copy st channel frame =
      issueWriteFrames compressJPEG st (writeFrameCalls copy st channel frame) := by
  unfold recordingSection writeFrameCalls
  simp only [COMPATIBILITY_MODE, if_true]
  by_cases hra : recordingActive st channel = true
  · simp only [hra, if_true]
    by_cases hd : channel = Channels.Depth
    · simp only [hd, if_true]
      cases hconf : frame.confidenceImage with
      | none =>
        simp only [List.nil_append, issueWriteFrames]
        cases writerWriteFrame compressJPEG st Channels.Depth _ _ _ <;> rfl
      | some confidenceImage =>
        simp only [List.singleton_append, issueWriteFrames]
        cases hw : writerWriteFrame compressJPEG st Channels.IR
            (cropToROI copy st (camOf Channels.Depth)
              (depthScaled (depthScaled frame.rawImage frame.rawImage) confidenceImage))
            frame.timestampSeconds frame.timestampMilliSeconds with
        | none => rfl
        | some st1 =>
          simp only []
          have hroi := (writerWriteFrame_fields compressJPEG st st1 _ _ _ _ hw).1
          have hcrop : cropToROI copy st1 (camOf Channels.Depth)
              (depthScaled frame.rawImage frame.rawImage) =
              cropToROI copy st (camOf Channels.Depth)
                (depthScaled frame.rawImage frame.rawImage) := by
            simp only [cropToROI, hroi]
          rw [hcrop]
          cases writerWriteFrame compressJPEG st1 Channels.Depth _ _ _ <;> rfl
    · simp only [hd, if_false, issueWriteFrames]
      cases writerWriteFrame compressJPEG st channel _ _ _ <;> rfl
  · simp only [hra, Bool.false_eq_true, if_false, issueWriteFrames]

/-- One iteration of the recording section of the Depth processor while the
channel records, with a JPEG library that does not throw: the Depth writer
counts one frame, and the IR writer counts one exactly when the frame has
confidence data. -/
theorem recordingSection_depth (compressJPEG : QImage → Int → Int → Option (List Nat))
    (copy : QImage → Int → Int → Int → Int → QImage)
    (htotal : ∀ image w h, ∃ jpeg, compressJPEG image w h = some jpeg)
    (st : StreamerState) (frame : FrameData)
    (hra : recordingActive st Channels.Depth = true) :
    ∃ st1, recordingSection compressJPEG copy st Channels.Depth frame = some st1 ∧
      recordingActive st1 Channels.Depth = true ∧
      (st1.seqWriters Channels.Depth).totalFrames =
        wrapInt32 ((st.seqWriters Channels.Depth).totalFrames + 1) ∧
      (st1.seqWriters Channels.IR).totalFrames =
        if frame.confidenceImage.isSome then
          wrapInt32 ((st.seqWriters Channels.IR).totalFrames + 1)
        else (st.seqWriters Channels.IR).totalFrames := by
  rw [recordingSection_eq_calls]
  unfold writeFrameCalls
  simp only [hra, if_true, COMPATIBILITY_MODE]
  cases hconf : frame.confidenceImage with
  | none =>
    simp only [List.nil_append, issueWriteFrames, Option.isSome_none, Bool.false_eq_true,
      if_false]
    obtain ⟨st1, h1, -, -⟩ := writerWriteFrame_returns compressJPEG htotal st Channels.Depth
      (cropToROI copy st (camOf Channels.Depth) (depthScaled frame.rawImage frame.rawImage))
      frame.timestampSeconds frame.timestampMilliSeconds
    obtain ⟨-, f2, f3, f4, f5⟩ := writerWriteFrame_fields compressJPEG st st1 _ _ _ _ h1
    refine ⟨st1, by rw [h1], ?_, f5, ?_⟩
    · simp only [recordingActive, f2, f3] at hra ⊢
      exact hra
    · rw [f4 Channels.IR (by decide)]
  | some confidenceImage =>
    simp only [List.singleton_append, issueWriteFrames, Option.isSome_some, if_true]
    obtain ⟨sa, ha, -, -⟩ := writerWriteFrame_returns compressJPEG htotal st Channels.IR
      (cropToROI copy st (camOf Channels.Depth)
        (depthScaled (depthScaled frame.rawImage frame.rawImage) confidenceImage))
      frame.timestampSeconds frame.timestampMilliSeconds
    obtain ⟨-, a2, a3, a4, a5⟩ := writerWriteFrame_fields compressJPEG st sa _ _ _ _ ha
    obtain ⟨sb, hb, -, -⟩ := writerWriteFrame_returns compressJPEG htotal sa Channels.Depth
      (cropToROI copy st (camOf Channels.Depth) (depthScaled frame.rawImage frame.rawImage))
      frame.timestampSeconds frame.timestampMilliSeconds
    obtain ⟨-, b2, b3, b4, b5⟩ := writerWriteFrame_fields compressJPEG sa sb _ _ _ _ hb
    refine ⟨sb, by rw [ha]; simp only []; rw [hb], ?_, ?_, ?_⟩
    · simp only [recordingActive, b2, b3, a2, a3] at hra ⊢
      exact hra
    · rw [b5, a4 Channels.Depth (by decide)]
    · rw [b4 Channels.IR (by decide), a5]

/-- The frame counters of the Depth and of the IR writer along the iterations
of the Depth processor while the channel records. -/
theorem recordFrames_depth (compressJPEG : QImage → Int → Int → Option (List Nat))
    (copy : QImage → Int → Int → Int → Int → QImage)
    (htotal : ∀ image w h, ∃ jpeg, compressJPEG image w h = some jpeg)
    (frames : List FrameData) :
    ∀ st : StreamerState, recordingActive st Channels.Depth = true →
      0 ≤ (st.seqWriters Channels.Depth).totalFrames →
      0 ≤ (st.seqWriters Channels.IR).totalFrames →
      (st.seqWriters Channels.Depth).totalFrames + frames.length < 2147483648 →
      (st.seqWriters Channels.IR).totalFrames + frames.length < 2147483648 →
      ∃ st1, recordFrames compressJPEG copy Channels.Depth st frames = some st1 ∧
        (st1.seqWriters Channels.Depth).totalFrames =
          (st.seqWriters Channels.Depth).totalFrames + frames.length ∧
        (st1.seqWriters Channels.IR).totalFrames =
          (st.seqWriters Channels.IR).totalFrames +
            (frames.filter (fun frame => frame.confidenceImage.isSome)).length := by
  induction frames with
  | nil =>
    intro st _ _ _ _ _
    exact ⟨st, rfl, by simp, by simp⟩
  | cons frame rest ih =>
    intro st hra hd0 hi0 hd1 hi1
    obtain ⟨sa, ha, hra1, hdT, hiT⟩ := recordingSection_depth compressJPEG copy htotal st frame hra
    simp only [List.length_cons, Nat.cast_add, Nat.cast_one] at hd1 hi1
    have hdw : wrapInt32 ((st.seqWriters Channels.Depth).totalFrames + 1) =
        (st.seqWriters Channels.Depth).totalFrames + 1 :=
      wrapInt32_of_range _ (by omega) (by omega)
    have hiw : wrapInt32 ((st.seqWriters Channels.IR).totalFrames + 1) =
        (st.seqWriters Channels.IR).totalFrames + 1 :=
      wrapInt32_of_range _ (by omega) (by omega)
    rw [hdw] at hdT
    rw [hiw] at hiT
    have hiT2 : (sa.seqWriters Channels.IR).totalFrames ≤
        (st.seqWriters Channels.IR).totalFrames + 1 ∧
        (st.seqWriters Channels.IR).totalFrames ≤ (sa.seqWriters Channels.IR).totalFrames := by
      rw [hiT]; split <;> omega
    obtain ⟨sb, hb, hbD, hbI⟩ := ih sa hra1 (by omega) (by omega) (by omega) (by omega)
    refine ⟨sb, ?_, ?_, ?_⟩
    · simp only [recordFrames, ha]
      exact hb
    · rw [hbD, hdT]
      simp only [List.length_cons, Nat.cast_add, Nat.cast_one]
      ring
    · rw [hbI, hiT]
      cases hconf : frame.confidenceImage.isSome
      · simp [List.filter_cons, hconf]
      · simp [List.filter_cons, hconf]
        ring

/-! ## Claims C21 to C30 -/

/-- C21: in every state the control surface leads to (any sequence of
`startRecording` and `stopRecording` calls, alternating or not, mixed with the
other calls), the file of the IR writer is open if and only if the file of the
Depth writer is. A `startRecording` call with `depth` opens both writers in
that call with the same session timestamp `dateTime`, the width and height of
the Depth ROI and the compression flag of Depth; a call without `depth` leaves
both as they are. A `stopRecording` call closes the IR writer exactly when it
closes the Depth writer, each at most once, and leaves both files closed. -/
theorem C21_ir_lockstep (st : StreamerState) (hst : reachable st) :
    (st.seqWriters Channels.IR).seqFile.isOpen = (st.seqWriters Channels.Depth).seqFile.isOpen ∧
    (∀ (pgt pgf color : Bool) (dateTime : String),
      (st.startRecording pgt pgf color true dateTime).seqWriters Channels.IR =
        (st.seqWriters Channels.IR).startRecording st.workingDir
          (st.ROIs Cameras.Depth ROICoordinates.W) (st.ROIs Cameras.Depth ROICoordinates.H)
          (st.streamAttributes Channels.Depth).compressed dateTime st.isPGswitched ∧
      (st.startRecording pgt pgf color true dateTime).seqWriters Channels.Depth =
        (st.seqWriters Channels.Depth).startRecording st.workingDir
          (st.ROIs Cameras.Depth ROICoordinates.W) (st.ROIs Cameras.Depth ROICoordinates.H)
          (st.streamAttributes Channels.Depth).compressed dateTime st.isPGswitched ∧
      ((st.startRecording pgt pgf color true dateTime).seqWriters
        Channels.IR).seqFile.isOpen = true ∧
      ((st.startRecording pgt pgf color true dateTime).seqWriters
        Channels.Depth).seqFile.isOpen = true ∧
      (newCalls st (st.startRecording pgt pgf color true dateTime)).count
        (Call.startRecording Channels.IR) = 1 ∧
      (newCalls st (st.startRecording pgt pgf color true dateTime)).count
        (Call.startRecording Channels.Depth) = 1) ∧
    (∀ (pgt pgf color : Bool) (dateTime : String),
      (st.startRecording pgt pgf color false dateTime).seqWriters Channels.IR =
        st.seqWriters Channels.IR ∧
      (st.startRecording pgt pgf color false dateTime).seqWriters Channels.Depth =
        st.seqWriters Channels.Depth) ∧
    (newCalls st st.stopRecording).count (Call.stopRecording Channels.IR) =
      (newCalls st st.stopRecording).count (Call.stopRecording Channels.Depth) ∧
    (newCalls st st.stopRecording).count (Call.stopRecording Channels.IR) =
      (if (st.seqWriters Channels.Depth).seqFile.isOpen then 1 else 0) ∧
    (st.stopRecording.seqWriters Channels.IR).seqFile.isOpen = false ∧
    (st.stopRecording.seqWriters Channels.Depth).seqFile.isOpen = false := by
  obtain ⟨h1, h2, h3⟩ := reachable_lockstep st hst
  have hstop := newCalls_append st st.stopRecording _ (stopRecording_calls st h1)
  obtain ⟨k1, k2, k3⟩ := controlStep_lockstep st ControlCall.stopRecording ⟨h1, h2, h3⟩
  simp only [controlStep] at k2 k3
  rw [(stopRecording_streamAttributes st _).1] at k2 k3
  refine ⟨h2.trans h3.symm, ?_, ?_, ?_, ?_, k2, k3⟩
  · intro pgt pgf color dateTime
    have hcalls := newCalls_append st _ _ (startRecording_calls st pgt pgf color true dateTime)
    have e1 := startRecording_seqWriters st pgt pgf color true dateTime Channels.IR
    have e2 := startRecording_seqWriters st pgt pgf color true dateTime Channels.Depth
    simp only [requested, if_true, camOf, reduceCtorEq, if_false] at e1 e2
    refine ⟨e1, e2, ?_, ?_, ?_, ?_⟩
    · rw [e1]; exact (startRecording_seqFile _ _ _ _ _ _ _).2.2
    · rw [e2]; exact (startRecording_seqFile _ _ _ _ _ _ _).2.2
    · rw [hcalls]
      cases pgt <;> cases pgf <;> cases color <;>
        cases (st.streamAttributes Channels.PointGreyTop).streaming <;>
        cases (st.streamAttributes Channels.PointGreyFront).streaming <;>
        cases (st.streamAttributes Channels.Color).streaming <;>
        cases (st.streamAttributes Channels.Depth).streaming <;> decide
    · rw [hcalls]
      cases pgt <;> cases pgf <;> cases color <;>
        cases (st.streamAttributes Channels.PointGreyTop).streaming <;>
        cases (st.streamAttributes Channels.PointGreyFront).streaming <;>
        cases (st.streamAttributes Channels.Color).streaming <;>
        cases (st.streamAttributes Channels.Depth).streaming <;> decide
  · intro pgt pgf color dateTime
    have e1 := startRecording_seqWriters st pgt pgf color false dateTime Channels.IR
    have e2 := startRecording_seqWriters st pgt pgf color false dateTime Channels.Depth
    simp only [requested, Bool.false_eq_true, if_false] at e1 e2
    exact ⟨e1, e2⟩
  · rw [hstop, writersClosed_count, writersClosed_count]
    simp only [closesWriter, if_true, reduceCtorEq, if_false]
  · rw [hstop, writersClosed_count, h3]
    simp only [closesWriter, if_true]

/-- Witness for C21: the state after a `startRecording` call for Top and
Depth. -/
theorem C21_ir_lockstep_witness :
    reachable recordingDepthState ∧
    (recordingDepthState.seqWriters Channels.IR).seqFile.isOpen =
      (recordingDepthState.seqWriters Channels.Depth).seqFile.isOpen ∧
    (recordingDepthState.stopRecording.seqWriters Channels.IR).seqFile.isOpen = false :=
  ⟨⟨indeterminate, _, rfl⟩,
   (C21_ir_lockstep recordingDepthState ⟨indeterminate, _, rfl⟩).1,
   (C21_ir_lockstep recordingDepthState ⟨indeterminate, _, rfl⟩).2.2.2.2.2.1⟩

/-- C22: in every state where the IR channel has no recording attribute of its
own (every state the control surface leads to), `Streamer::stopRecording`
clears the global recording flag before it closes any writer; the calls it
issues are `stopRecording` calls on writers only, exactly one for each channel
whose recording attribute was set and exactly one for the IR writer if and only
if Depth was recording, the IR writer right before the Depth writer; the writer
of a channel that was not recording is left as it is, and every recording
attribute is false afterwards. -/
theorem C22_stop_recording (st : StreamerState)
    (hIR : (st.streamAttributes Channels.IR).recording = false) :
    (∀ s ∈ statesThrough st stopRecordingStatements,
      s.calls ≠ st.calls ∨ s.seqWriters ≠ st.seqWriters → s.recording = false) ∧
    runStatements st stopRecordingStatements = st.stopRecording ∧
    st.stopRecording.recording = false ∧
    (∀ call ∈ newCalls st st.stopRecording, ∃ c, call = Call.stopRecording c) ∧
    (∀ c, c ≠ Channels.IR →
      (newCalls st st.stopRecording).count (Call.stopRecording c) =
        if (st.streamAttributes c).recording then 1 else 0) ∧
    (newCalls st st.stopRecording).count (Call.stopRecording Channels.IR) =
      (if (st.streamAttributes Channels.Depth).recording then 1 else 0) ∧
    ((st.streamAttributes Channels.Depth).recording = true →
      ∃ rest, newCalls st st.stopRecording =
        Call.stopRecording Channels.IR :: Call.stopRecording Channels.Depth :: rest) ∧
    (∀ c, st.stopRecording.seqWriters c =
      if closesWriter st c then (st.seqWriters c).stopRecording else st.seqWriters c) ∧
    (∀ c, c ≠ Channels.IR → (st.streamAttributes c).recording = false →
      st.stopRecording.seqWriters c = st.seqWriters c) ∧
    (∀ c, (st.stopRecording.streamAttributes c).recording = false) := by
  have hstop := newCalls_append st st.stopRecording _ (stopRecording_calls st hIR)
  refine ⟨fun s hs hch => stopRecording_states st s hs hch, rfl,
    (stopRecording_others st).2.2.2.2.2, ?_, ?_, ?_, ?_,
    fun c => stopRecording_seqWriters st hIR c, ?_,
    fun c => (stopRecording_streamAttributes st c).1⟩
  · intro call hcall
    rw [hstop] at hcall
    exact writersClosed_stops st call hcall
  · intro c hc
    rw [hstop, writersClosed_count]
    simp only [closesWriter, hc, if_false]
  · rw [hstop, writersClosed_count]
    simp only [closesWriter, if_true]
  · intro hD
    rw [hstop]
    simp only [writersClosed, hD, if_true, List.cons_append, List.nil_append]
    exact ⟨_, rfl⟩
  · intro c hc hrec
    rw [stopRecording_seqWriters st hIR c]
    simp only [closesWriter, hc, if_false, hrec, Bool.false_eq_true]

/-- Witness for C22: `stopRecording` in the state after a `startRecording` call
for Top and Depth. -/
theorem C22_stop_recording_witness :
    (recordingDepthState.streamAttributes Channels.IR).recording = false ∧
    newCalls recordingDepthState recordingDepthState.stopRecording =
      [Call.stopRecording Channels.IR, Call.stopRecording Channels.Depth,
        Call.stopRecording Channels.PointGreyTop] ∧
    (newCalls recordingDepthState recordingDepthState.stopRecording).count
      (Call.stopRecording Channels.IR) = 1 :=
  ⟨rfl, by decide,
   ((C22_stop_recording recordingDepthState rfl).2.2.2.2.2.1).trans (by decide)⟩

/-- C23: `CameraController::setValue(cam, type, val)` and `getValue(cam, type)`
throw `EXCEPTION_PG_INVALID_CAM` if and only if `cam >= numPGCameras`, and in
that case they leave the controller as it is: no call reaches a camera, no
property is read or modified. When `initPG` returns, `numPGCameras` is at most
`PG_CAMERAS_MAX` = 2, so that from then on every request for the Color camera
(index 2) and for the Depth camera (index 3) is rejected in this way, whatever
the library would answer. -/
theorem C23_invalid_camera_rejected (driver : Driver) (cc : CameraControllerState) (cam : Nat)
    (type : CameraProperties) (val : PropertyValue) :
    ((cc.setValue driver cam type val).2 =
        Outcome.raised exception_t.EXCEPTION_PG_INVALID_CAM ↔ cam ≥ cc.numPGCameras) ∧
    ((cc.getValue driver cam type).2 =
        Outcome.raised exception_t.EXCEPTION_PG_INVALID_CAM ↔ cam ≥ cc.numPGCameras) ∧
    (cam ≥ cc.numPGCameras →
      (cc.setValue driver cam type val).1 = cc ∧ (cc.getValue driver cam type).1 = cc) ∧
    (∀ n : Int, (cc.initPG driver).2 = Outcome.returned n →
      (cc.initPG driver).1.numPGCameras ≤ 2 ∧
      ∀ (later : Driver) (camera : Cameras), camera = Cameras.Color ∨ camera = Cameras.Depth →
        (cc.initPG driver).1.setValue later camera.index type val =
          ((cc.initPG driver).1, Outcome.raised exception_t.EXCEPTION_PG_INVALID_CAM) ∧
        (cc.initPG driver).1.getValue later camera.index type =
          ((cc.initPG driver).1, Outcome.raised exception_t.EXCEPTION_PG_INVALID_CAM)) := by
  refine ⟨(setValue_invalid driver cc cam type val).1, (getValue_invalid driver cc cam type).1,
    fun h => ⟨(setValue_invalid driver cc cam type val).2 h,
      (getValue_invalid driver cc cam type).2 h⟩, ?_⟩
  intro n hn
  have hle := initPG_numPGCameras driver cc n hn
  refine ⟨hle, ?_⟩
  intro later camera hcam
  have hge : camera.index ≥ (cc.initPG driver).1.numPGCameras := by
    unfold PG_CAMERAS_MAX at hle
    rcases hcam with rfl | rfl <;> simp only [Cameras.index] <;> omega
  constructor
  · exact Prod.ext ((setValue_invalid later _ _ type val).2 hge)
      ((setValue_invalid later _ _ type val).1.mpr hge)
  · exact Prod.ext ((getValue_invalid later _ _ type).2 hge)
      ((getValue_invalid later _ _ type).1.mpr hge)

/-- Witness for C23: a request for the gain of the Color camera after an
`initPG` that found three cameras. -/
theorem C23_invalid_camera_rejected_witness :
    ((newCameraController indeterminateController).initPG threeCameras).2 = Outcome.returned 2 ∧
    Cameras.Color.index ≥
      ((newCameraController indeterminateController).initPG threeCameras).1.numPGCameras ∧
    (((newCameraController indeterminateController).initPG threeCameras).1.setValue threeCameras
        Cameras.Color.index CameraProperties.Gain 1).2 =
      Outcome.raised exception_t.EXCEPTION_PG_INVALID_CAM :=
  ⟨rfl, by decide,
   (C23_invalid_camera_rejected threeCameras
      ((newCameraController indeterminateController).initPG threeCameras).1
      Cameras.Color.index CameraProperties.Gain 1).1.mpr (by decide)⟩

/-- C24: the claim does not hold of the code. `Streamer::run` calls
`StartCapture` on the cameras of index 0 up to the number of cameras that
`initPG` counted, whichever cameras these were; a camera counts when the
library answers `PGRERROR_OK` at the four steps that end its iteration. When
two cameras are detected and the one of index 0 does not connect while the one
of index 1 passes every step, camera 1 is the only camera initialized and
`StartCapture` is called on camera 0 only. -/
theorem C24_capture_follows_count (driver : Driver) (st : StreamerState)
    (cc : CameraControllerState) :
    (∃ st1 cc1, st.run driver cc = some (st1, cc1) ∧ st1 = { st with running := true } ∧
      startedCameras cc1.log = startedCameras cc.log ++
        List.range (if driver.busError then 0 else
          (initializedCameras driver cc
            (List.range (min (driver.numCameras % 4294967296) PG_CAMERAS_MAX))).length)) ∧
    (∀ i : Nat, (initCamera driver cc i).2 =
      (driver.GetCameraFromIndex i && driver.Connect i && driver.ValidateFormat7Settings i &&
        driver.SetFormat7Configuration i)) ∧
    initializedCameras firstCameraFails (newCameraController indeterminateController)
      (List.range (min (firstCameraFails.numCameras % 4294967296) PG_CAMERAS_MAX)) = [1] ∧
    (∃ st1 cc1,
      (newStreamer indeterminate).run firstCameraFails
        (newCameraController indeterminateController) = some (st1, cc1) ∧
      startedCameras cc1.log = [0]) := by
  refine ⟨run_startedCameras driver st cc, fun i => initCamera_snd driver cc i, ?_, ?_⟩
  · rw [initializedCameras_eq]
    decide
  · obtain ⟨st1, cc1, h1, -, h3⟩ := run_startedCameras firstCameraFails (newStreamer indeterminate)
      (newCameraController indeterminateController)
    refine ⟨st1, cc1, h1, ?_⟩
    rw [h3, initializedCameras_eq]
    decide

/-- C25: in every state, the channels `checkFrameBuffer` checks in one poll of
`imageTransporter` are exactly the channels among Top, Front, Depth and Color
with `streaming` set, or `recording` set together with the global recording
flag; IR is never among them; and after the constructor no channel is, whatever
the value of the global recording flag, so that the poll does nothing. -/
theorem C25_enabled_set (st : StreamerState) (s : Streamer) :
    (∀ c, c ∈ polledChannels st ↔
      (c = Channels.PointGreyTop ∨ c = Channels.PointGreyFront ∨ c = Channels.Depth ∨
          c = Channels.Color) ∧
        ((st.streamAttributes c).streaming = true ∨
          ((st.streamAttributes c).recording = true ∧ st.recording = true))) ∧
    Channels.IR ∉ polledChannels st ∧
    imageTransporterPoll st s =
      checkFrameBuffer s (transporterFlags st).1 (transporterFlags st).2.1
        (transporterFlags st).2.2.1 (transporterFlags st).2.2.2 ∧
    polledChannels st =
      channels_to_check (transporterFlags st).1 (transporterFlags st).2.1
        (transporterFlags st).2.2.1 (transporterFlags st).2.2.2 ∧
    (∀ u : StreamerState, polledChannels (newStreamer u) = []) ∧
    (∀ u : StreamerState, imageTransporterPoll (newStreamer u) s = s) := by
  refine ⟨?_, ?_, rfl, rfl, ?_, ?_⟩
  · intro c
    rw [mem_polledChannels]
    cases c <;> simp
  · rw [mem_polledChannels]
    simp
  · intro u
    cases hr : u.recording <;> simp [polledChannels, transporterFlags, newStreamer, channels_to_check]
  · intro u
    cases hr : u.recording <;>
      simp [imageTransporterPoll, transporterFlags, newStreamer, checkFrameBuffer,
        channels_to_check]

/-- C26 (counterexample): a frame processed exactly 100 ms after the last
publish of a streaming channel is not published, and the last-publish time is
not changed; one processed 101 ms after it is. -/
theorem C26_not_published_at_100_ms :
    (streamingState.streamAttributes Channels.Depth).streaming = true ∧
    streamingState.lastUIUpdate Channels.Depth = 0 ∧
    (displaySection stubCopy streamingState Channels.Depth testFrameData 100).2 = [] ∧
    (displaySection stubCopy streamingState Channels.Depth testFrameData 100).1.lastUIUpdate
      Channels.Depth = 0 ∧
    (displaySection stubCopy streamingState Channels.Depth testFrameData 101).2.length = 1 :=
  ⟨rfl, rfl, rfl, rfl, rfl⟩

/-- C26, amended: for every frame processed on a channel other than IR whose
streaming flag is set, the processor publishes the frame cropped to the ROI
(for Depth the scaled image) if and only if `time_diff`, the whole milliseconds
elapsed since the last publish of the channel reduced modulo 10^9, is greater
than `UI_UPDATE_RATE` = 100; for an elapsed time of 0 to 10^9 - 1 ms that is:
if and only if at least 101 ms have elapsed. On publishing it emits exactly one
signal and sets the last-publish time of the channel to now, leaving the rest
of the state as it is; otherwise nothing is emitted and the state, the
last-publish time included, is unchanged. -/
theorem C26_display_throttle (copy : QImage → Int → Int → Int → Int → QImage)
    (st : StreamerState) (channel : Channels) (frame : FrameData) (now : Int)
    (hch : channel ≠ Channels.IR) (hstream : (st.streamAttributes channel).streaming = true) :
    UI_UPDATE_RATE = 100 ∧
    ((displaySection copy st channel frame now).2 ≠ [] ↔
      wrapInt32 (Int.tmod (now - st.lastUIUpdate channel) 1000000000) > UI_UPDATE_RATE) ∧
    (0 ≤ now - st.lastUIUpdate channel → now - st.lastUIUpdate channel < 1000000000 →
      ((displaySection copy st channel frame now).2 ≠ [] ↔
        now - st.lastUIUpdate channel ≥ 101)) ∧
    ((displaySection copy st channel frame now).2 ≠ [] →
      (displaySection copy st channel frame now).2 =
        [(camOf channel,
          cropToROI copy st (camOf channel)
            (if channel = Channels.Depth then depthScaled frame.rawImage frame.rawImage
             else frame.rawImage))] ∧
      (displaySection copy st channel frame now).1 =
        { st with lastUIUpdate := Function.update st.lastUIUpdate channel now } ∧
      (displaySection copy st channel frame now).1.lastUIUpdate channel = now) ∧
    ((displaySection copy st channel frame now).2 = [] →
      (displaySection copy st channel frame now).1 = st) := by
  have hd := displaySection_streaming copy st channel frame now hch hstream
  by_cases hgt : wrapInt32 (Int.tmod (now - st.lastUIUpdate channel) 1000000000) > UI_UPDATE_RATE
  · rw [if_pos hgt] at hd
    refine ⟨rfl, ?_, ?_, ?_, ?_⟩
    · rw [hd]
      simp [hgt]
    · intro h0 h1
      rw [time_diff_eq _ h0 h1] at hgt
      rw [hd]
      simp only [ne_eq, List.cons_ne_self, not_false_eq_true, true_iff, reduceCtorEq]
      unfold UI_UPDATE_RATE at hgt
      omega
    · intro _
      rw [hd]
      exact ⟨rfl, rfl, by simp⟩
    · intro h
      rw [hd] at h
      simp at h
  · rw [if_neg hgt] at hd
    refine ⟨rfl, ?_, ?_, ?_, ?_⟩
    · rw [hd]
      simp [hgt]
    · intro h0 h1
      rw [time_diff_eq _ h0 h1] at hgt
      rw [hd]
      simp only [ne_eq, not_true_eq_false, false_iff]
      unfold UI_UPDATE_RATE at hgt
      omega
    · intro h
      rw [hd] at h
      exact absurd rfl h
    · intro _
      rw [hd]

/-- Witness for C26: a Depth frame processed 250 ms after the last publish. -/
theorem C26_display_throttle_witness :
    Channels.Depth ≠ Channels.IR ∧
    (streamingState.streamAttributes Channels.Depth).streaming = true ∧
    ((displaySection stubCopy streamingState Channels.Depth testFrameData 250).2 ≠ [] ↔
      (250 : Int) - streamingState.lastUIUpdate Channels.Depth ≥ 101) :=
  ⟨by decide, rfl,
   (C26_display_throttle stubCopy streamingState Channels.Depth testFrameData 250 (by decide)
      rfl).2.2.1 (by decide) (by decide)⟩

/-- C27: the claim does not hold of the code for the Point Grey channels. What
holds for every channel and frame: the recording section issues exactly the
calls of `writeFrameCalls`, which are none unless `recording` of the channel
and the global recording flag are set, and otherwise one call to the writer of
the channel with the frame cropped to the current ROI, preceded for Depth by
one call to the IR writer exactly when the frame has confidence data; all
these calls get the same timestamp, and while Depth records the frame counter
of the IR writer never exceeds the one of the Depth writer and equals it when
every frame has confidence data. But the timestamp is read from `currentFrame`
when the call is made: for a frame without `PGData` it is the timestamp of the
frame, for a frame with `PGData`, deleted during the conversion, it is
whatever the memory of the deleted frame holds. -/
theorem C27_timestamp_read_after_delete
    (compressJPEG : QImage → Int → Int → Option (List Nat))
    (copy : QImage → Int → Int → Int → Int → QImage) (st : StreamerState)
    (channel : Channels) (frame : FrameData) (currentFrame : CameraFrame)
    (deleted : DeletedFrame) :
    recordingSection compressJPEG copy st channel frame =
      issueWriteFrames compressJPEG st (writeFrameCalls copy st channel frame) ∧
    (recordingActive st channel = false → writeFrameCalls copy st channel frame = []) ∧
    (recordingActive st channel = true → channel ≠ Channels.Depth →
      writeFrameCalls copy st channel frame =
        [{ channel := channel
           image := cropToROI copy st (camOf channel) frame.rawImage
           secs := frame.timestampSeconds
           ms := frame.timestampMilliSeconds }]) ∧
    (recordingActive st Channels.Depth = true →
      writeFrameCalls copy st Channels.Depth frame =
        frame.confidenceImage.toList.map (fun confidenceImage =>
          { channel := Channels.IR
            image := cropToROI copy st Cameras.Depth
              (depthScaled (depthScaled frame.rawImage frame.rawImage) confidenceImage)
            secs := frame.timestampSeconds
            ms := frame.timestampMilliSeconds }) ++
        [{ channel := Channels.Depth
           image := cropToROI copy st Cameras.Depth (depthScaled frame.rawImage frame.rawImage)
           secs := frame.timestampSeconds
           ms := frame.timestampMilliSeconds }]) ∧
    (currentFrame.PGData = false →
      (convertFrame currentFrame deleted).timestampSeconds = currentFrame.timestampSeconds ∧
      (convertFrame currentFrame deleted).timestampMilliSeconds =
        currentFrame.timestampMilliSeconds) ∧
    (currentFrame.PGData = true →
      (convertFrame currentFrame deleted).timestampSeconds = deleted.timestampSeconds ∧
      (convertFrame currentFrame deleted).timestampMilliSeconds =
        deleted.timestampMilliSeconds) ∧
    ((writeFrameCalls stubCopy recordingTopState Channels.PointGreyTop
        (convertFrame testPGFrame filledMemory)).map (fun call => (call.channel, call.secs, call.ms)) =
      [(Channels.PointGreyTop, -572662307, -572662307)] ∧
      testPGFrame.timestampSeconds = 12 ∧ testPGFrame.timestampMilliSeconds = 345) ∧
    (∀ frames : List FrameData,
      (∀ image w h, ∃ jpeg, compressJPEG image w h = some jpeg) →
      recordingActive st Channels.Depth = true →
      (st.seqWriters Channels.Depth).totalFrames = 0 →
      (st.seqWriters Channels.IR).totalFrames = 0 →
      frames.length < 2147483648 →
      ∃ st1, recordFrames compressJPEG copy Channels.Depth st frames = some st1 ∧
        (st1.seqWriters Channels.Depth).totalFrames = frames.length ∧
        (st1.seqWriters Channels.IR).totalFrames =
          (frames.filter (fun frame => frame.confidenceImage.isSome)).length ∧
        (st1.seqWriters Channels.IR).totalFrames ≤
          (st1.seqWriters Channels.Depth).totalFrames ∧
        ((∀ frame ∈ frames, frame.confidenceImage.isSome = true) →
          (st1.seqWriters Channels.IR).totalFrames =
            (st1.seqWriters Channels.Depth).totalFrames)) := by
  refine ⟨recordingSection_eq_calls compressJPEG copy st channel frame, ?_, ?_, ?_, ?_, ?_,
    ⟨rfl, rfl, rfl⟩, ?_⟩
  · intro h
    simp [writeFrameCalls, h]
  · intro h hd
    simp [writeFrameCalls, h, hd]
  · intro h
    cases hconf : frame.confidenceImage <;>
      simp [writeFrameCalls, h, hconf, COMPATIBILITY_MODE, camOf]
  · intro h
    simp [convertFrame, h]
  · intro h
    simp [convertFrame, h]
  · intro frames htotal hra hD hI hlen
    obtain ⟨st1, h1, h2, h3⟩ := recordFrames_depth compressJPEG copy htotal frames st hra
      (by rw [hD]) (by rw [hI]) (by rw [hD]; omega) (by rw [hI]; omega)
    rw [hD, zero_add] at h2
    rw [hI, zero_add] at h3
    refine ⟨st1, h1, h2, h3, ?_, ?_⟩
    · rw [h2, h3]
      exact_mod_cast List.length_filter_le _ _
    · intro hall
      rw [h2, h3, List.filter_eq_self.mpr hall]

/-- Witness for C27: a Depth frame with confidence data processed while Depth
records. -/
theorem C27_timestamp_read_after_delete_witness :
    recordingActive streamingState Channels.Depth = true ∧
    writeFrameCalls stubCopy streamingState Channels.Depth testFrameData =
        testFrameData.confidenceImage.toList.map (fun confidenceImage =>
          { channel := Channels.IR
            image := cropToROI stubCopy streamingState Cameras.Depth
              (depthScaled (depthScaled testFrameData.rawImage testFrameData.rawImage)
                confidenceImage)
            secs := testFrameData.timestampSeconds
            ms := testFrameData.timestampMilliSeconds }) ++
        [{ channel := Channels.Depth
           image := cropToROI stubCopy streamingState Cameras.Depth
             (depthScaled testFrameData.rawImage testFrameData.rawImage)
           secs := testFrameData.timestampSeconds
           ms := testFrameData.timestampMilliSeconds }] :=
  ⟨rfl,
   (C27_timestamp_read_after_delete stubJPEG stubCopy streamingState Channels.Depth testFrameData
      testPGFrame filledMemory).2.2.2.1 rfl⟩

/-- C28: the claim does not hold of the code. With the pipeline running, two
`startStreaming` calls for Top leave two processors of Top alive, and they stay
alive however often they evaluate their condition; so do `startStreaming`,
`stopStreaming`, `startStreaming` when the first processor does not evaluate
its condition between the last two calls, and `startRecording` for Top,
`stopRecording`, `startStreaming`. What holds: `startStreaming` starts a
processor unless the recording attribute of the channel is set, and
`startRecording` starts one for each requested channel that is not streaming. -/
theorem C28_second_processor_started (u : StreamerState) :
    (taskSteps (startedTasks u)
      [TaskStep.call (ControlCall.startStreaming Cameras.PointGreyTop),
       TaskStep.call (ControlCall.startStreaming Cameras.PointGreyTop)]).alive
        Channels.PointGreyTop = 2 ∧
    (∀ n : Nat,
      (taskSteps
        (taskSteps (startedTasks u)
          [TaskStep.call (ControlCall.startStreaming Cameras.PointGreyTop),
           TaskStep.call (ControlCall.startStreaming Cameras.PointGreyTop)])
        (List.replicate n (TaskStep.observe Channels.PointGreyTop))).alive
          Channels.PointGreyTop = 2) ∧
    (taskSteps (startedTasks u)
      [TaskStep.call (ControlCall.startStreaming Cameras.PointGreyTop),
       TaskStep.call (ControlCall.stopStreaming Cameras.PointGreyTop),
       TaskStep.call (ControlCall.startStreaming Cameras.PointGreyTop)]).alive
        Channels.PointGreyTop = 2 ∧
    (∀ dateTime : String,
      (taskSteps (startedTasks u)
        [TaskStep.call (ControlCall.startRecording true false false false dateTime),
         TaskStep.call ControlCall.stopRecording,
         TaskStep.call (ControlCall.startStreaming Cameras.PointGreyTop)]).alive
          Channels.PointGreyTop = 2) ∧
    (∀ (st : StreamerState) (camera : Cameras),
      newCalls st (st.startStreaming camera) =
        if (st.streamAttributes (streamingChannel camera)).recording then []
        else [Call.imageProcessor (streamingChannel camera)]) ∧
    (∀ (st : StreamerState) (pgt pgf color depth : Bool) (dateTime : String) (c : Channels),
      (newCalls st (st.startRecording pgt pgf color depth dateTime)).count
          (Call.imageProcessor c) =
        if c ≠ Channels.IR ∧ requested pgt pgf color depth c = true ∧
            (st.streamAttributes c).streaming = false then 1 else 0) := by
  refine ⟨rfl, ?_, rfl, ?_, startStreaming_calls, startRecording_processors⟩
  · intro n
    have hgo : processorContinues
        (taskSteps (startedTasks u)
          [TaskStep.call (ControlCall.startStreaming Cameras.PointGreyTop),
           TaskStep.call (ControlCall.startStreaming Cameras.PointGreyTop)]).st
        Channels.PointGreyTop = true := rfl
    rw [taskSteps_observe _ _ hgo n]
    rfl
  · intro dateTime
    simp only [taskSteps, List.foldl, taskStep, controlStep]
    have h1 := startRecording_processors (startedTasks u).st true false false false dateTime
      Channels.PointGreyTop
    have h2 : (((startedTasks u).st.startRecording true false false false
        dateTime).streamAttributes Channels.IR).recording = false := by
      rw [(startRecording_streamAttributes _ _ _ _ _ _ _).1]
      rfl
    have h3 := newCalls_append _ _ _ (stopRecording_calls _ h2)
    have h4 := startStreaming_calls
      ((startedTasks u).st.startRecording true false false false dateTime).stopRecording
      Cameras.PointGreyTop
    rw [(stopRecording_streamAttributes _ _).1] at h4
    rw [h1, h3, h4]
    simp only [writersClosed, (startRecording_streamAttributes _ _ _ _ _ _ _).1]
    simp [startedTasks, newStreamer, requested, streamingChannel]

/-- C29 (counterexample): for the capture time 2^31 x 10^6 microseconds, which
is below 2^32 x 10^6, the local `sec` is 2147483648 = T div 10^6, but the pair
stored in the frame, two `int` members, has the seconds -2147483648, and then
sec x 1000 + ms is not T div 1000. -/
theorem C29_stored_seconds_wrap :
    (2147483648000000 : Nat) < 4294967296000000 ∧
    DSTimestampLocals 2147483648000000 = (2147483648, 0) ∧
    DSTimestamp 2147483648000000 = (-2147483648, 0) ∧
    (DSTimestamp 2147483648000000).1 ≠ ((2147483648000000 / 1000000 : Nat) : Int) ∧
    (DSTimestamp 2147483648000000).1 * 1000 + (DSTimestamp 2147483648000000).2 ≠
      ((2147483648000000 / 1000 : Nat) : Int) := by
  refine ⟨by decide, by decide, by decide, by decide, by decide⟩

/-- C29, amended: for a Point Grey frame with `t >= 0` elapsed milliseconds the
stored pair is `sec = (t mod 10^9) div 1000` and `ms = (t mod 10^9) mod 1000`,
so `0 <= ms <= 999` and `sec x 1000 + ms = t mod 10^9`. For a DepthSense frame
with capture time `T` microseconds the locals are `sec = T div 10^6` and
`ms = (T div 1000) - 1000 x sec` when `T < 2^32 x 10^6`; the stored pair has
these values when `T < 2^31 x 10^6`, and then `0 <= ms <= 999` and
`sec x 1000 + ms = T div 1000`; for every `T < 2^32 x 10^6` the stored `ms` is
in 0 .. 999, the stored seconds are `T div 10^6` wrapped to an `int`, and the 4
bytes of the seconds written to the timestamp record are those of
`T div 10^6`. In both cases `ms` fits the 2-byte millisecond field of the
record: the field reads back as `ms`. -/
theorem C29_timestamps (t : Int) (T : Nat) (ht : 0 ≤ t) (hT : T < 4294967296000000) :
    PGTimestamp t = (t % 1000000000 / 1000, t % 1000000000 % 1000) ∧
    0 ≤ (PGTimestamp t).2 ∧ (PGTimestamp t).2 ≤ 999 ∧
    (PGTimestamp t).1 * 1000 + (PGTimestamp t).2 = t % 1000000000 ∧
    (readLE (bytesAt (timestampRecord (PGTimestamp t).1 (PGTimestamp t).2) 4 2) : Int) =
      (PGTimestamp t).2 ∧
    DSTimestampLocals T = (T / 1000000, T / 1000 - 1000 * (T / 1000000)) ∧
    (T < 2147483648000000 →
      DSTimestamp T = (((T / 1000000 : Nat) : Int), ((T / 1000 - 1000 * (T / 1000000) : Nat) : Int)) ∧
      (DSTimestamp T).1 * 1000 + (DSTimestamp T).2 = ((T / 1000 : Nat) : Int)) ∧
    (DSTimestamp T).1 = wrapInt32 ((T / 1000000 : Nat) : Int) ∧
    0 ≤ (DSTimestamp T).2 ∧ (DSTimestamp T).2 ≤ 999 ∧
    (readLE (bytesAt (timestampRecord (DSTimestamp T).1 (DSTimestamp T).2) 0 4) : Int) =
      ((T / 1000000 : Nat) : Int) ∧
    (readLE (bytesAt (timestampRecord (DSTimestamp T).1 (DSTimestamp T).2) 4 2) : Int) =
      (DSTimestamp T).2 := by
  have hpg := PGTimestamp_eq t ht
  obtain ⟨p1, p2, p3, p4⟩ := split_milliseconds (t % 1000000000)
  obtain ⟨hds, hms⟩ := DSTimestampLocals_eq T hT
  obtain ⟨hsec, hmsv⟩ := DSTimestamp_eq T hT
  obtain ⟨q1, q2, q3⟩ := split_microseconds T
  obtain ⟨r1, r2⟩ := seconds_in_range T hT
  have q0 : (0 : Int) ≤ ((T / 1000 % 1000 : Nat) : Int) := Int.ofNat_nonneg _
  have s0 : (0 : Int) ≤ ((T / 1000000 : Nat) : Int) := Int.ofNat_nonneg _
  refine ⟨hpg, ?_, ?_, ?_, ?_, hds, ?_, hsec, ?_, ?_, ?_, ?_⟩
  · rw [hpg]; exact p1
  · rw [hpg]; exact p2
  · rw [hpg]; exact p3
  · rw [timestampRecord_milliseconds, readLE_int16Bytes, hpg]; exact p4
  · intro hlt
    have hw : wrapInt32 ((T / 1000000 : Nat) : Int) = ((T / 1000000 : Nat) : Int) :=
      wrapInt32_of_range _ (le_trans (by decide) s0) (r2 hlt)
    have hpair : DSTimestamp T =
        (((T / 1000000 : Nat) : Int), ((T / 1000 - 1000 * (T / 1000000) : Nat) : Int)) := by
      refine Prod.ext ?_ ?_
      · exact hsec.trans hw
      · rw [hms]; exact hmsv
    refine ⟨hpair, ?_⟩
    rw [hsec, hw, hmsv]
    exact q2
  · rw [hmsv]; exact q0
  · rw [hmsv]; exact q1
  · rw [timestampRecord_seconds, readLE_int32Bytes, hsec]
    exact wrapInt32_emod _ s0 r1
  · rw [timestampRecord_milliseconds, readLE_int16Bytes, hmsv]
    exact q3

/-- Witness for C29: 1234567 ms of elapsed time, and the capture time
123456789 microseconds. -/
theorem C29_timestamps_witness :
    (0 : Int) ≤ 1234567 ∧ (123456789 : Nat) < 4294967296000000 ∧
    PGTimestamp 1234567 = (1234567 % 1000000000 / 1000, 1234567 % 1000000000 % 1000) ∧
    DSTimestampLocals 123456789 =
      (123456789 / 1000000, 123456789 / 1000 - 1000 * (123456789 / 1000000)) :=
  ⟨by decide, by decide,
   (C29_timestamps 1234567 123456789 (by decide) (by decide)).1,
   (C29_timestamps 1234567 123456789 (by decide) (by decide)).2.2.2.2.2.1⟩

/-- C30: from a state in which every Delivery Queue holds at most
`MAX_QUEUE_SIZE + 1 = 6` frames, every sequence of Synchronization Buffer
pushes, coordinator passes and processor pops leads to a state in which every
Delivery Queue holds at most 6 frames; the coordinator passes may use any
flags, also different ones from pass to pass. -/
theorem C30_delivery_queue_bounded (s : Streamer) (ops : List Op)
    (h : ∀ ch, (s.frameQueues ch).length ≤ MAX_QUEUE_SIZE + 1) :
    MAX_QUEUE_SIZE + 1 = 6 ∧
    (∀ ch, ((run s ops).frameQueues ch).length ≤ 6) ∧
    (∀ (k : Nat) (ch : Channels), ((run s (ops.take k)).frameQueues ch).length ≤ 6) :=
  ⟨rfl, run_length_le ops s h, fun k => run_length_le (ops.take k) s h⟩

/-- Witness for C30: a coordinator pass from the state in which Top already
holds `MAX_QUEUE_SIZE` frames; the bound of 6 frames is reached. -/
theorem C30_delivery_queue_bounded_witness :
    (∀ ch, (atCapacityState.frameQueues ch).length ≤ MAX_QUEUE_SIZE + 1) ∧
    (∀ ch, ((run atCapacityState [Op.check true true false false]).frameQueues ch).length ≤ 6) ∧
    ((run atCapacityState [Op.check true true false false]).frameQueues
      Channels.PointGreyTop).length = 6 :=
  ⟨fun ch => by cases ch <;> decide,
   (C30_delivery_queue_bounded atCapacityState [Op.check true true false false]
      (fun ch => by cases ch <;> decide)).2.1,
   by decide⟩

end Hunter
